import Mathlib

/-!
# attachment-service: the extended repository and its handlers

A shallow embedding of `internal/repository/extended_repository.go`,
`internal/models/extended.go` and the handlers of
`internal/api/extended_handler.go`.

The document store is embedded as one list of records per MongoDB collection,
in insertion (natural) order.  The store primitives the repository calls are
embedded once (`findOne`, `updateOne`, `deleteOne`, `deleteMany`) and every
repository method is a function from the store before the call to the store
after the call together with the Go `error` it returns (`none` is `nil`).

Conventions.
* `time.Now()` is an input of the call (one argument per reading that reaches
  the store).
* The `_id` the driver generates for a record inserted without one is an input
  of the call (`fresh`); an insert whose `_id` is already stored fails with a
  duplicate-key error, as do inserts that violate one of the unique indexes
  created in `NewExtendedRepository`.
* Go `int` counters are embedded as `Int`: they move by one per call, so the
  64-bit range is out of reach.
* Loss of connectivity to the store is not embedded: all statements are about
  calls the store answers.
-/

namespace AttachmentService

/-! ## Identifiers, time, errors -/

/-- A `primitive.ObjectID`: twelve bytes, read as one big-endian number. -/
abbrev ObjectID := Nat

/-- The zero value of `primitive.ObjectID`. -/
def NilObjectID : ObjectID := 0

/-- A `time.Time` instant. -/
abbrev Time := Nat

/-- The errors the repository can return from a store that answers. -/
inductive StoreError where
  | ErrInvalidHex
  | ErrDuplicateKey
  | ErrNoDocuments
  | ErrBadValue
deriving DecidableEq, Repr

deriving instance DecidableEq for Except

/-- Value of one hexadecimal digit, as `encoding/hex` reads it (both cases). -/
def hexDigit (c : Char) : Option Nat :=
  let n := c.toNat
  if 48 ≤ n ∧ n ≤ 57 then some (n - 48)
  else if 97 ≤ n ∧ n ≤ 102 then some (n - 87)
  else if 65 ≤ n ∧ n ≤ 70 then some (n - 55)
  else none

/-- Big-endian value of a string of hexadecimal digits, `none` on any other character. -/
def hexDecode : Nat → List Char → Option Nat
  | acc, [] => some acc
  | acc, c :: cs =>
    match hexDigit c with
    | some d => hexDecode (16 * acc + d) cs
    | none => none

/-- The driver function `primitive.ObjectIDFromHex`: the string must be 24 bytes
long and consist of hexadecimal digits. -/
def ObjectIDFromHex (s : String) : Option ObjectID :=
  if s.utf8ByteSize = 24 then hexDecode 0 s.data else none

/-- The `_id` a record gets on `InsertOne`: the field is tagged `omitempty`, so a
zero id is left out of the document and the driver generates one. -/
def insertedID (given fresh : ObjectID) : ObjectID :=
  if given = NilObjectID then fresh else given

/-! ## Records (`internal/models/extended.go`) -/

structure AttachmentVersion where
  ID : ObjectID
  AttachmentID : String
  VersionNum : Int
  FileName : String
  OriginalName : String
  MimeType : String
  Size : Int
  StoragePath : String
  URL : String
  Checksum : String
  UploadedBy : String
  Comment : String
  CreatedAt : Time
deriving DecidableEq, Repr

structure AttachmentComment where
  ID : ObjectID
  AttachmentID : String
  UserID : String
  Content : String
  ParentID : String
  IsEdited : Bool
  CreatedAt : Time
  UpdatedAt : Time
deriving DecidableEq, Repr

structure AttachmentTag where
  ID : ObjectID
  AttachmentID : String
  Tag : String
  AddedBy : String
  CreatedAt : Time
deriving DecidableEq, Repr

structure AttachmentFavorite where
  ID : ObjectID
  AttachmentID : String
  UserID : String
  CreatedAt : Time
deriving DecidableEq, Repr

structure AttachmentShare where
  ID : ObjectID
  AttachmentID : String
  SharedBy : String
  SharedWith : String
  Permission : String
  ExpiresAt : Option Time
  CreatedAt : Time
deriving DecidableEq, Repr

structure AttachmentCollection where
  ID : ObjectID
  Name : String
  Description : String
  WorkspaceID : String
  CreatedBy : String
  CoverURL : String
  ItemCount : Int
  IsPublic : Bool
  CreatedAt : Time
  UpdatedAt : Time
deriving DecidableEq, Repr

structure CollectionItem where
  ID : ObjectID
  CollectionID : String
  AttachmentID : String
  AddedBy : String
  Position : Int
  AddedAt : Time
deriving DecidableEq, Repr

structure AttachmentPermission where
  ID : ObjectID
  AttachmentID : String
  UserID : String
  CanView : Bool
  CanDownload : Bool
  CanDelete : Bool
  CanShare : Bool
  GrantedBy : String
  CreatedAt : Time
  UpdatedAt : Time
deriving DecidableEq, Repr

structure ShareLink where
  ID : ObjectID
  AttachmentID : String
  Code : String
  CreatedBy : String
  Password : String
  MaxDownloads : Int
  DownloadCount : Int
  ExpiresAt : Option Time
  IsActive : Bool
  CreatedAt : Time
deriving DecidableEq, Repr

/-- Modelled from the spec: the record `models.Attachment` of the base attachment
service, whose declaration is not among the sources.  The fields are the stored
fields the extended repository reads or writes (`_id`, `user_id`, `workspace_id`,
`channel_id`, `message_id`, `original_name`, `type`, `status`, `size`,
`created_at`, `updated_at`; `FileType` is the stored field `type`); an absent
`status` is the empty string. -/
structure Attachment where
  ID : ObjectID
  UserID : String
  WorkspaceID : String
  ChannelID : String
  MessageID : String
  OriginalName : String
  FileType : String
  Status : String
  Size : Int
  CreatedAt : Time
  UpdatedAt : Time
deriving DecidableEq, Repr

/-! ## The store -/

/-- The MongoDB collections of `ExtendedRepository`, each in natural order. -/
structure Store where
  versions : List AttachmentVersion := []
  comments : List AttachmentComment := []
  tags : List AttachmentTag := []
  favorites : List AttachmentFavorite := []
  shares : List AttachmentShare := []
  collections : List AttachmentCollection := []
  collItems : List CollectionItem := []
  permissions : List AttachmentPermission := []
  shareLinks : List ShareLink := []
  attachments : List Attachment := []
deriving DecidableEq, Repr

/-- What a repository method leaves behind: the store after the call and the
returned `error` (`none` for `nil`). -/
abbrev Result := Store × Option StoreError

/-- `FindOne(filter)`: the first record that matches. -/
def findOne {α : Type} (p : α → Bool) (xs : List α) : Option α :=
  xs.find? p

/-- `UpdateOne(filter, update)`: the update is applied to the first record that
matches; no match is not an error. -/
def updateOne {α : Type} (p : α → Bool) (f : α → α) : List α → List α
  | [] => []
  | x :: xs => if p x then f x :: xs else x :: updateOne p f xs

/-- `DeleteOne(filter)`: the first record that matches is removed; no match is
not an error. -/
def deleteOne {α : Type} (p : α → Bool) : List α → List α
  | [] => []
  | x :: xs => if p x then xs else x :: deleteOne p xs

/-- `DeleteMany(filter)`: every record that matches is removed. -/
def deleteMany {α : Type} (p : α → Bool) (xs : List α) : List α :=
  xs.filter (fun x => !p x)

/-- The answer of a handler: the HTTP status and the record under `data`, if any. -/
structure Response (α : Type) where
  status : Nat
  data : Option α
deriving DecidableEq, Repr

/-! ## Share links -/

/-- `CreateShareLink`: stamps the creation time, forces `IsActive = true` and
inserts; `code` carries a unique index. -/
def CreateShareLink (s : Store) (now : Time) (fresh : ObjectID) (link : ShareLink) : Result :=
  let doc : ShareLink :=
    { link with CreatedAt := now, IsActive := true, ID := insertedID link.ID fresh }
  if s.shareLinks.any (fun l => l.ID == doc.ID || l.Code == doc.Code) then
    (s, some StoreError.ErrDuplicateKey)
  else
    ({ s with shareLinks := s.shareLinks ++ [doc] }, none)

/-- `GetShareLinkByCode`: `FindOne` on `code` and `is_active: true`. -/
def GetShareLinkByCode (s : Store) (code : String) : Except StoreError ShareLink :=
  match findOne (fun l => l.Code == code && l.IsActive == true) s.shareLinks with
  | some l => Except.ok l
  | none => Except.error StoreError.ErrNoDocuments

/-- `IncrementShareLinkDownloads`: `UpdateOne` on `code` with `$inc download_count 1`. -/
def IncrementShareLinkDownloads (s : Store) (code : String) : Result :=
  let links := updateOne (fun l => l.Code == code)
    (fun l => { l with DownloadCount := l.DownloadCount + 1 }) s.shareLinks
  ({ s with shareLinks := links }, none)

/-- `DeactivateShareLink`: parses the id, then `UpdateOne` on `_id` with
`$set is_active false`. -/
def DeactivateShareLink (s : Store) (id : String) : Result :=
  match ObjectIDFromHex id with
  | none => (s, some StoreError.ErrInvalidHex)
  | some objID =>
    let links := updateOne (fun l => l.ID == objID) (fun l => { l with IsActive := false })
      s.shareLinks
    ({ s with shareLinks := links }, none)

/-- Handler `GetShareLink`: 404 when the repository returns an error, else 200
with the link. -/
def ExtendedHandler.GetShareLink (s : Store) (code : String) : Response ShareLink :=
  match GetShareLinkByCode s code with
  | Except.error _ => { status := 404, data := none }
  | Except.ok link => { status := 200, data := some link }

/-- The body of a `CreateShareLinkRequest` (`expires_at` is bound and never read). -/
structure CreateShareLinkRequest where
  Password : String
  MaxDownloads : Int
  ExpiresAt : String
deriving DecidableEq, Repr

/-- Handler `CreateShareLink`, `req` being the decoded body (no field of it is
required, so every decoded body binds): `uuid8` stands for
`uuid.New().String()[:8]`, `attachmentID` for the path parameter and `userID`
for the `X-User-ID` header.  Answers 500 on a repository error, else 201 with
the stored link. -/
def ExtendedHandler.CreateShareLink (s : Store) (now : Time) (fresh : ObjectID) (uuid8 : String)
    (attachmentID userID : String) (req : CreateShareLinkRequest) :
    Store × Response ShareLink :=
  let link : ShareLink :=
    { ID := NilObjectID, AttachmentID := attachmentID, Code := uuid8, CreatedBy := userID,
      Password := req.Password, MaxDownloads := req.MaxDownloads, DownloadCount := 0,
      ExpiresAt := none, IsActive := false, CreatedAt := 0 }
  match AttachmentService.CreateShareLink s now fresh link with
  | (s1, some _) => (s1, { status := 500, data := none })
  | (s1, none) =>
    (s1, { status := 201,
           data := some { link with CreatedAt := now, IsActive := true, ID := fresh } })

/-- The store after `n` calls of `IncrementShareLinkDownloads` on one code. -/
def incrementTimes (code : String) : Nat → Store → Store
  | 0, s => s
  | n + 1, s => incrementTimes code n (IncrementShareLinkDownloads s code).1

/-- One mutating call of the share-link repository. -/
inductive ShareLinkOp where
  | create (now : Time) (fresh : ObjectID) (link : ShareLink)
  | increment (code : String)
  | deactivate (id : String)
deriving Repr

/-- The call a `ShareLinkOp` stands for. -/
def ShareLinkOp.apply (s : Store) : ShareLinkOp → Result
  | ShareLinkOp.create now fresh link => CreateShareLink s now fresh link
  | ShareLinkOp.increment code => IncrementShareLinkDownloads s code
  | ShareLinkOp.deactivate id => DeactivateShareLink s id

/-- The store after a sequence of share-link calls, failed calls included. -/
def runShareLinkOps (s : Store) (ops : List ShareLinkOp) : Store :=
  ops.foldl (fun st op => (ShareLinkOp.apply st op).1) s

/-- The store holding one link created through the handler with the given
download limit and a password. -/
def oneLinkStore (maxDownloads : Int) : Store :=
  (ExtendedHandler.CreateShareLink {} 1000 0x64b7f3a2c1d4e5f6a7b8c9d0 "3f2a9c1e" "att-1" "user-1"
    { Password := "secret", MaxDownloads := maxDownloads, ExpiresAt := "" }).1


/-! ## Permissions -/

/-- The filter of `SetPermission`: same `attachment_id` and `user_id` as `p`. -/
def permissionKey (attachmentID userID : String) (q : AttachmentPermission) : Bool :=
  q.AttachmentID == attachmentID && q.UserID == userID

/-- The `$set` part of `SetPermission`: the four flags, the granter and the
update time are replaced; nothing else is. -/
def permissionSet (p : AttachmentPermission) (tUpdated : Time)
    (q : AttachmentPermission) : AttachmentPermission :=
  { q with CanView := p.CanView, CanDownload := p.CanDownload, CanDelete := p.CanDelete,
           CanShare := p.CanShare, GrantedBy := p.GrantedBy, UpdatedAt := tUpdated }

/-- The record an upsert of `SetPermission` inserts when nothing matches: the
equality fields of the filter, the `$set` fields and `$setOnInsert created_at`,
under the id the store generates. -/
def permissionInserted (p : AttachmentPermission) (tUpdated tInserted : Time)
    (fresh : ObjectID) : AttachmentPermission :=
  { ID := fresh, AttachmentID := p.AttachmentID, UserID := p.UserID,
    CanView := p.CanView, CanDownload := p.CanDownload, CanDelete := p.CanDelete,
    CanShare := p.CanShare, GrantedBy := p.GrantedBy, CreatedAt := tInserted,
    UpdatedAt := tUpdated }

/-- `SetPermission`: `UpdateOne` with `SetUpsert(true)` on `(attachment_id,
user_id)`.  A matching record gets the `$set` fields; otherwise a record is
inserted.  `tUpdated` and `tInserted` are the two clock readings placed in the
update document (the two readings written to `p` itself never reach the store). -/
def SetPermission (s : Store) (tUpdated tInserted : Time) (fresh : ObjectID)
    (p : AttachmentPermission) : Result :=
  if s.permissions.any (permissionKey p.AttachmentID p.UserID) then
    let perms := updateOne (permissionKey p.AttachmentID p.UserID) (permissionSet p tUpdated)
      s.permissions
    ({ s with permissions := perms }, none)
  else if s.permissions.any (fun q => q.ID == fresh) then
    (s, some StoreError.ErrDuplicateKey)
  else
    ({ s with permissions := s.permissions ++ [permissionInserted p tUpdated tInserted fresh] },
      none)

/-- `GetPermission`: `FindOne` on `(attachment_id, user_id)`. -/
def GetPermission (s : Store) (attachmentID userID : String) :
    Except StoreError AttachmentPermission :=
  match findOne (permissionKey attachmentID userID) s.permissions with
  | some p => Except.ok p
  | none => Except.error StoreError.ErrNoDocuments

/-- The body of a `SetPermissionRequest`. -/
structure SetPermissionRequest where
  UserID : String
  CanView : Bool
  CanDownload : Bool
  CanDelete : Bool
  CanShare : Bool
deriving DecidableEq, Repr

/-- The record handler `SetPermission` builds from the path parameter, the
request body and the `X-User-ID` header. -/
def permissionOfRequest (attachmentID granter : String) (req : SetPermissionRequest) :
    AttachmentPermission :=
  { ID := NilObjectID, AttachmentID := attachmentID, UserID := req.UserID,
    CanView := req.CanView, CanDownload := req.CanDownload, CanDelete := req.CanDelete,
    CanShare := req.CanShare, GrantedBy := granter, CreatedAt := 0, UpdatedAt := 0 }

/-- The number of stored permission records for one (attachment, user) pair. -/
def permissionCount (s : Store) (attachmentID userID : String) : Nat :=
  (s.permissions.filter (permissionKey attachmentID userID)).length

/-- Request `{view: true}` for user `u-7`. -/
def viewOnly : SetPermissionRequest :=
  { UserID := "u-7", CanView := true, CanDownload := false, CanDelete := false,
    CanShare := false }

/-- Request `{download: true}` for user `u-7`. -/
def downloadOnly : SetPermissionRequest :=
  { UserID := "u-7", CanView := false, CanDownload := true, CanDelete := false,
    CanShare := false }

/-- A store with one permission record of another user on the same attachment. -/
def otherUserStore : Store :=
  (SetPermission {} 10 11 0x64b7f3a2c1d4e5f6a7b8c9aa
    (permissionOfRequest "att-1" "owner"
      { UserID := "u-1", CanView := true, CanDownload := true, CanDelete := true,
        CanShare := true })).1

/-! ## Collections -/

/-- `CreateCollection`: stamps the creation and update times (two clock readings)
and inserts; the collection has no unique index besides `_id`. -/
def CreateCollection (s : Store) (tCreated tUpdated : Time) (fresh : ObjectID)
    (c : AttachmentCollection) : Result :=
  let doc : AttachmentCollection :=
    { c with CreatedAt := tCreated, UpdatedAt := tUpdated, ID := insertedID c.ID fresh }
  if s.collections.any (fun x => x.ID == doc.ID) then
    (s, some StoreError.ErrDuplicateKey)
  else
    ({ s with collections := s.collections ++ [doc] }, none)

/-- `GetCollection`: parses the id, then `FindOne` on `_id`. -/
def GetCollection (s : Store) (id : String) : Except StoreError AttachmentCollection :=
  match ObjectIDFromHex id with
  | none => Except.error StoreError.ErrInvalidHex
  | some objID =>
    match findOne (fun c => c.ID == objID) s.collections with
    | some c => Except.ok c
    | none => Except.error StoreError.ErrNoDocuments

/-- The `update bson.M` argument of `UpdateCollection`, by the fields of the
record it can `$set` (`updated_at` is always overwritten by the method, `_id`
cannot be changed by `$set`, and keys that are not fields of the record are not
visible in a decoded record). -/
structure CollectionUpdate where
  Name : Option String := none
  Description : Option String := none
  WorkspaceID : Option String := none
  CreatedBy : Option String := none
  CoverURL : Option String := none
  ItemCount : Option Int := none
  IsPublic : Option Bool := none
  CreatedAt : Option Time := none
deriving DecidableEq, Repr

/-- The effect of `$set update` on one collection record, `updated_at` included. -/
def CollectionUpdate.applyTo (u : CollectionUpdate) (now : Time)
    (c : AttachmentCollection) : AttachmentCollection :=
  { ID := c.ID, Name := u.Name.getD c.Name, Description := u.Description.getD c.Description,
    WorkspaceID := u.WorkspaceID.getD c.WorkspaceID, CreatedBy := u.CreatedBy.getD c.CreatedBy,
    CoverURL := u.CoverURL.getD c.CoverURL, ItemCount := u.ItemCount.getD c.ItemCount,
    IsPublic := u.IsPublic.getD c.IsPublic, CreatedAt := u.CreatedAt.getD c.CreatedAt,
    UpdatedAt := now }

/-- `UpdateCollection`: parses the id, adds `updated_at` to the update and
`UpdateOne`s on `_id` with `$set`. -/
def UpdateCollection (s : Store) (now : Time) (id : String) (u : CollectionUpdate) : Result :=
  match ObjectIDFromHex id with
  | none => (s, some StoreError.ErrInvalidHex)
  | some objID =>
    ({ s with collections := (updateOne (fun c => c.ID == objID) (u.applyTo now)
        s.collections) }, none)

/-- `DeleteCollection`: parses the id, `DeleteOne`s the collection on `_id`, then
`DeleteMany`s the items whose `collection_id` is the id string. -/
def DeleteCollection (s : Store) (id : String) : Result :=
  match ObjectIDFromHex id with
  | none => (s, some StoreError.ErrInvalidHex)
  | some objID =>
    ({ s with
        collections := (deleteOne (fun c => c.ID == objID) s.collections),
        collItems := (deleteMany (fun x => x.CollectionID == id) s.collItems) }, none)

/-- The `$inc item_count` both item methods run after their write: the id is
parsed with the error dropped, so a malformed id selects `NilObjectID`. -/
def incItemCount (delta : Int) (collectionID : String)
    (cs : List AttachmentCollection) : List AttachmentCollection :=
  updateOne (fun c => c.ID == (ObjectIDFromHex collectionID).getD NilObjectID)
    (fun c => { c with ItemCount := c.ItemCount + delta }) cs

/-- `AddToCollection`: stamps `AddedAt`, inserts the item (unique index on
`(collection_id, attachment_id)`), returns the insert error if any, and otherwise
increments the `item_count` of the collection. -/
def AddToCollection (s : Store) (now : Time) (fresh : ObjectID) (item : CollectionItem) :
    Result :=
  let doc : CollectionItem := { item with AddedAt := now, ID := insertedID item.ID fresh }
  if s.collItems.any (fun x => x.ID == doc.ID ||
      (x.CollectionID == doc.CollectionID && x.AttachmentID == doc.AttachmentID)) then
    (s, some StoreError.ErrDuplicateKey)
  else
    ({ s with
        collItems := s.collItems ++ [doc],
        collections := (incItemCount 1 item.CollectionID s.collections) }, none)

/-- `RemoveFromCollection`: `DeleteOne` on `(collection_id, attachment_id)`, whose
result is dropped, then decrements the `item_count` of the collection. -/
def RemoveFromCollection (s : Store) (collectionID attachmentID : String) : Result :=
  ({ s with
      collItems := (deleteOne
        (fun x => x.CollectionID == collectionID && x.AttachmentID == attachmentID) s.collItems),
      collections := (incItemCount (-1) collectionID s.collections) }, none)

/-- The number of `CollectionItem` records whose `collection_id` is the given id. -/
def liveItemCount (s : Store) (collectionID : String) : Int :=
  ((s.collItems.filter (fun x => x.CollectionID == collectionID)).length : Nat)

/-- The body of a `CreateCollectionRequest`. -/
structure CreateCollectionRequest where
  Name : String
  Description : String
  IsPublic : Bool
deriving DecidableEq, Repr

/-- Handler `CreateCollection`, `req` being the decoded body.  `ShouldBindJSON`
rejects an empty `Name` (`binding:"required"`): 400, nothing stored.  Otherwise
the record is built from the request and the `X-Workspace-ID` and `X-User-ID`
headers, `ItemCount` is left at its zero value.  Answers 500 on a repository
error, else 201. -/
def ExtendedHandler.CreateCollection (s : Store) (tCreated tUpdated : Time) (fresh : ObjectID)
    (workspaceID userID : String) (req : CreateCollectionRequest) :
    Store × Response AttachmentCollection :=
  if req.Name = "" then (s, { status := 400, data := none })
  else
    let coll : AttachmentCollection :=
      { ID := NilObjectID, Name := req.Name, Description := req.Description,
        WorkspaceID := workspaceID, CreatedBy := userID, CoverURL := "", ItemCount := 0,
        IsPublic := req.IsPublic, CreatedAt := 0, UpdatedAt := 0 }
    match AttachmentService.CreateCollection s tCreated tUpdated fresh coll with
    | (s1, some _) => (s1, { status := 500, data := none })
    | (s1, none) =>
      (s1, { status := 201,
             data := some { coll with CreatedAt := tCreated, UpdatedAt := tUpdated,
                                      ID := fresh } })

/-- Handler `RemoveFromCollection`: 500 on a repository error, else 200. -/
def ExtendedHandler.RemoveFromCollection (s : Store) (collectionID attachmentID : String) :
    Store × Response Unit :=
  match AttachmentService.RemoveFromCollection s collectionID attachmentID with
  | (s1, some _) => (s1, { status := 500, data := none })
  | (s1, none) => (s1, { status := 200, data := none })

/-- The id, as the path parameter spells it, of the collection of `reportsStore`. -/
def reportsID : String := "64b7f3a2c1d4e5f6a7b8c9e0"

/-- The store after creating the empty collection "Reports" through the handler. -/
def reportsStore : Store :=
  (ExtendedHandler.CreateCollection {} 100 101 0x64b7f3a2c1d4e5f6a7b8c9e0 "ws-1" "user-1"
    { Name := "Reports", Description := "", IsPublic := false }).1

/-- An item record as handler `AddToCollection` builds it. -/
def itemOfRequest (collectionID attachmentID userID : String) : CollectionItem :=
  { ID := NilObjectID, CollectionID := collectionID, AttachmentID := attachmentID,
    AddedBy := userID, Position := 0, AddedAt := 0 }

/-- One mutating call of the collection operations of the repository
(`GetCollection`, `ListCollections` and `ListCollectionItems` only read). -/
inductive CollectionOp where
  | create (tCreated tUpdated : Time) (fresh : ObjectID) (c : AttachmentCollection)
  | update (now : Time) (id : String) (u : CollectionUpdate)
  | delete (id : String)
  | add (now : Time) (fresh : ObjectID) (item : CollectionItem)
  | remove (collectionID attachmentID : String)
deriving Repr

/-- The call a `CollectionOp` stands for. -/
def CollectionOp.apply (s : Store) : CollectionOp → Result
  | CollectionOp.create tCreated tUpdated fresh c => CreateCollection s tCreated tUpdated fresh c
  | CollectionOp.update now id u => UpdateCollection s now id u
  | CollectionOp.delete id => DeleteCollection s id
  | CollectionOp.add now fresh item => AddToCollection s now fresh item
  | CollectionOp.remove collectionID attachmentID =>
    RemoveFromCollection s collectionID attachmentID

/-- Whether the collection with the given id is stored and its `item_count`
equals the number of `CollectionItem` records with that `collection_id`. -/
def countIsLive (s : Store) (id : String) : Bool :=
  match GetCollection s id with
  | Except.ok c => c.ItemCount == liveItemCount s id
  | Except.error _ => false

/-- The record of the collection "Reports" with a given `item_count`. -/
def reportsRecord (itemCount : Int) : AttachmentCollection :=
  { ID := 0x64b7f3a2c1d4e5f6a7b8c9e0, Name := "Reports", Description := "",
    WorkspaceID := "ws-1", CreatedBy := "user-1", CoverURL := "", ItemCount := itemCount,
    IsPublic := false, CreatedAt := 100, UpdatedAt := 101 }

/-- A store holding the collection "Reports" with a given `item_count` and the
given items. -/
def reportsWith (itemCount : Int) (items : List CollectionItem) : Store :=
  { collections := [reportsRecord itemCount], collItems := items }

/-- The store after removing an absent attachment from the empty "Reports". -/
def driftedStore : Store :=
  (RemoveFromCollection reportsStore reportsID "att-X").1

/-- One call of each collection operation, as the handlers would issue them on
"Reports". -/
def sampleCollectionOps : List CollectionOp :=
  [CollectionOp.create 300 301 0x64b7f3a2c1d4e5f6a7b8c9e5
      { ID := NilObjectID, Name := "Other", Description := "", WorkspaceID := "ws-1",
        CreatedBy := "user-1", CoverURL := "", ItemCount := 0, IsPublic := false,
        CreatedAt := 0, UpdatedAt := 0 },
   CollectionOp.update 300 reportsID { Name := some "Reports 2" },
   CollectionOp.add 300 0x64b7f3a2c1d4e5f6a7b8c9e6 (itemOfRequest reportsID "att-Y" "user-1"),
   CollectionOp.remove reportsID "att-Y",
   CollectionOp.delete reportsID]

/-- Whether the collection id has an item for the attachment. -/
def itemPresent (s : Store) (collectionID attachmentID : String) : Bool :=
  s.collItems.any (fun x => x.CollectionID == collectionID && x.AttachmentID == attachmentID)

/-- One item call on a fixed collection id: `AddToCollection` of a record (whose
`CollectionID` is set to that id) or `RemoveFromCollection` of an attachment. -/
inductive ItemCall where
  | add (now : Time) (fresh : ObjectID) (item : CollectionItem)
  | remove (attachmentID : String)
deriving Repr

/-- The store after one item call on collection id `C`, failed calls included. -/
def ItemCall.apply (C : String) (s : Store) : ItemCall → Store
  | ItemCall.add now fresh item =>
    (AddToCollection s now fresh { item with CollectionID := C }).1
  | ItemCall.remove attachmentID => (RemoveFromCollection s C attachmentID).1

/-- The store after a sequence of item calls on collection id `C`. -/
def runItemCalls (C : String) (s : Store) (calls : List ItemCall) : Store :=
  calls.foldl (ItemCall.apply C) s

/-- Whether every removal of the sequence is issued while the attachment is in
the collection. -/
def removalsPresent (C : String) : Store → List ItemCall → Bool
  | _, [] => true
  | s, ItemCall.add now fresh item :: rest =>
    removalsPresent C (ItemCall.apply C s (ItemCall.add now fresh item)) rest
  | s, ItemCall.remove attachmentID :: rest =>
    itemPresent s C attachmentID &&
      removalsPresent C (ItemCall.apply C s (ItemCall.remove attachmentID)) rest

/-- Calls on "Reports": add X, add X again (rejected), add Y, remove X. -/
def sampleItemCalls : List ItemCall :=
  [ItemCall.add 200 0x64b7f3a2c1d4e5f6a7b8c9e1 (itemOfRequest "" "att-X" "user-1"),
   ItemCall.add 201 0x64b7f3a2c1d4e5f6a7b8c9e2 (itemOfRequest "" "att-X" "user-1"),
   ItemCall.add 202 0x64b7f3a2c1d4e5f6a7b8c9e3 (itemOfRequest "" "att-Y" "user-1"),
   ItemCall.remove "att-X"]

/-! ## Paging parameters (`getLimit`, `getOffset`) -/

/-- The error kinds of `strconv.NumError`. -/
inductive NumError where
  | ErrSyntax
  | ErrRange
deriving DecidableEq, Repr

/-- Value of one decimal digit, `none` for any other character. -/
def decimalDigit (c : Char) : Option Nat :=
  let n := c.toNat
  if 48 ≤ n ∧ n ≤ 57 then some (n - 48) else none

/-- Value of a string of decimal digits, `none` on any other character. -/
def parseDecimal : Nat → List Char → Option Nat
  | acc, [] => some acc
  | acc, c :: cs =>
    match decimalDigit c with
    | some d => parseDecimal (10 * acc + d) cs
    | none => none

/-- The largest `int` (64-bit). -/
def MaxInt : Int := 9223372036854775807

/-- The smallest `int` (64-bit). -/
def MinInt : Int := -9223372036854775808

/-- The largest `uint64`. -/
def maxUint64 : Nat := 18446744073709551615

/-- The loop of the library function `strconv.ParseUint` for base 10 and 64 bits,
`n` being the value read so far.  Each character is classified first: anything
but a decimal digit is a syntax error with value 0.  Then `n ≥ cutoff`
(`cutoff = maxUint64/10 + 1`) or a wrapped `n*10 + d` is a range error with
value `maxUint64`, returned at once: the rest of the string is not read. -/
def parseUintLoop : Nat → List Char → Nat × Option NumError
  | n, [] => (n, none)
  | n, c :: cs =>
    match decimalDigit c with
    | none => (0, some NumError.ErrSyntax)
    | some d =>
      if n ≥ maxUint64 / 10 + 1 then (maxUint64, some NumError.ErrRange)
      else
        let n10 := n * 10 % 2 ^ 64
        let n1 := (n10 + d) % 2 ^ 64
        if n1 < n10 ∨ n1 > maxUint64 then (maxUint64, some NumError.ErrRange)
        else parseUintLoop n1 cs

/-- The library function `strconv.ParseUint(s, 10, 0)` on a 64-bit platform: the
empty string is a syntax error. -/
def ParseUint (s : List Char) : Nat × Option NumError :=
  match s with
  | [] => (0, some NumError.ErrSyntax)
  | c :: cs => parseUintLoop 0 (c :: cs)

/-- The library function `strconv.ParseInt(s, 10, 0)` on a 64-bit platform: picks
off one leading sign, converts the rest unsigned, returns 0 on a syntax error,
and checks the range against `cutoff = 2^63` (also after a range error of
`ParseUint`, whose value `maxUint64` is beyond the cutoff). -/
def ParseInt (s : List Char) : Int × Option NumError :=
  match s with
  | [] => (0, some NumError.ErrSyntax)
  | c :: cs =>
    let neg : Bool := c == '-'
    let rest : List Char := if c == '+' || c == '-' then cs else c :: cs
    match ParseUint rest with
    | (_, some NumError.ErrSyntax) => (0, some NumError.ErrSyntax)
    | (un, _) =>
      if neg = false ∧ un ≥ 2 ^ 63 then (MaxInt, some NumError.ErrRange)
      else if neg = true ∧ un > 2 ^ 63 then (MinInt, some NumError.ErrRange)
      else (if neg then -(un : Int) else (un : Int), none)

/-- The library function `strconv.Atoi` on a 64-bit platform.  A string of 1 to 18
bytes takes the fast path: one optional sign, then decimal digits only, anything
else being a syntax error with value 0.  Every other string goes through
`ParseInt`, whose value is kept whatever the error: 0 on a syntax error, the
nearest of `MinInt` and `MaxInt` on a range error. -/
def Atoi (s : String) : Int × Option NumError :=
  match s.data with
  | [] => ParseInt []
  | c :: cs =>
    if s.utf8ByteSize < 19 then
      let digits : List Char := if c == '-' || c == '+' then cs else c :: cs
      match digits with
      | [] => (0, some NumError.ErrSyntax)
      | d :: ds =>
        match parseDecimal 0 (d :: ds) with
        | none => (0, some NumError.ErrSyntax)
        | some n => (if c == '-' then -(n : Int) else (n : Int), none)
    else ParseInt (c :: cs)

/-- The query string of a request: its keys and values in order of appearance. -/
abbrev Query := List (String × String)

/-- `c.GetQuery(key)` of gin: the first value given for the key, if the key occurs. -/
def GetQuery (q : Query) (key : String) : Option String :=
  (q.find? (fun kv => kv.1 == key)).map (fun kv => kv.2)

/-- `c.DefaultQuery(key, defaultValue)` of gin. -/
def DefaultQuery (q : Query) (key defaultValue : String) : String :=
  (GetQuery q key).getD defaultValue

/-- `getLimit`: the parsed `limit` parameter (parse error dropped), replaced by 50
when it is not in 1..200. -/
def getLimit (q : Query) : Int :=
  let l := (Atoi (DefaultQuery q "limit" "50")).1
  if l ≤ 0 ∨ l > 200 then 50 else l

/-- `getOffset`: the parsed `offset` parameter (parse error dropped), replaced by 0
when it is negative. -/
def getOffset (q : Query) : Int :=
  let o := (Atoi (DefaultQuery q "offset" "0")).1
  if o < 0 then 0 else o

/-! ## Tags and favorites -/

/-- `AddTag`: stamps the creation time and inserts; `(attachment_id, tag)` carries
a unique index. -/
def AddTag (s : Store) (now : Time) (fresh : ObjectID) (t : AttachmentTag) : Result :=
  let doc : AttachmentTag := { t with CreatedAt := now, ID := insertedID t.ID fresh }
  if s.tags.any (fun x => x.ID == doc.ID ||
      (x.AttachmentID == doc.AttachmentID && x.Tag == doc.Tag)) then
    (s, some StoreError.ErrDuplicateKey)
  else
    ({ s with tags := s.tags ++ [doc] }, none)

/-- `RemoveTag`: `DeleteOne` on `(attachment_id, tag)`; the result is dropped. -/
def RemoveTag (s : Store) (attachmentID tag : String) : Result :=
  ({ s with tags :=
      (deleteOne (fun x => x.AttachmentID == attachmentID && x.Tag == tag) s.tags) }, none)

/-- `AddFavorite`: stamps the creation time and inserts; `(attachment_id, user_id)`
carries a unique index. -/
def AddFavorite (s : Store) (now : Time) (fresh : ObjectID) (f : AttachmentFavorite) :
    Result :=
  let doc : AttachmentFavorite := { f with CreatedAt := now, ID := insertedID f.ID fresh }
  if s.favorites.any (fun x => x.ID == doc.ID ||
      (x.AttachmentID == doc.AttachmentID && x.UserID == doc.UserID)) then
    (s, some StoreError.ErrDuplicateKey)
  else
    ({ s with favorites := s.favorites ++ [doc] }, none)

/-- `RemoveFavorite`: `DeleteOne` on `(attachment_id, user_id)`; the result is
dropped. -/
def RemoveFavorite (s : Store) (attachmentID userID : String) : Result :=
  ({ s with favorites :=
      (deleteOne (fun x => x.AttachmentID == attachmentID && x.UserID == userID)
        s.favorites) }, none)

/-- The number of stored tags for one (attachment, tag text) pair. -/
def tagCount (s : Store) (attachmentID tag : String) : Nat :=
  (s.tags.filter (fun x => x.AttachmentID == attachmentID && x.Tag == tag)).length

/-- The number of stored favorites for one (attachment, user) pair. -/
def favoriteCount (s : Store) (attachmentID userID : String) : Nat :=
  (s.favorites.filter (fun x => x.AttachmentID == attachmentID && x.UserID == userID)).length

/-- Handler `AddTag`, `tag` being the `tag` of the decoded body.  `ShouldBindJSON`
rejects an empty `tag` (`binding:"required"`): 400, nothing stored.  Otherwise 500
when the repository returns an error, else 201 with the stored tag. -/
def ExtendedHandler.AddTag (s : Store) (now : Time) (fresh : ObjectID)
    (attachmentID userID tag : String) : Store × Response AttachmentTag :=
  if tag = "" then (s, { status := 400, data := none })
  else
    let rec0 : AttachmentTag :=
      { ID := NilObjectID, AttachmentID := attachmentID, Tag := tag, AddedBy := userID,
        CreatedAt := 0 }
    match AttachmentService.AddTag s now fresh rec0 with
    | (s1, some _) => (s1, { status := 500, data := none })
    | (s1, none) =>
      (s1, { status := 201, data := some { rec0 with CreatedAt := now, ID := fresh } })

/-- The loop of handler `BulkTag`: one `AddTag` per id, each with its own clock
reading and generated id (`now i`, `fresh i` for the `i`-th id), the returned
error dropped. -/
def bulkTagLoop (now : Nat → Time) (fresh : Nat → ObjectID) (userID tag : String) :
    Nat → List String → Store → Store
  | _, [], s => s
  | i, id :: ids, s =>
    bulkTagLoop now fresh userID tag (i + 1) ids
      (AttachmentService.AddTag s (now i) (fresh i)
        { ID := NilObjectID, AttachmentID := id, Tag := tag, AddedBy := userID,
          CreatedAt := 0 }).1

/-- The body of a `BulkTagRequest` as `encoding/json` decodes it: `IDs` is `none`
for the nil slice an absent or null `ids` leaves. -/
structure BulkTagRequest where
  IDs : Option (List String)
  Tag : String
deriving DecidableEq, Repr

/-- Handler `BulkTag`, `req` being the decoded body.  `ShouldBindJSON` rejects a nil
`ids` and an empty `tag` (both `binding:"required"`): 400, nothing stored.
Otherwise it runs the loop and answers 200 with `tagged` set to the number of
ids. -/
def ExtendedHandler.BulkTag (s : Store) (now : Nat → Time) (fresh : Nat → ObjectID)
    (userID : String) (req : BulkTagRequest) : Store × Response Nat :=
  match req.IDs with
  | none => (s, { status := 400, data := none })
  | some ids =>
    if req.Tag = "" then (s, { status := 400, data := none })
    else
      (bulkTagLoop now fresh userID req.Tag 0 ids s, { status := 200, data := some ids.length })

/-- A store with the tag "urgent" on `att-1`, added through the handler. -/
def taggedStore : Store :=
  (ExtendedHandler.AddTag {} 500 0x64b7f3a2c1d4e5f6a7b8c9f0 "att-1" "user-1" "urgent").1

/-- The tag record `taggedStore` holds. -/
def urgentTag : AttachmentTag :=
  { ID := 0x64b7f3a2c1d4e5f6a7b8c9f0, AttachmentID := "att-1", Tag := "urgent",
    AddedBy := "user-1", CreatedAt := 500 }

/-- A store with `att-1` favorited by `user-1` and by `user-2`. -/
def favoritedStore : Store :=
  (AddFavorite (AddFavorite {} 600 0x64b7f3a2c1d4e5f6a7b8c9f1
      { ID := NilObjectID, AttachmentID := "att-1", UserID := "user-1", CreatedAt := 0 }).1
    601 0x64b7f3a2c1d4e5f6a7b8c9f2
    { ID := NilObjectID, AttachmentID := "att-1", UserID := "user-2", CreatedAt := 0 }).1

/-! ## Sorted queries -/

/-- `Find(filter)` and `FindOne(filter)` with `SetSort` on one integer key,
ascending.  MongoDB fixes no order among records with equal sort keys: they come
out in the order in which the query plan delivers the matching records, which
depends on the index the planner picks.  `visit` ranks the records in that
delivery order (a constant function for natural order); records of equal rank are
delivered in natural order. -/
def findSorted {α : Type} (key visit : α → Int) (p : α → Bool) (xs : List α) : List α :=
  ((xs.filter p).insertionSort (fun a b => visit a ≤ visit b)).insertionSort
    (fun a b => key a ≤ key b)

/-- `SetSkip(offset)` and `SetLimit(limit)` on the result of a query: the server
rejects a negative skip, a limit of 0 is no limit, and a negative limit asks for
that many records in one batch. -/
def page {α : Type} (limit offset : Int) (xs : List α) : Except StoreError (List α) :=
  if offset < 0 then Except.error StoreError.ErrBadValue
  else if limit = 0 then Except.ok (xs.drop offset.toNat)
  else Except.ok ((xs.drop offset.toNat).take limit.natAbs)

/-- `ListCollectionItems`: `Find` on `collection_id`, sorted by `position`
ascending, with limit and skip. -/
def ListCollectionItems (s : Store) (visit : CollectionItem → Int) (collectionID : String)
    (limit offset : Int) : Except StoreError (List CollectionItem) :=
  page limit offset
    (findSorted (fun x => x.Position) visit (fun x => x.CollectionID == collectionID)
      s.collItems)

/-! ## Versions -/

/-- `CreateVersion`: stamps the creation time and inserts the record as the caller
filled it; the indexes on versions are not unique, so only `_id` can conflict. -/
def CreateVersion (s : Store) (now : Time) (fresh : ObjectID) (v : AttachmentVersion) :
    Result :=
  let doc : AttachmentVersion := { v with CreatedAt := now, ID := insertedID v.ID fresh }
  if s.versions.any (fun x => x.ID == doc.ID) then
    (s, some StoreError.ErrDuplicateKey)
  else
    ({ s with versions := s.versions ++ [doc] }, none)

/-- `ListVersions`: `Find` on `attachment_id`, sorted by `version_num` descending
(no error from a store that answers). -/
def ListVersions (s : Store) (visit : AttachmentVersion → Int) (attachmentID : String) :
    List AttachmentVersion :=
  findSorted (fun v => -v.VersionNum) visit (fun v => v.AttachmentID == attachmentID)
    s.versions

/-- `GetLatestVersionNum`: `FindOne` on `attachment_id`, sorted by `version_num`
descending; no document gives `(0, nil)`. -/
def GetLatestVersionNum (s : Store) (visit : AttachmentVersion → Int)
    (attachmentID : String) : Int × Option StoreError :=
  match (findSorted (fun v => -v.VersionNum) visit
      (fun v => v.AttachmentID == attachmentID) s.versions).head? with
  | none => (0, none)
  | some v => (v.VersionNum, none)

/-- `DeleteVersion`: parses the id, then `DeleteOne` on `_id`. -/
def DeleteVersion (s : Store) (id : String) : Result :=
  match ObjectIDFromHex id with
  | none => (s, some StoreError.ErrInvalidHex)
  | some objID =>
    ({ s with versions := (deleteOne (fun v => v.ID == objID) s.versions) }, none)

/-- One mutating call of the version operations. -/
inductive VersionOp where
  | create (now : Time) (fresh : ObjectID) (v : AttachmentVersion)
  | delete (id : String)
deriving Repr

/-- The call a `VersionOp` stands for. -/
def VersionOp.apply (s : Store) : VersionOp → Result
  | VersionOp.create now fresh v => CreateVersion s now fresh v
  | VersionOp.delete id => DeleteVersion s id

/-- The store after a sequence of version calls, failed calls included. -/
def runVersionOps (s : Store) (ops : List VersionOp) : Store :=
  ops.foldl (fun st op => (VersionOp.apply st op).1) s

/-- A version record of `att-1` with the given number, as a caller would fill it. -/
def versionOf (versionNum : Int) : AttachmentVersion :=
  { ID := NilObjectID, AttachmentID := "att-1", VersionNum := versionNum,
    FileName := "report.pdf", OriginalName := "report.pdf", MimeType := "application/pdf",
    Size := 1024, StoragePath := "/files/report.pdf", URL := "", Checksum := "",
    UploadedBy := "user-1", Comment := "", CreatedAt := 0 }

/-- Two creations with version number 1 for the same attachment. -/
def sameNumberOps : List VersionOp :=
  [VersionOp.create 800 0x64b7f3a2c1d4e5f6a7b8ca01 (versionOf 1),
   VersionOp.create 801 0x64b7f3a2c1d4e5f6a7b8ca02 (versionOf 1)]

/-- Creations numbered 1, 2, 3 and the deletion of number 2. -/
def threeVersionsOps : List VersionOp :=
  [VersionOp.create 800 0x64b7f3a2c1d4e5f6a7b8ca01 (versionOf 1),
   VersionOp.create 801 0x64b7f3a2c1d4e5f6a7b8ca02 (versionOf 2),
   VersionOp.create 802 0x64b7f3a2c1d4e5f6a7b8ca03 (versionOf 3),
   VersionOp.delete "64b7f3a2c1d4e5f6a7b8ca02"]

/-- Natural order: every record has the same delivery rank. -/
def naturalOrder {α : Type} : α → Int := fun _ => 0

/-- The item of "Reports" for an attachment at a position, as stored. -/
def reportsItem (id : ObjectID) (attachmentID : String) (position : Int) (addedAt : Time) :
    CollectionItem :=
  { ID := id, CollectionID := reportsID, AttachmentID := attachmentID, AddedBy := "user-1",
    Position := position, AddedAt := addedAt }

/-- "Reports" after adding X at position 0, then Y at position 1, through the
repository. -/
def reportsXY : Store :=
  (AddToCollection
    (AddToCollection reportsStore 200 0x64b7f3a2c1d4e5f6a7b8c9e1
      { itemOfRequest reportsID "att-X" "user-1" with Position := 0 }).1
    201 0x64b7f3a2c1d4e5f6a7b8c9e2
    { itemOfRequest reportsID "att-Y" "user-1" with Position := 1 }).1

/-- "Reports" after adding `att-B`, then `att-A`, both at position 0 as the handler
stores them. -/
def reportsTied : Store :=
  (AddToCollection
    (AddToCollection reportsStore 200 0x64b7f3a2c1d4e5f6a7b8c9e1
      (itemOfRequest reportsID "att-B" "user-1")).1
    201 0x64b7f3a2c1d4e5f6a7b8c9e2 (itemOfRequest reportsID "att-A" "user-1")).1

/-- The delivery order of a scan of the unique index `(collection_id,
attachment_id)` on `reportsTied`: `att-A` before `att-B`. -/
def byAttachmentID (x : CollectionItem) : Int :=
  if x.AttachmentID == "att-A" then 0 else 1

/-- The number of stored versions with one (attachment id, version number) pair. -/
def versionCount (s : Store) (attachmentID : String) (versionNum : Int) : Nat :=
  (s.versions.filter
    (fun v => v.AttachmentID == attachmentID && v.VersionNum == versionNum)).length

/-! ## Comments -/

/-- `CreateComment`: stamps the creation and update times (two clock readings)
and inserts; comments have no unique index besides `_id`. -/
def CreateComment (s : Store) (tCreated tUpdated : Time) (fresh : ObjectID)
    (c : AttachmentComment) : Result :=
  let doc : AttachmentComment :=
    { c with CreatedAt := tCreated, UpdatedAt := tUpdated, ID := insertedID c.ID fresh }
  if s.comments.any (fun x => x.ID == doc.ID) then
    (s, some StoreError.ErrDuplicateKey)
  else
    ({ s with comments := s.comments ++ [doc] }, none)

/-- The `$set` of `UpdateComment`: content, `is_edited: true` and the update time. -/
def commentSet (content : String) (now : Time) (c : AttachmentComment) : AttachmentComment :=
  { c with Content := content, IsEdited := true, UpdatedAt := now }

/-- `UpdateComment`: parses the id, then `UpdateOne` on `_id` with the `$set`. -/
def UpdateComment (s : Store) (now : Time) (id content : String) : Result :=
  match ObjectIDFromHex id with
  | none => (s, some StoreError.ErrInvalidHex)
  | some objID =>
    ({ s with comments := (updateOne (fun c => c.ID == objID) (commentSet content now)
        s.comments) }, none)

/-- `DeleteComment`: parses the id, then `DeleteOne` on `_id`. -/
def DeleteComment (s : Store) (id : String) : Result :=
  match ObjectIDFromHex id with
  | none => (s, some StoreError.ErrInvalidHex)
  | some objID =>
    ({ s with comments := (deleteOne (fun c => c.ID == objID) s.comments) }, none)

/-- The body of a `CreateCommentRequest`. -/
structure CreateCommentRequest where
  Content : String
  ParentID : String
deriving DecidableEq, Repr

/-- Handler `CreateComment`, `req` being the decoded body.  `ShouldBindJSON`
rejects an empty `Content` (`binding:"required"`): 400, nothing stored.  Otherwise
the record is built from the path parameter, the `X-User-ID` header and the
request; `IsEdited` is left at its zero value.  Answers 500 on a repository error,
else 201 with the comment. -/
def ExtendedHandler.CreateComment (s : Store) (tCreated tUpdated : Time) (fresh : ObjectID)
    (attachmentID userID : String) (req : CreateCommentRequest) :
    Store × Response AttachmentComment :=
  if req.Content = "" then (s, { status := 400, data := none })
  else
    let comment : AttachmentComment :=
      { ID := NilObjectID, AttachmentID := attachmentID, UserID := userID,
        Content := req.Content, ParentID := req.ParentID, IsEdited := false, CreatedAt := 0,
        UpdatedAt := 0 }
    match AttachmentService.CreateComment s tCreated tUpdated fresh comment with
    | (s1, some _) => (s1, { status := 500, data := none })
    | (s1, none) =>
      (s1, { status := 201,
             data := some { comment with CreatedAt := tCreated, UpdatedAt := tUpdated,
                                         ID := fresh } })

/-- Handler `UpdateComment`, `content` being the `content` of the decoded body.
`ShouldBindJSON` rejects an empty `content` (`binding:"required"`): 400, nothing
changed.  Otherwise 500 on a repository error, else 200. -/
def ExtendedHandler.UpdateComment (s : Store) (now : Time) (commentID content : String) :
    Store × Response Unit :=
  if content = "" then (s, { status := 400, data := none })
  else
    match AttachmentService.UpdateComment s now commentID content with
    | (s1, some _) => (s1, { status := 500, data := none })
    | (s1, none) => (s1, { status := 200, data := none })

/-- Handler `DeactivateShareLink`: 500 on a repository error, else 200. -/
def ExtendedHandler.DeactivateShareLink (s : Store) (linkID : String) :
    Store × Response Unit :=
  match AttachmentService.DeactivateShareLink s linkID with
  | (s1, some _) => (s1, { status := 500, data := none })
  | (s1, none) => (s1, { status := 200, data := none })

/-! ## Direct shares and the item handler -/

/-- `CreateShare`: stamps the creation time and inserts; shares have no unique
index besides `_id`. -/
def CreateShare (s : Store) (now : Time) (fresh : ObjectID) (sh : AttachmentShare) : Result :=
  let doc : AttachmentShare := { sh with CreatedAt := now, ID := insertedID sh.ID fresh }
  if s.shares.any (fun x => x.ID == doc.ID) then
    (s, some StoreError.ErrDuplicateKey)
  else
    ({ s with shares := s.shares ++ [doc] }, none)

/-- The body of a `CreateShareRequest`. -/
structure CreateShareRequest where
  SharedWith : String
  Permission : String
  ExpiresAt : String
deriving DecidableEq, Repr

/-- Handler `CreateShare`, `req` being the decoded body.  `ShouldBindJSON` rejects
an empty `SharedWith` and an empty `Permission` (both `binding:"required"`): 400,
nothing stored.  Otherwise the record takes `SharedWith` and `Permission` from the
request; `ExpiresAt` of the request is not read.  Answers 500 on a repository
error, else 201 with the share. -/
def ExtendedHandler.CreateShare (s : Store) (now : Time) (fresh : ObjectID)
    (attachmentID userID : String) (req : CreateShareRequest) :
    Store × Response AttachmentShare :=
  if req.SharedWith = "" ∨ req.Permission = "" then (s, { status := 400, data := none })
  else
    let share : AttachmentShare :=
      { ID := NilObjectID, AttachmentID := attachmentID, SharedBy := userID,
        SharedWith := req.SharedWith, Permission := req.Permission, ExpiresAt := none,
        CreatedAt := 0 }
    match AttachmentService.CreateShare s now fresh share with
    | (s1, some _) => (s1, { status := 500, data := none })
    | (s1, none) =>
      (s1, { status := 201, data := some { share with CreatedAt := now, ID := fresh } })

/-- The body of an `AddToCollectionRequest`. -/
structure AddToCollectionRequest where
  AttachmentID : String
deriving DecidableEq, Repr

/-- Handler `AddToCollection`, `req` being the decoded body.  `ShouldBindJSON`
rejects an empty `AttachmentID` (`binding:"required"`): 400, nothing stored.
Otherwise the item is built from the path parameter, the request and the
`X-User-ID` header; `Position` is left at its zero value.  Answers 500 on a
repository error, else 201 with the item. -/
def ExtendedHandler.AddToCollection (s : Store) (now : Time) (fresh : ObjectID)
    (collectionID userID : String) (req : AddToCollectionRequest) :
    Store × Response CollectionItem :=
  if req.AttachmentID = "" then (s, { status := 400, data := none })
  else
    let item : CollectionItem := itemOfRequest collectionID req.AttachmentID userID
    match AttachmentService.AddToCollection s now fresh item with
    | (s1, some _) => (s1, { status := 500, data := none })
    | (s1, none) =>
      (s1, { status := 201, data := some { item with AddedAt := now, ID := fresh } })

/-! ## Quota and bulk deletion -/

/-- The record `models.UserQuota`. -/
structure UserQuota where
  UserID : String
  UsedBytes : Int
  MaxBytes : Int
  FileCount : Int
  MaxFiles : Int
deriving DecidableEq, Repr

/-- The `$match` stage of `GetUserQuota`: `user_id` is the user and `status` is
not "deleted". -/
def quotaMatch (userID : String) (a : Attachment) : Bool :=
  a.UserID == userID && a.Status != "deleted"

/-- The largest `int64`. -/
def MaxInt64 : Int := 9223372036854775807

/-- The smallest `int64`. -/
def MinInt64 : Int := -9223372036854775808

/-- Whether a number is an `int64` value. -/
def fitsInt64 (n : Int) : Bool :=
  decide (MinInt64 ≤ n) && decide (n ≤ MaxInt64)

/-- `GetUserQuota`: the aggregation groups the matching attachments into one
document with the sum of `size` and the count; without a match the pipeline
yields no document and both stay 0.  The ceilings are constants.  A `$sum` is a
64-bit integer when the total fits one and a double otherwise.  The two fields
are copied only when `cursor.Decode` returns no error, and its error is dropped.
What `Decode` makes of a group document holding a double is the input
`fromDouble`: `none` when it returns an error (both fields stay 0), else the
`int64` pair it produced. -/
def GetUserQuota (s : Store) (userID : String) (fromDouble : Option (Int × Int)) :
    Except StoreError UserQuota :=
  let matched := s.attachments.filter (quotaMatch userID)
  let quota : UserQuota :=
    { UserID := userID, UsedBytes := 0, MaxBytes := 5 * 1024 * 1024 * 1024, FileCount := 0,
      MaxFiles := 10000 }
  match matched with
  | [] => Except.ok quota
  | a :: rest =>
    let used : Int := ((a :: rest).map (fun x => x.Size)).sum
    let count : Int := ((a :: rest).length : Nat)
    if fitsInt64 used && fitsInt64 count then
      Except.ok { quota with UsedBytes := used, FileCount := count }
    else
      match fromDouble with
      | none => Except.ok quota
      | some (u, c) => Except.ok { quota with UsedBytes := u, FileCount := c }

/-- `UpdateMany(filter, update)`: the update is applied to every record that
matches. -/
def updateMany {α : Type} (p : α → Bool) (f : α → α) (xs : List α) : List α :=
  xs.map (fun x => if p x then f x else x)

/-- The loop of `BulkDelete` and `BulkMove`: the ids that parse, in order; the
others are skipped. -/
def parsedIDs (ids : List String) : List ObjectID :=
  ids.filterMap ObjectIDFromHex

/-- `BulkDelete`: `UpdateMany` on `_id $in objIDs` with `$set status "deleted"` and
the update time.  `objIDs` is declared as a nil slice and stays nil when no id
parses; the driver encodes a nil slice as BSON null and the server rejects
`$in: null` ("$in needs an array"), so the call then returns the store's error. -/
def BulkDelete (s : Store) (now : Time) (ids : List String) : Result :=
  match parsedIDs ids with
  | [] => (s, some StoreError.ErrBadValue)
  | o :: os =>
    ({ s with attachments := (updateMany (fun a => (o :: os).contains a.ID)
        (fun a => { a with Status := "deleted", UpdatedAt := now }) s.attachments) }, none)

/-- Handler `BulkDelete`, `ids` being the `ids` array of the decoded body (an absent
or null array does not bind and is answered 400 before this point): 500 on a
repository error, else 200 with `deleted` set to the number of ids. -/
def ExtendedHandler.BulkDelete (s : Store) (now : Time) (ids : List String) :
    Store × Response Nat :=
  match AttachmentService.BulkDelete s now ids with
  | (s1, some _) => (s1, { status := 500, data := none })
  | (s1, none) => (s1, { status := 200, data := some ids.length })

/-- An attachment of `user-1`. -/
def attachmentOf (id : ObjectID) (status : String) (size : Int) : Attachment :=
  { ID := id, UserID := "user-1", WorkspaceID := "ws-1", ChannelID := "ch-1", MessageID := "",
    OriginalName := "a.bin", FileType := "file", Status := status, Size := size,
    CreatedAt := 10, UpdatedAt := 10 }

/-- A corpus: three attachments of `user-1` (one deleted) and one of `user-2`, next
to the tag of `taggedStore`. -/
def corpusStore : Store :=
  { taggedStore with
    attachments :=
      [attachmentOf 0x64b7f3a2c1d4e5f6a7b8cb01 "active" 100,
       attachmentOf 0x64b7f3a2c1d4e5f6a7b8cb02 "deleted" 50,
       attachmentOf 0x64b7f3a2c1d4e5f6a7b8cb03 "" 7,
       { attachmentOf 0x64b7f3a2c1d4e5f6a7b8cb04 "active" 1000 with UserID := "user-2" }] }

/-- A corpus whose sizes add up to 2^63, one more than the largest `int64`: two
attachments of `user-1` of 2^62 bytes each. -/
def hugeStore : Store :=
  { attachments :=
      [attachmentOf 0x64b7f3a2c1d4e5f6a7b8cb01 "active" 4611686018427387904,
       attachmentOf 0x64b7f3a2c1d4e5f6a7b8cb02 "active" 4611686018427387904] }

/-! ## Share codes -/

/-- A `uuid.UUID`: sixteen bytes, read as one big-endian number. -/
abbrev UUID := Nat

/-- One lowercase hexadecimal digit, as `encoding/hex` writes it. -/
def hexChar (n : Nat) : Char :=
  "0123456789abcdef".data.getD (n % 16) '0'

/-- The `j`-th of the 32 hexadecimal digits of a UUID, most significant first. -/
def uuidDigit (u : UUID) (j : Nat) : Char :=
  hexChar (u / 16 ^ (31 - j))

/-- The characters of `UUID.String()`: the canonical form 8-4-4-4-12. -/
def uuidChars (u : UUID) : List Char :=
  (List.range 8).map (uuidDigit u) ++ '-' :: (List.range' 8 4).map (uuidDigit u) ++
    '-' :: (List.range' 12 4).map (uuidDigit u) ++ '-' :: (List.range' 16 4).map (uuidDigit u) ++
    '-' :: (List.range' 20 12).map (uuidDigit u)

/-- The code handler `CreateShareLink` draws: `uuid.New().String()[:8]`. -/
def shareCode (u : UUID) : String :=
  String.mk ((uuidChars u).take 8)

/-- The 36-symbol alphabet `0-9a-z`. -/
def isCodeSymbol (c : Char) : Bool :=
  c.isDigit || c.isLower

/-- A thread on `att-1`: a comment by `user-1` and a reply to it by `user-2`, both
created through the handler. -/
def threadStore : Store :=
  (ExtendedHandler.CreateComment
    (ExtendedHandler.CreateComment {} 300 301 0x64b7f3a2c1d4e5f6a7b8cc01 "att-1" "user-1"
      { Content := "first", ParentID := "" }).1
    310 311 0x64b7f3a2c1d4e5f6a7b8cc02 "att-1" "user-2"
    { Content := "reply", ParentID := "64b7f3a2c1d4e5f6a7b8cc01" }).1

/-- The first comment of `threadStore`. -/
def firstComment : AttachmentComment :=
  { ID := 0x64b7f3a2c1d4e5f6a7b8cc01, AttachmentID := "att-1", UserID := "user-1",
    Content := "first", ParentID := "", IsEdited := false, CreatedAt := 300, UpdatedAt := 301 }

/-- The reply of `threadStore`. -/
def replyComment : AttachmentComment :=
  { ID := 0x64b7f3a2c1d4e5f6a7b8cc02, AttachmentID := "att-1", UserID := "user-2",
    Content := "reply", ParentID := "64b7f3a2c1d4e5f6a7b8cc01", IsEdited := false,
    CreatedAt := 310, UpdatedAt := 311 }

/-- How one stored link may differ between an earlier and a later store. -/
def LinkEvolves (l l' : ShareLink) : Prop :=
  l'.ID = l.ID ∧ l'.Code = l.Code ∧ l'.MaxDownloads = l.MaxDownloads ∧
    l.DownloadCount ≤ l'.DownloadCount ∧ (l.IsActive = false → l'.IsActive = false)

/-- Every link of the earlier list is still at its place in the later list and
has evolved. -/
def LinksEvolve (xs ys : List ShareLink) : Prop :=
  ∀ (i : Nat) (l : ShareLink), xs[i]? = some l → ∃ l', ys[i]? = some l' ∧ LinkEvolves l l'

/-- The link `oneLinkStore` holds. -/
def oneLink (maxDownloads : Int) : ShareLink :=
  { ID := 0x64b7f3a2c1d4e5f6a7b8c9d0, AttachmentID := "att-1", Code := "3f2a9c1e",
    CreatedBy := "user-1", Password := "secret", MaxDownloads := maxDownloads,
    DownloadCount := 0, ExpiresAt := none, IsActive := true, CreatedAt := 1000 }

/-- A run that creates a link limited to one download and then records two. -/
def overLimitOps : List ShareLinkOp :=
  [ShareLinkOp.create 1000 0x64b7f3a2c1d4e5f6a7b8c9d0
      { ID := NilObjectID, AttachmentID := "att-1", Code := "3f2a9c1e", CreatedBy := "user-1",
        Password := "", MaxDownloads := 1, DownloadCount := 0, ExpiresAt := none,
        IsActive := false, CreatedAt := 0 },
   ShareLinkOp.increment "3f2a9c1e",
   ShareLinkOp.increment "3f2a9c1e"]

/-- A run on an existing link: a download, a deactivation by id, a second
creation attempt with the same code, and another download. -/
def mixedOps : List ShareLinkOp :=
  [ShareLinkOp.increment "3f2a9c1e",
   ShareLinkOp.deactivate "64b7f3a2c1d4e5f6a7b8c9d0",
   ShareLinkOp.create 2000 0x64b7f3a2c1d4e5f6a7b8c9d1
      { ID := NilObjectID, AttachmentID := "att-2", Code := "3f2a9c1e", CreatedBy := "user-2",
        Password := "", MaxDownloads := 0, DownloadCount := 0, ExpiresAt := none,
        IsActive := true, CreatedAt := 0 },
   ShareLinkOp.create 2000 0x64b7f3a2c1d4e5f6a7b8c9d1
      { ID := NilObjectID, AttachmentID := "att-2", Code := "77aa00ff", CreatedBy := "user-2",
        Password := "", MaxDownloads := 0, DownloadCount := 0, ExpiresAt := none,
        IsActive := false, CreatedAt := 0 },
   ShareLinkOp.increment "3f2a9c1e"]

/-! ## Store primitives: basic facts -/

theorem updateOne_getElem? {α : Type} (p : α → Bool) (f : α → α) (xs : List α) (i : Nat) :
    (updateOne p f xs)[i]? = xs[i]? ∨
      ∃ x, xs[i]? = some x ∧ p x = true ∧ (updateOne p f xs)[i]? = some (f x) := by
  induction xs generalizing i with
  | nil => left; rfl
  | cons x xs ih =>
    unfold updateOne
    by_cases hp : p x = true
    · simp only [hp, if_true]
      cases i with
      | zero => right; exact ⟨x, by simp, hp, by simp⟩
      | succ j => left; simp
    · simp only [hp]
      cases i with
      | zero => left; simp
      | succ j =>
        rcases ih j with h | ⟨y, hy, hpy, hy'⟩
        · left; simpa using h
        · right; exact ⟨y, by simpa using hy, hpy, by simpa using hy'⟩

theorem find?_updateOne {α : Type} (p : α → Bool) (f : α → α) (hf : ∀ x, p (f x) = p x)
    (xs : List α) : (updateOne p f xs).find? p = (xs.find? p).map f := by
  induction xs with
  | nil => rfl
  | cons x xs ih =>
    unfold updateOne
    by_cases hp : p x = true
    · simp [hp, hf, List.find?]
    · have hp' : p x = false := by simpa using hp
      simp [hp', List.find?, ih]

theorem updateOne_idem {α : Type} (p : α → Bool) (f : α → α) (hf : ∀ x, p (f x) = p x)
    (hff : ∀ x, f (f x) = f x) (xs : List α) :
    updateOne p f (updateOne p f xs) = updateOne p f xs := by
  induction xs with
  | nil => rfl
  | cons x xs ih =>
    by_cases hp : p x = true
    · simp [updateOne, hp, hf, hff]
    · have hp' : p x = false := by simpa using hp
      simp [updateOne, hp', ih]

theorem find?_and_of_find? {α : Type} (p q : α → Bool) (xs : List α) (l : α)
    (h : xs.find? p = some l) (hq : q l = true) :
    xs.find? (fun x => p x && q x) = some l := by
  induction xs with
  | nil => simp at h
  | cons x xs ih =>
    by_cases hp : p x = true
    · have hx : x = l := by simpa [List.find?, hp] using h
      subst hx
      simp [List.find?, hp, hq]
    · have hp' : p x = false := by simpa using hp
      have h' : xs.find? p = some l := by simpa [List.find?, hp'] using h
      simp [List.find?, hp', ih h']

/-! ## Share links: how the list of links moves -/

theorem LinkEvolves_refl (l : ShareLink) : LinkEvolves l l :=
  ⟨rfl, rfl, rfl, le_refl _, fun h => h⟩

theorem LinkEvolves_trans {a b c : ShareLink} (hab : LinkEvolves a b) (hbc : LinkEvolves b c) :
    LinkEvolves a c := by
  obtain ⟨h1, h2, h3, h4, h5⟩ := hab
  obtain ⟨k1, k2, k3, k4, k5⟩ := hbc
  exact ⟨k1.trans h1, k2.trans h2, k3.trans h3, le_trans h4 k4, fun h => k5 (h5 h)⟩

theorem LinksEvolve_refl (xs : List ShareLink) : LinksEvolve xs xs :=
  fun _ l h => ⟨l, h, LinkEvolves_refl l⟩

theorem LinksEvolve_trans {xs ys zs : List ShareLink} (h1 : LinksEvolve xs ys)
    (h2 : LinksEvolve ys zs) : LinksEvolve xs zs := by
  intro i l hl
  obtain ⟨l1, hl1, e1⟩ := h1 i l hl
  obtain ⟨l2, hl2, e2⟩ := h2 i l1 hl1
  exact ⟨l2, hl2, LinkEvolves_trans e1 e2⟩

theorem LinksEvolve_append (xs ys : List ShareLink) : LinksEvolve xs (xs ++ ys) := by
  intro i l hl
  have hlt : i < xs.length := by
    by_contra hge
    have : xs[i]? = none := List.getElem?_eq_none (by omega)
    rw [this] at hl
    cases hl
  exact ⟨l, by rw [List.getElem?_append_left hlt]; exact hl, LinkEvolves_refl l⟩

theorem LinksEvolve_updateOne (p : ShareLink → Bool) (f : ShareLink → ShareLink)
    (hf : ∀ l, LinkEvolves l (f l)) (xs : List ShareLink) :
    LinksEvolve xs (updateOne p f xs) := by
  intro i l hl
  rcases updateOne_getElem? p f xs i with h | ⟨x, hx, _, hx'⟩
  · exact ⟨l, by rw [h]; exact hl, LinkEvolves_refl l⟩
  · rw [hl] at hx
    cases hx
    exact ⟨f l, hx', hf l⟩

theorem ShareLinkOp_apply_evolves (s : Store) (op : ShareLinkOp) :
    LinksEvolve s.shareLinks (ShareLinkOp.apply s op).1.shareLinks := by
  cases op with
  | create now fresh link =>
    simp only [ShareLinkOp.apply, CreateShareLink]
    split
    · exact LinksEvolve_refl _
    · exact LinksEvolve_append _ _
  | increment code =>
    simp only [ShareLinkOp.apply, IncrementShareLinkDownloads]
    apply LinksEvolve_updateOne
    intro l
    exact ⟨rfl, rfl, rfl, by simp, fun h => h⟩
  | deactivate id =>
    simp only [ShareLinkOp.apply, DeactivateShareLink]
    split
    · exact LinksEvolve_refl _
    · apply LinksEvolve_updateOne
      intro l
      exact ⟨rfl, rfl, rfl, le_refl _, fun _ => rfl⟩

theorem runShareLinkOps_evolves (ops : List ShareLinkOp) (s : Store) :
    LinksEvolve s.shareLinks (runShareLinkOps s ops).shareLinks := by
  induction ops generalizing s with
  | nil => exact LinksEvolve_refl _
  | cons op ops ih =>
    have h1 := ShareLinkOp_apply_evolves s op
    have h2 := ih (ShareLinkOp.apply s op).1
    exact LinksEvolve_trans h1 h2

theorem incrementTimes_find? (code : String) (n : Nat) (s : Store) :
    (incrementTimes code n s).shareLinks.find? (fun l => l.Code == code) =
      (s.shareLinks.find? (fun l => l.Code == code)).map
        (fun l => { l with DownloadCount := l.DownloadCount + n }) := by
  induction n generalizing s with
  | zero =>
    simp only [incrementTimes]
    cases s.shareLinks.find? (fun l => l.Code == code) <;> simp
  | succ n ih =>
    simp only [incrementTimes]
    rw [ih]
    simp only [IncrementShareLinkDownloads]
    have hstep := find?_updateOne (fun l : ShareLink => l.Code == code)
      (fun l => { l with DownloadCount := l.DownloadCount + 1 }) (fun _ => rfl) s.shareLinks
    rw [hstep]
    cases s.shareLinks.find? (fun l => l.Code == code) with
    | none => rfl
    | some l =>
      simp only [Option.map_some']
      congr 2
      push_cast
      ring

theorem GetShareLinkByCode_of_find? (s : Store) (code : String) (l : ShareLink)
    (h : s.shareLinks.find? (fun x => x.Code == code) = some l) (hact : l.IsActive = true) :
    GetShareLinkByCode s code = Except.ok l := by
  have := find?_and_of_find? (fun x : ShareLink => x.Code == code)
    (fun x => x.IsActive == true) s.shareLinks l h (by simp [hact])
  simp only [GetShareLinkByCode, findOne, this]

/-! ## Share links: the claims -/

/-- C1, counterexample: a link created through the handler with `maxDownloads = 3`
is, after three `IncrementShareLinkDownloads` calls on its code, still returned by
`GetShareLinkByCode` with `IsActive = true` and `DownloadCount = 3`, and a fourth
call is recorded (`DownloadCount = 4`). -/
theorem three_of_three_downloads_still_active :
    (oneLinkStore 3).shareLinks = [oneLink 3] ∧
      GetShareLinkByCode (incrementTimes "3f2a9c1e" 3 (oneLinkStore 3)) "3f2a9c1e" =
        Except.ok { oneLink 3 with DownloadCount := 3, IsActive := true } ∧
      GetShareLinkByCode (incrementTimes "3f2a9c1e" 4 (oneLinkStore 3)) "3f2a9c1e" =
        Except.ok { oneLink 3 with DownloadCount := 4, IsActive := true } := by
  decide

/-- C1, as amended: for an active link with `maxDownloads = k > 0` and download
count 0 (the link its code selects), every `IncrementShareLinkDownloads` call
returns no error, and after `k` calls on its code `GetShareLinkByCode` returns the
link with download count `k` and the active flag still true; after `k + 1` calls it
returns it with download count `k + 1`. -/
theorem increment_counts_and_keeps_active (s : Store) (code : String) (l : ShareLink) (k : Nat)
    (hfind : findOne (fun x => x.Code == code) s.shareLinks = some l)
    (hact : l.IsActive = true) (hmax : l.MaxDownloads = k) (hk : 0 < k)
    (hzero : l.DownloadCount = 0) :
    (∀ t : Store, (IncrementShareLinkDownloads t code).2 = none) ∧
      GetShareLinkByCode (incrementTimes code k s) code =
        Except.ok { l with DownloadCount := l.MaxDownloads, IsActive := true } ∧
      GetShareLinkByCode (incrementTimes code (k + 1) s) code =
        Except.ok { l with DownloadCount := l.MaxDownloads + 1, IsActive := true } := by
  have hk' := hk
  refine ⟨fun _ => rfl, ?_, ?_⟩
  · apply GetShareLinkByCode_of_find?
    · rw [incrementTimes_find?]
      have hfind' : s.shareLinks.find? (fun x => x.Code == code) = some l := hfind
      rw [hfind']
      simp only [Option.map_some']
      rw [hzero, hmax, ← hact]
      simp
    · rfl
  · apply GetShareLinkByCode_of_find?
    · rw [incrementTimes_find?]
      have hfind' : s.shareLinks.find? (fun x => x.Code == code) = some l := hfind
      rw [hfind']
      simp only [Option.map_some']
      rw [hzero, hmax, ← hact]
      simp
    · rfl

/-- C1, witness: the amended statement at the link created with `maxDownloads = 3`. -/
theorem increment_counts_and_keeps_active_witness :
    GetShareLinkByCode (incrementTimes "3f2a9c1e" 3 (oneLinkStore 3)) "3f2a9c1e" =
        Except.ok { oneLink 3 with DownloadCount := (oneLink 3).MaxDownloads, IsActive := true } ∧
      GetShareLinkByCode (incrementTimes "3f2a9c1e" (3 + 1) (oneLinkStore 3)) "3f2a9c1e" =
        Except.ok
          { oneLink 3 with DownloadCount := (oneLink 3).MaxDownloads + 1, IsActive := true } :=
  (increment_counts_and_keeps_active (oneLinkStore 3) "3f2a9c1e" (oneLink 3) 3
    (by decide) (by decide) (by decide) (by decide) (by decide)).2

/-- C2, counterexample: creating a link with `max_downloads = 1` and recording two
downloads reaches a store whose only link has `download_count = 2 > 1`. -/
theorem download_count_exceeds_max :
    (runShareLinkOps {} overLimitOps).shareLinks.map
        (fun l => (l.MaxDownloads, l.DownloadCount, decide (l.DownloadCount ≤ l.MaxDownloads))) =
      [(1, 2, false)] := by
  decide

/-- C2, as amended: along any sequence of `CreateShareLink`,
`IncrementShareLinkDownloads` and `DeactivateShareLink` calls every stored link
stays at its place with the same id, code and `max_downloads`, and its download
counter never decreases. -/
theorem download_count_never_decreases (s : Store) (ops : List ShareLinkOp) (i : Nat)
    (l : ShareLink) (h : s.shareLinks[i]? = some l) :
    ∃ l', (runShareLinkOps s ops).shareLinks[i]? = some l' ∧ l'.ID = l.ID ∧ l'.Code = l.Code ∧
      l'.MaxDownloads = l.MaxDownloads ∧ l.DownloadCount ≤ l'.DownloadCount := by
  obtain ⟨l', hl', h1, h2, h3, h4, _⟩ := runShareLinkOps_evolves ops s i l h
  exact ⟨l', hl', h1, h2, h3, h4⟩

/-- C2, witness: the amended statement on the link of `oneLinkStore 1` along `mixedOps`. -/
theorem download_count_never_decreases_witness :
    ∃ l', (runShareLinkOps (oneLinkStore 1) mixedOps).shareLinks[0]? = some l' ∧
      l'.ID = (oneLink 1).ID ∧ l'.Code = (oneLink 1).Code ∧
      l'.MaxDownloads = (oneLink 1).MaxDownloads ∧
      (oneLink 1).DownloadCount ≤ l'.DownloadCount :=
  download_count_never_decreases (oneLinkStore 1) mixedOps 0 (oneLink 1) (by decide)

/-- C3: `GetShareLinkByCode` returns a link exactly when some stored link has the
code and is active; what it returns is such a stored link and the handler answers
200 with it; when no stored link has the code and is active (unknown code, or only
deactivated links) it returns an error and the `GetShareLink` handler answers 404. -/
theorem GetShareLinkByCode_iff_active (s : Store) (code : String) :
    ((∃ l, GetShareLinkByCode s code = Except.ok l) ↔
        ∃ l ∈ s.shareLinks, l.Code = code ∧ l.IsActive = true) ∧
      (∀ l, GetShareLinkByCode s code = Except.ok l →
        l ∈ s.shareLinks ∧ l.Code = code ∧ l.IsActive = true ∧
          ExtendedHandler.GetShareLink s code = { status := 200, data := some l }) ∧
      ((¬ ∃ l ∈ s.shareLinks, l.Code = code ∧ l.IsActive = true) →
        GetShareLinkByCode s code = Except.error StoreError.ErrNoDocuments ∧
          ExtendedHandler.GetShareLink s code = { status := 404, data := none }) := by
  have key : ∀ l, GetShareLinkByCode s code = Except.ok l →
      l ∈ s.shareLinks ∧ l.Code = code ∧ l.IsActive = true := by
    intro l hl
    simp only [GetShareLinkByCode, findOne] at hl
    cases hfind : s.shareLinks.find? (fun l => l.Code == code && l.IsActive == true) with
    | none => rw [hfind] at hl; cases hl
    | some l0 =>
      rw [hfind] at hl
      cases hl
      have hmem := List.mem_of_find?_eq_some hfind
      have hp := List.find?_some hfind
      simp only [Bool.and_eq_true, beq_iff_eq] at hp
      exact ⟨hmem, hp.1, hp.2⟩
  have none_case : (¬ ∃ l ∈ s.shareLinks, l.Code = code ∧ l.IsActive = true) →
      GetShareLinkByCode s code = Except.error StoreError.ErrNoDocuments := by
    intro hno
    have hfind : s.shareLinks.find? (fun l => l.Code == code && l.IsActive == true) = none := by
      rw [List.find?_eq_none]
      intro x hx hpx
      simp only [Bool.and_eq_true, beq_iff_eq] at hpx
      exact hno ⟨x, hx, hpx.1, hpx.2⟩
    simp only [GetShareLinkByCode, findOne, hfind]
  refine ⟨⟨?_, ?_⟩, ?_, ?_⟩
  · rintro ⟨l, hl⟩
    exact ⟨l, key l hl⟩
  · intro hex
    by_contra hnone
    have herr : GetShareLinkByCode s code = Except.error StoreError.ErrNoDocuments := by
      cases hget : GetShareLinkByCode s code with
      | ok l => exact absurd ⟨l, hget⟩ hnone
      | error e =>
        simp only [GetShareLinkByCode] at hget
        split at hget
        · cases hget
        · cases hget; rfl
    have hno : ¬ ∃ l ∈ s.shareLinks, l.Code = code ∧ l.IsActive = true := by
      intro hex'
      obtain ⟨x, hx, hc, ha⟩ := hex'
      simp only [GetShareLinkByCode, findOne] at herr
      split at herr
      · cases herr
      · rename_i hfind
        rw [List.find?_eq_none] at hfind
        exact hfind x hx (by simp [hc, ha])
    exact hno hex
  · intro l hl
    obtain ⟨h1, h2, h3⟩ := key l hl
    exact ⟨h1, h2, h3, by simp only [ExtendedHandler.GetShareLink, hl]⟩
  · intro hno
    have herr := none_case hno
    exact ⟨herr, by simp only [ExtendedHandler.GetShareLink, herr]⟩

/-- C3, witness: after the deactivation in `mixedOps` the code of the first link
has no active link, so resolving it gives an error and the handler answers 404,
while the code of the second, active link resolves. -/
theorem GetShareLinkByCode_iff_active_witness :
    (GetShareLinkByCode (runShareLinkOps (oneLinkStore 1) mixedOps) "3f2a9c1e" =
        Except.error StoreError.ErrNoDocuments ∧
      ExtendedHandler.GetShareLink (runShareLinkOps (oneLinkStore 1) mixedOps) "3f2a9c1e" =
        { status := 404, data := none }) ∧
      ∃ l, GetShareLinkByCode (runShareLinkOps (oneLinkStore 1) mixedOps) "77aa00ff" =
        Except.ok l :=
  ⟨(GetShareLinkByCode_iff_active (runShareLinkOps (oneLinkStore 1) mixedOps) "3f2a9c1e").2.2
      (by decide),
    (GetShareLinkByCode_iff_active (runShareLinkOps (oneLinkStore 1) mixedOps) "77aa00ff").1.2
      (by decide)⟩

/-- C4: the active flag is one-way.  (1) Whatever `CreateShareLink` adds to the
store is active, and it does add the record when neither its id nor its code is
stored yet; (2) `DeactivateShareLink` with a well-formed id leaves the link with
that id inactive; (3) along any sequence of `CreateShareLink`,
`IncrementShareLinkDownloads` and `DeactivateShareLink` calls an inactive link
stays at its place and stays inactive; (4) deactivating twice gives the same
result as deactivating once. -/
theorem active_flag_one_way (s : Store) (now : Time) (fresh : ObjectID) (link : ShareLink)
    (id : String) (ops : List ShareLinkOp) (i : Nat) (l : ShareLink) :
    ((∀ x ∈ (CreateShareLink s now fresh link).1.shareLinks,
          x ∈ s.shareLinks ∨ (x.IsActive = true ∧ x.Code = link.Code)) ∧
        ((∀ x ∈ s.shareLinks, x.ID ≠ insertedID link.ID fresh ∧ x.Code ≠ link.Code) →
          CreateShareLink s now fresh link =
            ({ s with shareLinks := s.shareLinks ++
                [{ link with CreatedAt := now, IsActive := true,
                             ID := insertedID link.ID fresh }] }, none))) ∧
      (∀ objID, ObjectIDFromHex id = some objID →
        (DeactivateShareLink s id).2 = none ∧
        findOne (fun x => x.ID == objID) (DeactivateShareLink s id).1.shareLinks =
          (findOne (fun x => x.ID == objID) s.shareLinks).map
            (fun x => { x with IsActive := false })) ∧
      (s.shareLinks[i]? = some l → l.IsActive = false →
        ∃ l', (runShareLinkOps s ops).shareLinks[i]? = some l' ∧ l'.ID = l.ID ∧
          l'.IsActive = false) ∧
      DeactivateShareLink (DeactivateShareLink s id).1 id = DeactivateShareLink s id := by
  refine ⟨⟨?_, ?_⟩, ?_, ?_, ?_⟩
  · intro x hx
    simp only [CreateShareLink] at hx
    split at hx
    · exact Or.inl hx
    · simp only [List.mem_append, List.mem_singleton] at hx
      rcases hx with hx | hx
      · exact Or.inl hx
      · right; subst hx; exact ⟨rfl, rfl⟩
  · intro hnew
    have hany : s.shareLinks.any
        (fun x => x.ID == insertedID link.ID fresh || x.Code == link.Code) = false := by
      rw [List.any_eq_false]
      intro x hx
      have := hnew x hx
      simp [this.1, this.2]
    simp only [CreateShareLink, hany]
    rfl
  · intro objID hid
    simp only [DeactivateShareLink, hid, findOne]
    exact ⟨trivial, find?_updateOne (fun x : ShareLink => x.ID == objID)
      (fun x => { x with IsActive := false }) (fun _ => rfl) s.shareLinks⟩
  · intro hl hinact
    obtain ⟨l', hl', h1, _, _, _, h5⟩ := runShareLinkOps_evolves ops s i l hl
    exact ⟨l', hl', h1, h5 hinact⟩
  · cases hid : ObjectIDFromHex id with
    | none => simp only [DeactivateShareLink, hid]
    | some objID =>
      simp only [DeactivateShareLink, hid]
      rw [updateOne_idem (fun x : ShareLink => x.ID == objID)
        (fun x => { x with IsActive := false }) (fun _ => rfl) (fun _ => rfl)]

/-- C4, witness: the link of `oneLinkStore 1`, once deactivated by its id, is
inactive, and stays inactive along `mixedOps`, which tries to create a link
with the same code again and records another download. -/
theorem active_flag_one_way_witness :
    (findOne (fun x => x.ID == 0x64b7f3a2c1d4e5f6a7b8c9d0)
        (DeactivateShareLink (oneLinkStore 1) "64b7f3a2c1d4e5f6a7b8c9d0").1.shareLinks =
      some { oneLink 1 with IsActive := false }) ∧
    ∃ l', (runShareLinkOps (DeactivateShareLink (oneLinkStore 1) "64b7f3a2c1d4e5f6a7b8c9d0").1
        mixedOps).shareLinks[0]? = some l' ∧ l'.ID = (oneLink 1).ID ∧ l'.IsActive = false :=
  ⟨by decide,
    (active_flag_one_way (DeactivateShareLink (oneLinkStore 1) "64b7f3a2c1d4e5f6a7b8c9d0").1
      0 0 (oneLink 1) "64b7f3a2c1d4e5f6a7b8c9d0" mixedOps 0
      { oneLink 1 with IsActive := false }).2.2.1 (by decide) (by decide)⟩

/-! ## Permissions: the upsert -/

theorem filter_updateOne_same {α : Type} (k : α → Bool) (f : α → α)
    (hf : ∀ x, k (f x) = k x) (xs : List α) :
    (updateOne k f xs).filter k =
      (match xs.filter k with
        | [] => []
        | y :: ys => f y :: ys) := by
  induction xs with
  | nil => rfl
  | cons x xs ih =>
    by_cases hk : k x = true
    · have h1 : updateOne k f (x :: xs) = f x :: xs := by simp only [updateOne, hk, if_true]
      have h2 : (x :: xs).filter k = x :: xs.filter k := List.filter_cons_of_pos hk
      have h3 : (f x :: xs).filter k = f x :: xs.filter k :=
        List.filter_cons_of_pos (by rw [hf]; exact hk)
      rw [h1, h2, h3]
    · have h1 : updateOne k f (x :: xs) = x :: updateOne k f xs := by
        simp only [updateOne, hk]
        rfl
      have h2 : (x :: xs).filter k = xs.filter k := List.filter_cons_of_neg hk
      have h3 : (x :: updateOne k f xs).filter k = (updateOne k f xs).filter k :=
        List.filter_cons_of_neg hk
      rw [h1, h2, h3, ih]

theorem find?_eq_head?_filter {α : Type} (k : α → Bool) (xs : List α) :
    xs.find? k = (xs.filter k).head? := by
  induction xs with
  | nil => rfl
  | cons x xs ih =>
    by_cases hk : k x = true
    · rw [List.filter_cons_of_pos hk, List.find?_cons_of_pos _ hk]
      rfl
    · rw [List.filter_cons_of_neg hk, List.find?_cons_of_neg _ hk]
      exact ih

theorem any_eq_true_of_filter_cons {α : Type} (k : α → Bool) (xs : List α) (y : α)
    (ys : List α) (h : xs.filter k = y :: ys) : xs.any k = true := by
  have hy : y ∈ xs.filter k := by rw [h]; exact List.mem_cons_self _ _
  rw [List.mem_filter] at hy
  rw [List.any_eq_true]
  exact ⟨y, hy.1, hy.2⟩

theorem permissionKey_permissionSet (a u : String) (p : AttachmentPermission) (tU : Time)
    (q : AttachmentPermission) :
    permissionKey a u (permissionSet p tU q) = permissionKey a u q := rfl

theorem SetPermission_of_match (s : Store) (tU tI : Time) (fresh : ObjectID)
    (p : AttachmentPermission)
    (hany : s.permissions.any (permissionKey p.AttachmentID p.UserID) = true) :
    SetPermission s tU tI fresh p =
      ({ s with permissions := (updateOne (permissionKey p.AttachmentID p.UserID)
          (permissionSet p tU) s.permissions) }, none) := by
  simp only [SetPermission, hany, if_true]

theorem SetPermission_of_no_match (s : Store) (tU tI : Time) (fresh : ObjectID)
    (p : AttachmentPermission)
    (hany : s.permissions.any (permissionKey p.AttachmentID p.UserID) = false)
    (hfresh : ∀ q ∈ s.permissions, q.ID ≠ fresh) :
    SetPermission s tU tI fresh p =
      ({ s with permissions := s.permissions ++ [permissionInserted p tU tI fresh] }, none) := by
  have hid : s.permissions.any (fun q => q.ID == fresh) = false := by
    rw [List.any_eq_false]
    intro q hq
    simpa using hfresh q hq
  simp only [SetPermission, hany, hid]
  rfl

/-- After one `SetPermission` on a store with at most one record for the pair and
an unused generated id, the call succeeds and exactly one record matches. -/
theorem SetPermission_filter (s : Store) (tU tI : Time) (fresh : ObjectID)
    (p : AttachmentPermission)
    (huniq : permissionCount s p.AttachmentID p.UserID ≤ 1)
    (hfresh : ∀ q ∈ s.permissions, q.ID ≠ fresh) :
    (SetPermission s tU tI fresh p).2 = none ∧
      ∃ q, (SetPermission s tU tI fresh p).1.permissions.filter
          (permissionKey p.AttachmentID p.UserID) = [q] := by
  unfold permissionCount at huniq
  cases hfil : s.permissions.filter (permissionKey p.AttachmentID p.UserID) with
  | nil =>
    have hany : s.permissions.any (permissionKey p.AttachmentID p.UserID) = false := by
      rw [List.any_eq_false]
      rw [List.filter_eq_nil_iff] at hfil
      exact hfil
    rw [SetPermission_of_no_match s tU tI fresh p hany hfresh]
    refine ⟨rfl, permissionInserted p tU tI fresh, ?_⟩
    show (s.permissions ++ [permissionInserted p tU tI fresh]).filter _ = _
    rw [List.filter_append, hfil, List.nil_append]
    exact List.filter_cons_of_pos (by simp [permissionKey, permissionInserted])
  | cons y ys =>
    have hys : ys = [] := by
      rw [hfil] at huniq
      simp only [List.length_cons] at huniq
      exact List.length_eq_zero.mp (by omega)
    subst hys
    have hany := any_eq_true_of_filter_cons _ _ _ _ hfil
    rw [SetPermission_of_match s tU tI fresh p hany]
    refine ⟨rfl, permissionSet p tU y, ?_⟩
    show (updateOne _ _ s.permissions).filter _ = _
    rw [filter_updateOne_same _ _ (permissionKey_permissionSet _ _ p tU), hfil]

/-- C5: on a store with at most one record for the pair (the unique index) and an
unused generated id, `SetPermission(A, U, flags1)` followed by
`SetPermission(A, U, flags2)` both succeed and leave exactly one record for
`(A, U)`, which `GetPermission` returns and whose four flags are those of the
second call. -/
theorem SetPermission_twice_replaces (s : Store) (tU1 tI1 tU2 tI2 : Time)
    (fresh1 fresh2 : ObjectID) (p1 p2 : AttachmentPermission)
    (hA : p2.AttachmentID = p1.AttachmentID) (hU : p2.UserID = p1.UserID)
    (huniq : permissionCount s p1.AttachmentID p1.UserID ≤ 1)
    (hfresh : ∀ q ∈ s.permissions, q.ID ≠ fresh1) :
    (SetPermission s tU1 tI1 fresh1 p1).2 = none ∧
      (SetPermission (SetPermission s tU1 tI1 fresh1 p1).1 tU2 tI2 fresh2 p2).2 = none ∧
      ∃ q, (SetPermission (SetPermission s tU1 tI1 fresh1 p1).1 tU2 tI2 fresh2
            p2).1.permissions.filter (permissionKey p1.AttachmentID p1.UserID) = [q] ∧
        GetPermission (SetPermission (SetPermission s tU1 tI1 fresh1 p1).1 tU2 tI2 fresh2 p2).1
            p1.AttachmentID p1.UserID = Except.ok q ∧
        q.CanView = p2.CanView ∧ q.CanDownload = p2.CanDownload ∧
        q.CanDelete = p2.CanDelete ∧ q.CanShare = p2.CanShare := by
  obtain ⟨herr1, q1, hq1⟩ := SetPermission_filter s tU1 tI1 fresh1 p1 huniq hfresh
  refine ⟨herr1, ?_⟩
  generalize (SetPermission s tU1 tI1 fresh1 p1).1 = s1 at hq1 ⊢
  have hany : s1.permissions.any (permissionKey p2.AttachmentID p2.UserID) = true := by
    rw [hA, hU]
    exact any_eq_true_of_filter_cons _ _ _ _ hq1
  rw [SetPermission_of_match s1 tU2 tI2 fresh2 p2 hany]
  have hfil : (updateOne (permissionKey p2.AttachmentID p2.UserID) (permissionSet p2 tU2)
      s1.permissions).filter (permissionKey p1.AttachmentID p1.UserID) =
      [permissionSet p2 tU2 q1] := by
    rw [hA, hU, filter_updateOne_same _ _ (permissionKey_permissionSet _ _ p2 tU2), hq1]
  refine ⟨rfl, permissionSet p2 tU2 q1, hfil, ?_, rfl, rfl, rfl, rfl⟩
  show GetPermission { s1 with permissions := (updateOne (permissionKey p2.AttachmentID p2.UserID)
    (permissionSet p2 tU2) s1.permissions) } p1.AttachmentID p1.UserID = _
  simp only [GetPermission, findOne, find?_eq_head?_filter, hfil, List.head?_cons]

/-- C5, witness: `{view: true}` then `{download: true}` for the same pair, next to
another user's record: one record remains, with `can_view = false` and
`can_download = true`. -/
theorem SetPermission_twice_replaces_witness :
    ∃ q, (SetPermission (SetPermission otherUserStore 20 21 0x64b7f3a2c1d4e5f6a7b8c9ab
              (permissionOfRequest "att-1" "alice" viewOnly)).1 30 31 0x64b7f3a2c1d4e5f6a7b8c9ac
            (permissionOfRequest "att-1" "bob" downloadOnly)).1.permissions.filter
          (permissionKey "att-1" "u-7") = [q] ∧
      q.CanView = false ∧ q.CanDownload = true ∧ q.CanDelete = false ∧ q.CanShare = false := by
  obtain ⟨_, _, q, hq, _, h1, h2, h3, h4⟩ :=
    SetPermission_twice_replaces otherUserStore 20 21 30 31 0x64b7f3a2c1d4e5f6a7b8c9ab
      0x64b7f3a2c1d4e5f6a7b8c9ac (permissionOfRequest "att-1" "alice" viewOnly)
      (permissionOfRequest "att-1" "bob" downloadOnly) rfl rfl (by decide) (by decide)
  exact ⟨q, hq, h1, h2, h3, h4⟩

/-- C6: a `SetPermission` for a pair that already has a record `q` succeeds and
turns it into a record with the new granter and update time and with the id and
creation time of `q`; a `SetPermission` for a pair without a record (and with an
unused generated id) appends a record whose creation time is the reading taken in
that call. -/
theorem SetPermission_keeps_created_at (s : Store) (tU tI : Time) (fresh : ObjectID)
    (p : AttachmentPermission) :
    (∀ q, findOne (permissionKey p.AttachmentID p.UserID) s.permissions = some q →
        (SetPermission s tU tI fresh p).2 = none ∧
        findOne (permissionKey p.AttachmentID p.UserID)
            (SetPermission s tU tI fresh p).1.permissions = some (permissionSet p tU q) ∧
        (permissionSet p tU q).CreatedAt = q.CreatedAt ∧
        (permissionSet p tU q).ID = q.ID ∧
        (permissionSet p tU q).GrantedBy = p.GrantedBy ∧
        (permissionSet p tU q).UpdatedAt = tU) ∧
      (findOne (permissionKey p.AttachmentID p.UserID) s.permissions = none →
        (∀ q ∈ s.permissions, q.ID ≠ fresh) →
        SetPermission s tU tI fresh p =
          ({ s with permissions := s.permissions ++ [permissionInserted p tU tI fresh] },
            none) ∧
        findOne (permissionKey p.AttachmentID p.UserID)
            (SetPermission s tU tI fresh p).1.permissions =
          some (permissionInserted p tU tI fresh) ∧
        (permissionInserted p tU tI fresh).CreatedAt = tI ∧
        (permissionInserted p tU tI fresh).GrantedBy = p.GrantedBy) := by
  constructor
  · intro q hq
    have hq' : s.permissions.find? (permissionKey p.AttachmentID p.UserID) = some q := hq
    have hany : s.permissions.any (permissionKey p.AttachmentID p.UserID) = true := by
      rw [List.any_eq_true]
      exact ⟨q, List.mem_of_find?_eq_some hq', List.find?_some hq'⟩
    rw [SetPermission_of_match s tU tI fresh p hany]
    refine ⟨rfl, ?_, rfl, rfl, rfl, rfl⟩
    show (updateOne _ _ s.permissions).find? _ = _
    rw [find?_updateOne _ _ (permissionKey_permissionSet _ _ p tU), hq']
    rfl
  · intro hnone hfresh
    have hnone' : s.permissions.find? (permissionKey p.AttachmentID p.UserID) = none := hnone
    have hany : s.permissions.any (permissionKey p.AttachmentID p.UserID) = false := by
      rw [List.any_eq_false]
      rw [List.find?_eq_none] at hnone'
      exact hnone'
    rw [SetPermission_of_no_match s tU tI fresh p hany hfresh]
    refine ⟨rfl, ?_, rfl, rfl⟩
    show (s.permissions ++ [permissionInserted p tU tI fresh]).find? _ = _
    rw [List.find?_append, hnone']
    simp [List.find?, permissionKey, permissionInserted]

/-- C6, witness: a first grant by `alice` with creation reading 21, then a second
grant by `bob` with update reading 30: the record keeps creation time 21 and has
granter `bob` and update time 30. -/
theorem SetPermission_keeps_created_at_witness :
    findOne (permissionKey "att-1" "u-7")
        (SetPermission otherUserStore 20 21 0x64b7f3a2c1d4e5f6a7b8c9ab
          (permissionOfRequest "att-1" "alice" viewOnly)).1.permissions =
      some (permissionInserted (permissionOfRequest "att-1" "alice" viewOnly) 20 21
        0x64b7f3a2c1d4e5f6a7b8c9ab) ∧
    findOne (permissionKey "att-1" "u-7")
        (SetPermission (SetPermission otherUserStore 20 21 0x64b7f3a2c1d4e5f6a7b8c9ab
            (permissionOfRequest "att-1" "alice" viewOnly)).1 30 31 0x64b7f3a2c1d4e5f6a7b8c9ac
          (permissionOfRequest "att-1" "bob" downloadOnly)).1.permissions =
      some { ID := 0x64b7f3a2c1d4e5f6a7b8c9ab, AttachmentID := "att-1", UserID := "u-7",
             CanView := false, CanDownload := true, CanDelete := false, CanShare := false,
             GrantedBy := "bob", CreatedAt := 21, UpdatedAt := 30 } :=
  ⟨((SetPermission_keeps_created_at otherUserStore 20 21 0x64b7f3a2c1d4e5f6a7b8c9ab
      (permissionOfRequest "att-1" "alice" viewOnly)).2 (by decide) (by decide)).2.1,
   ((SetPermission_keeps_created_at
      (SetPermission otherUserStore 20 21 0x64b7f3a2c1d4e5f6a7b8c9ab
        (permissionOfRequest "att-1" "alice" viewOnly)).1 30 31 0x64b7f3a2c1d4e5f6a7b8c9ac
      (permissionOfRequest "att-1" "bob" downloadOnly)).1
      (permissionInserted (permissionOfRequest "att-1" "alice" viewOnly) 20 21
        0x64b7f3a2c1d4e5f6a7b8c9ab) (by decide)).2.1⟩

/-! ## Collections: items and the cached count -/

theorem deleteOne_append_singleton {α : Type} (p : α → Bool) (xs : List α) (d : α)
    (hxs : ∀ x ∈ xs, p x = false) (hd : p d = true) : deleteOne p (xs ++ [d]) = xs := by
  induction xs with
  | nil => simp only [List.nil_append, deleteOne, hd, if_true]
  | cons x xs ih =>
    have hx : p x = false := hxs x (List.mem_cons_self _ _)
    have hrest : ∀ y ∈ xs, p y = false := fun y hy => hxs y (List.mem_cons_of_mem _ hy)
    have hstep : deleteOne p (x :: (xs ++ [d])) = x :: deleteOne p (xs ++ [d]) := by
      simp only [deleteOne, hx]
      rfl
    rw [List.cons_append, hstep, ih hrest]

theorem updateOne_cancel {α : Type} (p : α → Bool) (f g : α → α)
    (hp : ∀ x, p (f x) = p x) (hgf : ∀ x, g (f x) = x) (xs : List α) :
    updateOne p g (updateOne p f xs) = xs := by
  induction xs with
  | nil => rfl
  | cons x xs ih =>
    by_cases hx : p x = true
    · simp only [updateOne, hx, if_true, hp, hgf]
    · have hx' : p x = false := by simpa using hx
      simp only [updateOne, hx', ih]
      rfl

theorem incItemCount_cancel (collectionID : String) (cs : List AttachmentCollection) :
    incItemCount (-1) collectionID (incItemCount 1 collectionID cs) = cs := by
  unfold incItemCount
  apply updateOne_cancel
  · intro x; rfl
  · intro x
    cases x
    simp

theorem GetCollection_eq_ok (s : Store) (id : String) (c : AttachmentCollection)
    (h : GetCollection s id = Except.ok c) :
    ∃ objID, ObjectIDFromHex id = some objID ∧
      s.collections.find? (fun x => x.ID == objID) = some c := by
  unfold GetCollection at h
  cases hid : ObjectIDFromHex id with
  | none => rw [hid] at h; cases h
  | some objID =>
    rw [hid] at h
    simp only [findOne] at h
    cases hfind : s.collections.find? (fun x => x.ID == objID) with
    | none => rw [hfind] at h; cases h
    | some c0 =>
      rw [hfind] at h
      cases h
      exact ⟨objID, rfl, hfind⟩

/-- C7, at the failing input: on the store holding only the empty collection
"Reports" created through the handler, `RemoveFromCollection` of an attachment that
is not in it answers 200 and leaves `item_count = -1` while no `CollectionItem`
references the collection. -/
theorem remove_absent_item_drifts_count :
    GetCollection reportsStore reportsID =
        Except.ok { ID := 0x64b7f3a2c1d4e5f6a7b8c9e0, Name := "Reports", Description := "",
                    WorkspaceID := "ws-1", CreatedBy := "user-1", CoverURL := "",
                    ItemCount := 0, IsPublic := false, CreatedAt := 100, UpdatedAt := 101 } ∧
      liveItemCount reportsStore reportsID = 0 ∧
      (ExtendedHandler.RemoveFromCollection reportsStore reportsID "att-X").2.status = 200 ∧
      GetCollection (ExtendedHandler.RemoveFromCollection reportsStore reportsID "att-X").1 reportsID =
        Except.ok { ID := 0x64b7f3a2c1d4e5f6a7b8c9e0, Name := "Reports", Description := "",
                    WorkspaceID := "ws-1", CreatedBy := "user-1", CoverURL := "",
                    ItemCount := -1, IsPublic := false, CreatedAt := 100, UpdatedAt := 101 } ∧
      liveItemCount (ExtendedHandler.RemoveFromCollection reportsStore reportsID "att-X").1 reportsID =
        0 := by
  decide

/-- C8: for an existing collection `C` (with record `c`) and an attachment `X` with
no item in `C` yet, `AddToCollection(C, X)` under an unused item id succeeds,
raises the number of items of `C` and its `item_count` by one, and a following
`RemoveFromCollection(C, X)` succeeds and gives back exactly the store before the
add: the same items and the same `item_count`. -/
theorem add_then_remove_restores (s : Store) (now : Time) (fresh : ObjectID)
    (item : CollectionItem) (c : AttachmentCollection)
    (hexists : GetCollection s item.CollectionID = Except.ok c)
    (hnew : ∀ x ∈ s.collItems,
      ¬ (x.CollectionID = item.CollectionID ∧ x.AttachmentID = item.AttachmentID))
    (hfresh : ∀ x ∈ s.collItems, x.ID ≠ insertedID item.ID fresh) :
    (AddToCollection s now fresh item).2 = none ∧
      liveItemCount (AddToCollection s now fresh item).1 item.CollectionID =
        liveItemCount s item.CollectionID + 1 ∧
      GetCollection (AddToCollection s now fresh item).1 item.CollectionID =
        Except.ok { c with ItemCount := c.ItemCount + 1 } ∧
      RemoveFromCollection (AddToCollection s now fresh item).1 item.CollectionID
        item.AttachmentID = (s, none) := by
  obtain ⟨objID, hid, hfind⟩ := GetCollection_eq_ok s item.CollectionID c hexists
  have hany : s.collItems.any (fun x => x.ID == insertedID item.ID fresh ||
      (x.CollectionID == item.CollectionID && x.AttachmentID == item.AttachmentID)) = false := by
    rw [List.any_eq_false]
    intro x hx
    have h1 := hfresh x hx
    have h2 := hnew x hx
    simp only [Bool.or_eq_true, Bool.and_eq_true, beq_iff_eq, not_or]
    exact ⟨h1, h2⟩
  have hadd : AddToCollection s now fresh item =
      ({ s with
          collItems := s.collItems ++
            [{ item with AddedAt := now, ID := insertedID item.ID fresh }],
          collections := (incItemCount 1 item.CollectionID s.collections) }, none) := by
    simp only [AddToCollection, hany]
    rfl
  rw [hadd]
  refine ⟨rfl, ?_, ?_, ?_⟩
  · simp only [liveItemCount, List.filter_append]
    rw [List.filter_cons_of_pos (by simp)]
    simp
  · simp only [GetCollection, hid, findOne, incItemCount, Option.getD_some]
    rw [find?_updateOne (fun x : AttachmentCollection => x.ID == objID)
      (fun x => { x with ItemCount := x.ItemCount + 1 }) (fun _ => rfl), hfind]
    rfl
  · simp only [RemoveFromCollection]
    rw [incItemCount_cancel, deleteOne_append_singleton]
    · intro x hx
      have h2 := hnew x hx
      simpa using h2
    · simp

/-- C8, witness: adding `att-X` to the empty collection "Reports" and removing it
again gives back the store with `item_count = 0` and no items. -/
theorem add_then_remove_restores_witness :
    (AddToCollection reportsStore 200 0x64b7f3a2c1d4e5f6a7b8c9e1
        (itemOfRequest reportsID "att-X" "user-1")).2 = none ∧
      RemoveFromCollection (AddToCollection reportsStore 200 0x64b7f3a2c1d4e5f6a7b8c9e1
        (itemOfRequest reportsID "att-X" "user-1")).1 reportsID "att-X" = (reportsStore, none) := by
  obtain ⟨h1, _, _, h4⟩ := add_then_remove_restores reportsStore 200 0x64b7f3a2c1d4e5f6a7b8c9e1
    (itemOfRequest reportsID "att-X" "user-1")
    { ID := 0x64b7f3a2c1d4e5f6a7b8c9e0, Name := "Reports", Description := "",
      WorkspaceID := "ws-1", CreatedBy := "user-1", CoverURL := "", ItemCount := 0,
      IsPublic := false, CreatedAt := 100, UpdatedAt := 101 }
    (by decide) (by decide) (by decide)
  exact ⟨h1, h4⟩

/-! ## Collections: deletion -/

theorem deleteOne_id_eq_filter (objID : ObjectID) (cs : List AttachmentCollection)
    (hnodup : (cs.map (fun c => c.ID)).Nodup) :
    deleteOne (fun c => c.ID == objID) cs = cs.filter (fun c => !(c.ID == objID)) := by
  induction cs with
  | nil => rfl
  | cons x xs ih =>
    rw [List.map_cons, List.nodup_cons] at hnodup
    obtain ⟨hx, hxs⟩ := hnodup
    by_cases hid : x.ID = objID
    · have h1 : deleteOne (fun c => c.ID == objID) (x :: xs) = xs := by
        simp only [deleteOne, hid, beq_self_eq_true, if_true]
      have h2 : (x :: xs).filter (fun c => !(c.ID == objID)) =
          xs.filter (fun c => !(c.ID == objID)) :=
        List.filter_cons_of_neg (by simp [hid])
      have h3 : xs.filter (fun c => !(c.ID == objID)) = xs := by
        rw [List.filter_eq_self]
        intro c hc
        have hne : c.ID ≠ objID := by
          intro heq
          apply hx
          rw [hid, ← heq]
          exact List.mem_map_of_mem (fun c => c.ID) hc
        simp [hne]
      rw [h1, h2, h3]
    · have hb : (x.ID == objID) = false := by simpa using hid
      have h1 : deleteOne (fun c => c.ID == objID) (x :: xs) =
          x :: deleteOne (fun c => c.ID == objID) xs := by
        simp only [deleteOne, hb]
        rfl
      have h2 : (x :: xs).filter (fun c => !(c.ID == objID)) =
          x :: xs.filter (fun c => !(c.ID == objID)) :=
        List.filter_cons_of_pos (by simp [hb])
      rw [h1, h2, ih hxs]

/-- C10: for a well-formed id `C` (and collection ids that are unique, as `_id`
is) `DeleteCollection(C)` succeeds, keeps exactly the collections with another id,
leaves no item with `collection_id = C`, and leaves the items of every other
collection id as they were; for a malformed id it returns the parse error and the
store is unchanged. -/
theorem DeleteCollection_cascades (s : Store) (C : String) :
    (∀ objID, ObjectIDFromHex C = some objID → (s.collections.map (fun c => c.ID)).Nodup →
        (DeleteCollection s C).2 = none ∧
        (DeleteCollection s C).1.collections =
          s.collections.filter (fun c => !(c.ID == objID)) ∧
        (∀ c ∈ (DeleteCollection s C).1.collections, c.ID ≠ objID) ∧
        (∀ x ∈ (DeleteCollection s C).1.collItems, x.CollectionID ≠ C) ∧
        (∀ D, D ≠ C →
          (DeleteCollection s C).1.collItems.filter (fun x => x.CollectionID == D) =
            s.collItems.filter (fun x => x.CollectionID == D))) ∧
      (ObjectIDFromHex C = none →
        DeleteCollection s C = (s, some StoreError.ErrInvalidHex)) := by
  constructor
  · intro objID hid hnodup
    have hdel : DeleteCollection s C =
        ({ s with
            collections := (deleteOne (fun c => c.ID == objID) s.collections),
            collItems := (deleteMany (fun x => x.CollectionID == C) s.collItems) }, none) := by
      simp only [DeleteCollection, hid]
    rw [hdel]
    have hcols := deleteOne_id_eq_filter objID s.collections hnodup
    refine ⟨rfl, hcols, ?_, ?_, ?_⟩
    · intro c hc
      have hc' : c ∈ s.collections.filter (fun c => !(c.ID == objID)) := by
        rw [← hcols]; exact hc
      rw [List.mem_filter] at hc'
      simpa using hc'.2
    · intro x hx
      have hx' : x ∈ s.collItems.filter (fun x => !(x.CollectionID == C)) := hx
      rw [List.mem_filter] at hx'
      simpa using hx'.2
    · intro D hD
      show (deleteMany (fun x => x.CollectionID == C) s.collItems).filter _ = _
      unfold deleteMany
      rw [List.filter_filter]
      apply List.filter_congr
      intro x _
      by_cases hx : x.CollectionID = D
      · have hne : x.CollectionID ≠ C := by rw [hx]; exact hD
        simp [hx, hne]
        exact hD
      · simp [hx]
  · intro hid
    simp only [DeleteCollection, hid]

/-- C10, witness: deleting "Reports" after one add leaves no collection and no
item, and a malformed id changes nothing. -/
theorem DeleteCollection_cascades_witness :
    (DeleteCollection (AddToCollection reportsStore 200 0x64b7f3a2c1d4e5f6a7b8c9e1
        (itemOfRequest reportsID "att-X" "user-1")).1 reportsID).2 = none ∧
      (∀ x ∈ (DeleteCollection (AddToCollection reportsStore 200 0x64b7f3a2c1d4e5f6a7b8c9e1
          (itemOfRequest reportsID "att-X" "user-1")).1 reportsID).1.collItems,
        x.CollectionID ≠ reportsID) ∧
      DeleteCollection reportsStore "not-an-id" = (reportsStore, some StoreError.ErrInvalidHex) := by
  obtain ⟨h1, _, _, h4, _⟩ :=
    (DeleteCollection_cascades (AddToCollection reportsStore 200 0x64b7f3a2c1d4e5f6a7b8c9e1
      (itemOfRequest reportsID "att-X" "user-1")).1 reportsID).1 0x64b7f3a2c1d4e5f6a7b8c9e0
      (by decide) (by decide)
  exact ⟨h1, h4, (DeleteCollection_cascades reportsStore "not-an-id").2 (by decide)⟩

/-! ## Collections: no recount -/

/-- C9, counterexample: on the store where the cached count of "Reports" has
drifted (`item_count = -1`, no items), a call of each collection operation of the
repository leaves the collection without a stored count equal to the number of its
items. -/
theorem drift_survives_each_operation :
    driftedStore = reportsWith (-1) [] ∧
      countIsLive driftedStore reportsID = false ∧
      sampleCollectionOps.map
          (fun op => countIsLive (CollectionOp.apply driftedStore op).1 reportsID) =
        [false, false, false, false, false] := by
  decide

theorem ObjectIDFromHex_reportsID :
    ObjectIDFromHex reportsID = some 0x64b7f3a2c1d4e5f6a7b8c9e0 := by
  decide

theorem countIsLive_reports (s : Store) (c : AttachmentCollection)
    (cs : List AttachmentCollection) (hs : s.collections = c :: cs)
    (hc : c.ID = 0x64b7f3a2c1d4e5f6a7b8c9e0) :
    countIsLive s reportsID = (c.ItemCount == liveItemCount s reportsID) := by
  simp only [countIsLive, GetCollection, ObjectIDFromHex_reportsID, findOne, hs]
  rw [List.find?_cons_of_pos _ (by simp [hc])]

theorem countIsLive_false_of_gap (s : Store) (c : AttachmentCollection)
    (cs : List AttachmentCollection) (hs : s.collections = c :: cs)
    (hc : c.ID = 0x64b7f3a2c1d4e5f6a7b8c9e0) (hlow : 4 ≤ c.ItemCount)
    (hlive : liveItemCount s reportsID ≤ 1) : countIsLive s reportsID = false := by
  rw [countIsLive_reports s c cs hs hc]
  have hne : c.ItemCount ≠ liveItemCount s reportsID := by omega
  simpa using hne

theorem liveItemCount_le_one (s : Store) (id : String) (h : s.collItems.length ≤ 1) :
    liveItemCount s id ≤ 1 := by
  have hle := List.length_filter_le (fun x : CollectionItem => x.CollectionID == id) s.collItems
  simp only [liveItemCount]
  have : (s.collItems.filter (fun x => x.CollectionID == id)).length ≤ 1 := le_trans hle h
  exact_mod_cast this

theorem countIsLive_false_of_empty (s : Store) (hs : s.collections = []) :
    countIsLive s reportsID = false := by
  simp only [countIsLive, GetCollection, ObjectIDFromHex_reportsID, findOne, hs, List.find?_nil]

theorem incItemCount_reportsRecord (delta : Int) (collectionID : String) (n : Int) :
    incItemCount delta collectionID [reportsRecord n] = [reportsRecord n] ∨
      incItemCount delta collectionID [reportsRecord n] = [reportsRecord (n + delta)] := by
  unfold incItemCount
  by_cases h : ((reportsRecord n).ID == (ObjectIDFromHex collectionID).getD NilObjectID) = true
  · right
    simp only [updateOne, h, if_true]
    rfl
  · left
    simp only [updateOne, h]
    rfl

/-- C9, as amended: the repository has no recount operation.  There is no way to
choose, from the collection id alone, one call of the collection operations
(`CreateCollection`, `UpdateCollection`, `DeleteCollection`, `AddToCollection`,
`RemoveFromCollection`, with any arguments) after which, on every store holding
that collection, the stored `item_count` equals the number of `CollectionItem`
records with that `collection_id`. -/
theorem no_collection_call_recounts :
    ¬ ∃ recount : String → CollectionOp,
        ∀ (id : String) (s : Store) (c : AttachmentCollection),
          GetCollection s id = Except.ok c →
            countIsLive (CollectionOp.apply s (recount id)).1 id = true := by
  rintro ⟨recount, h⟩
  have hA := h reportsID (reportsWith 5 []) (reportsRecord 5) (by decide)
  have hB := h reportsID (reportsWith 5 [itemOfRequest reportsID "att-X" "user-1"])
    (reportsRecord 5) (by decide)
  cases hop : recount reportsID with
  | create tCreated tUpdated fresh c =>
    rw [hop] at hA
    have hfalse : countIsLive
        (CollectionOp.apply (reportsWith 5 []) (CollectionOp.create tCreated tUpdated fresh c)).1
        reportsID = false := by
      simp only [CollectionOp.apply, CreateCollection]
      split
      · exact countIsLive_false_of_gap _ (reportsRecord 5) [] rfl rfl (by decide) (by decide)
      · exact countIsLive_false_of_gap _ (reportsRecord 5) _ rfl rfl (by decide)
          (liveItemCount_le_one _ _ (by simp [reportsWith]))
    rw [hfalse] at hA
    cases hA
  | update now id u =>
    rw [hop] at hA hB
    simp only [CollectionOp.apply, UpdateCollection] at hA hB
    cases hid : ObjectIDFromHex id with
    | none =>
      rw [hid] at hA
      have hfalse := countIsLive_false_of_gap (reportsWith 5 []) (reportsRecord 5) [] rfl rfl
        (by decide) (by decide)
      rw [hfalse] at hA
      cases hA
    | some objID =>
      rw [hid] at hA hB
      by_cases hobj : ((reportsRecord 5).ID == objID) = true
      · have hupd : updateOne (fun c : AttachmentCollection => c.ID == objID) (u.applyTo now)
            [reportsRecord 5] = [u.applyTo now (reportsRecord 5)] := by
          simp only [updateOne, hobj, if_true]
        have hA' := hA
        rw [countIsLive_reports _ (u.applyTo now (reportsRecord 5)) [] hupd rfl] at hA'
        have hB' := hB
        rw [countIsLive_reports _ (u.applyTo now (reportsRecord 5)) [] hupd rfl] at hB'
        have e0 : (u.applyTo now (reportsRecord 5)).ItemCount = 0 := by
          simpa [liveItemCount, reportsWith] using hA'
        have e1 : (u.applyTo now (reportsRecord 5)).ItemCount = 1 := by
          simpa [liveItemCount, reportsWith, itemOfRequest, reportsID] using hB'
        rw [e0] at e1
        cases e1
      · have hupd : updateOne (fun c : AttachmentCollection => c.ID == objID) (u.applyTo now)
            [reportsRecord 5] = [reportsRecord 5] := by
          simp only [updateOne, hobj]
          rfl
        have hfalse := countIsLive_false_of_gap
          { reportsWith 5 [] with collections := (updateOne
              (fun c : AttachmentCollection => c.ID == objID) (u.applyTo now)
              (reportsWith 5 []).collections) }
          (reportsRecord 5) [] hupd rfl (by decide)
          (liveItemCount_le_one _ _ (by simp [reportsWith]))
        rw [hfalse] at hA
        cases hA
  | delete id =>
    rw [hop] at hA
    simp only [CollectionOp.apply, DeleteCollection] at hA
    cases hid : ObjectIDFromHex id with
    | none =>
      rw [hid] at hA
      have hfalse := countIsLive_false_of_gap (reportsWith 5 []) (reportsRecord 5) [] rfl rfl
        (by decide) (by decide)
      rw [hfalse] at hA
      cases hA
    | some objID =>
      rw [hid] at hA
      by_cases hobj : ((reportsRecord 5).ID == objID) = true
      · have hdel : deleteOne (fun c : AttachmentCollection => c.ID == objID)
            [reportsRecord 5] = [] := by
          simp only [deleteOne, hobj, if_true]
        rw [countIsLive_false_of_empty _ hdel] at hA
        cases hA
      · have hdel : deleteOne (fun c : AttachmentCollection => c.ID == objID)
            [reportsRecord 5] = [reportsRecord 5] := by
          simp only [deleteOne, hobj]
          rfl
        rw [countIsLive_false_of_gap _ (reportsRecord 5) [] hdel rfl (by decide)
          (liveItemCount_le_one _ _ (by simp [reportsWith, deleteMany]))] at hA
        cases hA
  | add now fresh item =>
    rw [hop] at hA
    have hadd : (AddToCollection (reportsWith 5 []) now fresh item).1 =
        { reportsWith 5 [] with
          collItems := [{ item with AddedAt := now, ID := insertedID item.ID fresh }],
          collections := (incItemCount 1 item.CollectionID [reportsRecord 5]) } := by
      simp only [AddToCollection, reportsWith, List.any_nil]
      rfl
    simp only [CollectionOp.apply] at hA
    rw [hadd] at hA
    have hlive : liveItemCount
        { reportsWith 5 [] with
          collItems := [{ item with AddedAt := now, ID := insertedID item.ID fresh }],
          collections := (incItemCount 1 item.CollectionID [reportsRecord 5]) } reportsID ≤ 1 :=
      liveItemCount_le_one _ _ (by simp)
    rcases incItemCount_reportsRecord 1 item.CollectionID 5 with hc | hc
    · rw [countIsLive_false_of_gap _ (reportsRecord 5) [] hc rfl (by decide) hlive] at hA
      cases hA
    · rw [countIsLive_false_of_gap _ (reportsRecord (5 + 1)) [] hc rfl (by decide) hlive] at hA
      cases hA
  | remove collectionID attachmentID =>
    rw [hop] at hA
    simp only [CollectionOp.apply, RemoveFromCollection] at hA
    have hlive : liveItemCount
        { reportsWith 5 [] with
          collItems := (deleteOne (fun x : CollectionItem =>
            x.CollectionID == collectionID && x.AttachmentID == attachmentID)
            (reportsWith 5 []).collItems),
          collections := (incItemCount (-1) collectionID (reportsWith 5 []).collections) }
        reportsID ≤ 1 :=
      liveItemCount_le_one _ _ (by simp [reportsWith, deleteOne])
    rcases incItemCount_reportsRecord (-1) collectionID 5 with hc | hc
    · rw [countIsLive_false_of_gap _ (reportsRecord 5) [] hc rfl (by decide) hlive] at hA
      cases hA
    · rw [countIsLive_false_of_gap _ (reportsRecord (5 + -1)) [] hc rfl (by decide) hlive] at hA
      cases hA

/-! ## Collections: the count along guarded calls -/

theorem filter_deleteOne_length {α : Type} (p q : α → Bool) (hpq : ∀ x, p x = true → q x = true)
    (xs : List α) (hex : xs.any p = true) :
    ((deleteOne p xs).filter q).length + 1 = (xs.filter q).length := by
  induction xs with
  | nil => simp at hex
  | cons x xs ih =>
    by_cases hp : p x = true
    · have h1 : deleteOne p (x :: xs) = xs := by simp only [deleteOne, hp, if_true]
      rw [h1, List.filter_cons_of_pos (hpq x hp), List.length_cons]
    · have hp' : p x = false := by simpa using hp
      have h1 : deleteOne p (x :: xs) = x :: deleteOne p xs := by
        simp only [deleteOne, hp']
        rfl
      have hex' : xs.any p = true := by
        simpa [List.any_cons, hp'] using hex
      rw [h1]
      by_cases hq : q x = true
      · rw [List.filter_cons_of_pos hq, List.filter_cons_of_pos hq, List.length_cons,
          List.length_cons, ih hex']
      · rw [List.filter_cons_of_neg hq, List.filter_cons_of_neg hq, ih hex']

theorem GetCollection_incItemCount (s s1 : Store) (C : String) (c : AttachmentCollection)
    (delta : Int) (h : GetCollection s C = Except.ok c)
    (hs1 : s1.collections = incItemCount delta C s.collections) :
    GetCollection s1 C = Except.ok { c with ItemCount := c.ItemCount + delta } := by
  obtain ⟨objID, hid, hfind⟩ := GetCollection_eq_ok s C c h
  simp only [GetCollection, hid, findOne, hs1, incItemCount, Option.getD_some]
  rw [find?_updateOne (fun x : AttachmentCollection => x.ID == objID)
    (fun x => { x with ItemCount := x.ItemCount + delta }) (fun _ => rfl), hfind]
  rfl

theorem ItemCall_apply_keeps_count (C : String) (s : Store) (call : ItemCall)
    (c : AttachmentCollection) (hget : GetCollection s C = Except.ok c)
    (hinv : c.ItemCount = liveItemCount s C)
    (hok : removalsPresent C s [call] = true) :
    ∃ c', GetCollection (ItemCall.apply C s call) C = Except.ok c' ∧
      c'.ItemCount = liveItemCount (ItemCall.apply C s call) C := by
  cases call with
  | add now fresh item =>
    simp only [ItemCall.apply, AddToCollection]
    split
    · exact ⟨c, hget, hinv⟩
    · refine ⟨_, GetCollection_incItemCount s _ C c 1 hget rfl, ?_⟩
      simp only [liveItemCount, List.filter_append]
      rw [List.filter_cons_of_pos (by simp)]
      simp only [liveItemCount] at hinv
      simp [hinv]
  | remove attachmentID =>
    have hpres : s.collItems.any
        (fun x => x.CollectionID == C && x.AttachmentID == attachmentID) = true := by
      simpa [removalsPresent, itemPresent] using hok
    refine ⟨_, GetCollection_incItemCount s _ C c (-1) hget rfl, ?_⟩
    have hlen := filter_deleteOne_length
      (fun x : CollectionItem => x.CollectionID == C && x.AttachmentID == attachmentID)
      (fun x : CollectionItem => x.CollectionID == C)
      (by intro x hx; simp only [Bool.and_eq_true] at hx; exact hx.1) s.collItems hpres
    simp only [liveItemCount] at hinv
    simp only [ItemCall.apply, RemoveFromCollection, liveItemCount]
    rw [hinv, ← hlen]
    push_cast
    ring

/-- X1: on a store where collection `C` exists and its `item_count` equals the
number of its items, after any sequence of `AddToCollection` calls (rejected
duplicates included) and `RemoveFromCollection` calls on `C` in which every
removal is of an attachment that is in the collection when the call is made, the
collection still exists and its `item_count` equals the number of its items. -/
theorem count_kept_when_removals_present (C : String) (calls : List ItemCall) (s : Store)
    (c : AttachmentCollection) (hget : GetCollection s C = Except.ok c)
    (hinv : c.ItemCount = liveItemCount s C)
    (hok : removalsPresent C s calls = true) :
    ∃ c', GetCollection (runItemCalls C s calls) C = Except.ok c' ∧
      c'.ItemCount = liveItemCount (runItemCalls C s calls) C := by
  induction calls generalizing s c with
  | nil => exact ⟨c, hget, hinv⟩
  | cons call rest ih =>
    have hhead : removalsPresent C s [call] = true := by
      cases call with
      | add now fresh item => simp [removalsPresent]
      | remove attachmentID =>
        simp only [removalsPresent, Bool.and_eq_true] at hok
        simp [removalsPresent, hok.1]
    have htail : removalsPresent C (ItemCall.apply C s call) rest = true := by
      cases call with
      | add now fresh item => simpa [removalsPresent] using hok
      | remove attachmentID =>
        simp only [removalsPresent, Bool.and_eq_true] at hok
        exact hok.2
    obtain ⟨c1, hget1, hinv1⟩ := ItemCall_apply_keeps_count C s call c hget hinv hhead
    exact ih (ItemCall.apply C s call) c1 hget1 hinv1 htail

/-- X1, witness: on "Reports", adding X, adding X again, adding Y and removing X
leaves `item_count = 1` with one item. -/
theorem count_kept_when_removals_present_witness :
    ∃ c', GetCollection (runItemCalls reportsID reportsStore sampleItemCalls) reportsID =
        Except.ok c' ∧
      c'.ItemCount = liveItemCount (runItemCalls reportsID reportsStore sampleItemCalls)
        reportsID :=
  count_kept_when_removals_present reportsID sampleItemCalls reportsStore (reportsRecord 0)
    (by decide) (by decide) (by decide)

/-! ## Paging parameters: the claims -/

theorem parseUintLoop_error (cs : List Char) : ∀ (n : Nat) (e : NumError),
    (parseUintLoop n cs).2 = some e →
    (e = NumError.ErrSyntax ∧ (parseUintLoop n cs).1 = 0) ∨
      (e = NumError.ErrRange ∧ (parseUintLoop n cs).1 = maxUint64) := by
  induction cs with
  | nil =>
    intro n e h
    simp [parseUintLoop] at h
  | cons c cs ih =>
    intro n e h
    unfold parseUintLoop at h ⊢
    cases hd : decimalDigit c with
    | none =>
      rw [hd] at h
      simp only [Option.some.injEq] at h
      exact Or.inl ⟨h.symm, rfl⟩
    | some d =>
      rw [hd] at h
      simp only at h ⊢
      by_cases h1 : n ≥ maxUint64 / 10 + 1
      · rw [if_pos h1] at h ⊢
        simp only [Option.some.injEq] at h
        exact Or.inr ⟨h.symm, rfl⟩
      · rw [if_neg h1] at h ⊢
        by_cases h2 : (n * 10 % 2 ^ 64 + d) % 2 ^ 64 < n * 10 % 2 ^ 64 ∨
            (n * 10 % 2 ^ 64 + d) % 2 ^ 64 > maxUint64
        · rw [if_pos h2] at h ⊢
          simp only [Option.some.injEq] at h
          exact Or.inr ⟨h.symm, rfl⟩
        · rw [if_neg h2] at h ⊢
          exact ih _ e h

theorem ParseUint_error (s : List Char) (e : NumError) (h : (ParseUint s).2 = some e) :
    (e = NumError.ErrSyntax ∧ (ParseUint s).1 = 0) ∨
      (e = NumError.ErrRange ∧ (ParseUint s).1 = maxUint64) := by
  cases s with
  | nil =>
    simp only [ParseUint, Option.some.injEq] at h
    exact Or.inl ⟨h.symm, rfl⟩
  | cons c cs => exact parseUintLoop_error (c :: cs) 0 e h

theorem ParseInt_error (s : List Char) (e : NumError) (h : (ParseInt s).2 = some e) :
    (e = NumError.ErrSyntax ∧ (ParseInt s).1 = 0) ∨
      (e = NumError.ErrRange ∧ ((ParseInt s).1 = MaxInt ∨ (ParseInt s).1 = MinInt)) := by
  cases s with
  | nil =>
    simp only [ParseInt, Option.some.injEq] at h
    exact Or.inl ⟨h.symm, rfl⟩
  | cons c cs =>
    unfold ParseInt at h ⊢
    simp only at h ⊢
    generalize (if (c == '+' || c == '-') = true then cs else c :: cs) = rest at h ⊢
    rcases hp : ParseUint rest with ⟨un, err⟩
    rw [hp] at h
    cases err with
    | some e' =>
      cases e' with
      | ErrSyntax =>
        simp only [Option.some.injEq] at h
        exact Or.inl ⟨h.symm, rfl⟩
      | ErrRange =>
        simp only at h ⊢
        by_cases h1 : (c == '-') = false ∧ un ≥ 2 ^ 63
        · rw [if_pos h1] at h ⊢
          simp only [Option.some.injEq] at h
          exact Or.inr ⟨h.symm, Or.inl rfl⟩
        · rw [if_neg h1] at h ⊢
          by_cases h2 : (c == '-') = true ∧ un > 2 ^ 63
          · rw [if_pos h2] at h ⊢
            simp only [Option.some.injEq] at h
            exact Or.inr ⟨h.symm, Or.inr rfl⟩
          · rw [if_neg h2] at h
            cases h
    | none =>
      simp only at h ⊢
      by_cases h1 : (c == '-') = false ∧ un ≥ 2 ^ 63
      · rw [if_pos h1] at h ⊢
        simp only [Option.some.injEq] at h
        exact Or.inr ⟨h.symm, Or.inl rfl⟩
      · rw [if_neg h1] at h ⊢
        by_cases h2 : (c == '-') = true ∧ un > 2 ^ 63
        · rw [if_pos h2] at h ⊢
          simp only [Option.some.injEq] at h
          exact Or.inr ⟨h.symm, Or.inr rfl⟩
        · rw [if_neg h2] at h
          cases h

theorem Atoi_error_value (s : String) (e : NumError) (h : (Atoi s).2 = some e) :
    (e = NumError.ErrSyntax ∧ (Atoi s).1 = 0) ∨
      (e = NumError.ErrRange ∧ ((Atoi s).1 = MaxInt ∨ (Atoi s).1 = MinInt)) := by
  unfold Atoi at h ⊢
  cases hs : s.data with
  | nil =>
    rw [hs] at h
    exact ParseInt_error [] e h
  | cons c cs =>
    rw [hs] at h
    simp only at h ⊢
    by_cases hlen : s.utf8ByteSize < 19
    · rw [if_pos hlen] at h ⊢
      cases hd : (if (c == '-' || c == '+') = true then cs else c :: cs) with
      | nil =>
        rw [hd] at h
        simp only [Option.some.injEq] at h
        exact Or.inl ⟨h.symm, rfl⟩
      | cons d ds =>
        rw [hd] at h
        simp only at h ⊢
        cases hp : parseDecimal 0 (d :: ds) with
        | none =>
          rw [hp] at h
          simp only [Option.some.injEq] at h
          exact Or.inl ⟨h.symm, rfl⟩
        | some un =>
          rw [hp] at h
          cases h
    · rw [if_neg hlen] at h ⊢
      exact ParseInt_error (c :: cs) e h

theorem DefaultQuery_of_some (q : Query) (key d v : String) (h : GetQuery q key = some v) :
    DefaultQuery q key d = v := by
  simp only [DefaultQuery, h, Option.getD_some]

theorem DefaultQuery_of_none (q : Query) (key d : String) (h : GetQuery q key = none) :
    DefaultQuery q key d = d := by
  simp only [DefaultQuery, h, Option.getD_none]

/-- C18: `getLimit` always returns a page size in 1..200; it returns `n` when the
`limit` parameter parses to `n` with `1 ≤ n ≤ 200`, and the default 50 when the
parameter is absent, when `Atoi` reports an error for it, and when it parses to
zero or a negative number. -/
theorem getLimit_in_range (q : Query) :
    (1 ≤ getLimit q ∧ getLimit q ≤ 200) ∧
      (∀ v n, GetQuery q "limit" = some v → Atoi v = (n, none) → 1 ≤ n → n ≤ 200 →
        getLimit q = n) ∧
      (GetQuery q "limit" = none → getLimit q = 50) ∧
      (∀ v e, GetQuery q "limit" = some v → (Atoi v).2 = some e → getLimit q = 50) ∧
      (∀ v, GetQuery q "limit" = some v → (Atoi v).1 ≤ 0 → getLimit q = 50) := by
  refine ⟨?_, ?_, ?_, ?_, ?_⟩
  · unfold getLimit
    simp only
    split
    · decide
    · rename_i h
      push_neg at h
      omega
  · intro v n hv hn h1 h2
    unfold getLimit
    rw [DefaultQuery_of_some q "limit" "50" v hv, hn]
    simp only
    rw [if_neg (by omega)]
  · intro hnone
    unfold getLimit
    rw [DefaultQuery_of_none q "limit" "50" hnone]
    decide
  · intro v e hv he
    unfold getLimit
    rw [DefaultQuery_of_some q "limit" "50" v hv]
    simp only
    rcases Atoi_error_value v e he with ⟨_, h0⟩ | ⟨_, hmax | hmin⟩
    · rw [h0]; decide
    · rw [hmax]; decide
    · rw [hmin]; decide
  · intro v hv hle
    unfold getLimit
    rw [DefaultQuery_of_some q "limit" "50" v hv]
    simp only
    rw [if_pos (Or.inl hle)]

/-- C18, witness: `limit=25` gives 25, `limit=abc`, `limit=0` and `limit=-4`
give 50. -/
theorem getLimit_in_range_witness :
    getLimit [("offset", "3"), ("limit", "25")] = 25 ∧ getLimit [("limit", "abc")] = 50 ∧
      getLimit [("limit", "0")] = 50 ∧ getLimit [("limit", "-4")] = 50 :=
  ⟨(getLimit_in_range [("offset", "3"), ("limit", "25")]).2.1 "25" 25 (by decide) (by decide)
      (by decide) (by decide),
    (getLimit_in_range [("limit", "abc")]).2.2.2.1 "abc" NumError.ErrSyntax (by decide)
      (by decide),
    (getLimit_in_range [("limit", "0")]).2.2.2.2 "0" (by decide) (by decide),
    (getLimit_in_range [("limit", "-4")]).2.2.2.2 "-4" (by decide) (by decide)⟩

/-- C19, counterexample: `limit=201` parses to 201 > 200 and `getLimit` returns 50,
not 200. -/
theorem getLimit_201_is_default :
    Atoi "201" = (201, none) ∧ getLimit [("limit", "201")] = 50 ∧
      getLimit [("limit", "201")] ≠ 200 := by
  decide

/-- C19, as amended: a requested page size above the maximum is replaced by the
default: for every `limit` parameter that parses to an integer greater than 200,
`getLimit` returns 50. -/
theorem getLimit_above_max_is_default (q : Query) (v : String)
    (hv : GetQuery q "limit" = some v) (hbig : (Atoi v).1 > 200) : getLimit q = 50 := by
  unfold getLimit
  rw [DefaultQuery_of_some q "limit" "50" v hv]
  simp only
  rw [if_pos (Or.inr hbig)]

/-- C19, witness: `limit=5000`. -/
theorem getLimit_above_max_is_default_witness : getLimit [("limit", "5000")] = 50 :=
  getLimit_above_max_is_default [("limit", "5000")] "5000" (by decide) (by decide)

/-- C20, counterexample: `offset=99999999999999999999` is a request whose offset
parameter `Atoi` cannot parse (range error), and `getOffset` returns
9223372036854775807, neither 0 nor the number written; so does
`offset=99999999999999999999x`, where the digits overflow before the `x` is read. -/
theorem getOffset_out_of_range :
    Atoi "99999999999999999999" = (MaxInt, some NumError.ErrRange) ∧
      getOffset [("offset", "99999999999999999999")] = 9223372036854775807 ∧
      Atoi "99999999999999999999x" = (MaxInt, some NumError.ErrRange) ∧
      getOffset [("offset", "99999999999999999999x")] = 9223372036854775807 := by
  decide

/-- C20, as amended: `getOffset` always returns a non-negative offset: `n` when the
`offset` parameter parses to `n ≥ 0`, and 0 when it parses to a negative number,
is absent, or `Atoi` reports a syntax error for it; when `Atoi` reports a range
error (dropped by the code) it returns the value `Atoi` leaves: `MaxInt`, or 0
for `MinInt`. -/
theorem getOffset_nonneg (q : Query) :
    0 ≤ getOffset q ∧
      (∀ v n, GetQuery q "offset" = some v → Atoi v = (n, none) → 0 ≤ n → getOffset q = n) ∧
      (∀ v, GetQuery q "offset" = some v → (Atoi v).1 < 0 → getOffset q = 0) ∧
      (GetQuery q "offset" = none → getOffset q = 0) ∧
      (∀ v, GetQuery q "offset" = some v → (Atoi v).2 = some NumError.ErrSyntax →
        getOffset q = 0) ∧
      (∀ v, GetQuery q "offset" = some v → (Atoi v).2 = some NumError.ErrRange →
        ((Atoi v).1 = MaxInt ∧ getOffset q = MaxInt) ∨
          ((Atoi v).1 = MinInt ∧ getOffset q = 0)) := by
  refine ⟨?_, ?_, ?_, ?_, ?_, ?_⟩
  · unfold getOffset
    simp only
    split
    · exact le_refl 0
    · rename_i h
      omega
  · intro v n hv hn h0
    unfold getOffset
    rw [DefaultQuery_of_some q "offset" "0" v hv, hn]
    simp only
    rw [if_neg (by omega)]
  · intro v hv hneg
    unfold getOffset
    rw [DefaultQuery_of_some q "offset" "0" v hv]
    simp only
    rw [if_pos hneg]
  · intro hnone
    unfold getOffset
    rw [DefaultQuery_of_none q "offset" "0" hnone]
    decide
  · intro v hv he
    unfold getOffset
    rw [DefaultQuery_of_some q "offset" "0" v hv]
    simp only
    rcases Atoi_error_value v _ he with ⟨_, h0⟩ | ⟨hne, _⟩
    · rw [h0]; decide
    · cases hne
  · intro v hv he
    unfold getOffset
    rw [DefaultQuery_of_some q "offset" "0" v hv]
    simp only
    rcases Atoi_error_value v _ he with ⟨hne, _⟩ | ⟨_, hmax | hmin⟩
    · cases hne
    · left; rw [hmax]; exact ⟨rfl, by decide⟩
    · right; rw [hmin]; exact ⟨rfl, by decide⟩

/-- C20, witness: `offset=40` gives 40, `offset=-3`, `offset=x1` and no parameter
give 0, `offset=99999999999999999999` gives `MaxInt` and
`offset=-99999999999999999999` gives 0. -/
theorem getOffset_nonneg_witness :
    getOffset [("offset", "40")] = 40 ∧ getOffset [("offset", "-3")] = 0 ∧
      getOffset [("offset", "x1")] = 0 ∧ getOffset [("limit", "7")] = 0 ∧
      getOffset [("offset", "99999999999999999999")] = MaxInt ∧
      getOffset [("offset", "-99999999999999999999")] = 0 :=
  ⟨(getOffset_nonneg [("offset", "40")]).2.1 "40" 40 (by decide) (by decide) (by decide),
    (getOffset_nonneg [("offset", "-3")]).2.2.1 "-3" (by decide) (by decide),
    (getOffset_nonneg [("offset", "x1")]).2.2.2.2.1 "x1" (by decide) (by decide),
    (getOffset_nonneg [("limit", "7")]).2.2.2.1 (by decide),
    by decide, by decide⟩

/-! ## Tags and favorites: the claims -/

theorem length_filter_pos_of_any {α : Type} (k : α → Bool) (xs : List α)
    (h : xs.any k = true) : 1 ≤ (xs.filter k).length := by
  rw [List.any_eq_true] at h
  obtain ⟨x, hx, hk⟩ := h
  have hmem : x ∈ xs.filter k := List.mem_filter.mpr ⟨hx, hk⟩
  exact List.length_pos_of_mem hmem

theorem AddTag_of_present (s : Store) (now : Time) (fresh : ObjectID) (t : AttachmentTag)
    (h : s.tags.any (fun x => x.AttachmentID == t.AttachmentID && x.Tag == t.Tag) = true) :
    AddTag s now fresh t = (s, some StoreError.ErrDuplicateKey) := by
  have hany : s.tags.any (fun x => x.ID == insertedID t.ID fresh ||
      (x.AttachmentID == t.AttachmentID && x.Tag == t.Tag)) = true := by
    rw [List.any_eq_true] at h ⊢
    obtain ⟨x, hx, hk⟩ := h
    exact ⟨x, hx, by simp only [hk, Bool.or_true]⟩
  simp only [AddTag, hany, if_true]

theorem AddTag_of_absent (s : Store) (now : Time) (fresh : ObjectID) (t : AttachmentTag)
    (h : s.tags.any (fun x => x.AttachmentID == t.AttachmentID && x.Tag == t.Tag) = false)
    (hfresh : ∀ x ∈ s.tags, x.ID ≠ insertedID t.ID fresh) :
    AddTag s now fresh t =
      ({ s with tags := s.tags ++ [{ t with CreatedAt := now, ID := insertedID t.ID fresh }] },
        none) := by
  have hany : s.tags.any (fun x => x.ID == insertedID t.ID fresh ||
      (x.AttachmentID == t.AttachmentID && x.Tag == t.Tag)) = false := by
    rw [List.any_eq_false] at h ⊢
    intro x hx
    have h1 := hfresh x hx
    have h2 := h x hx
    simp only [Bool.or_eq_true, beq_iff_eq, not_or]
    exact ⟨h1, h2⟩
  simp only [AddTag, hany]
  rfl

theorem AddFavorite_of_present (s : Store) (now : Time) (fresh : ObjectID)
    (f : AttachmentFavorite)
    (h : s.favorites.any
      (fun x => x.AttachmentID == f.AttachmentID && x.UserID == f.UserID) = true) :
    AddFavorite s now fresh f = (s, some StoreError.ErrDuplicateKey) := by
  have hany : s.favorites.any (fun x => x.ID == insertedID f.ID fresh ||
      (x.AttachmentID == f.AttachmentID && x.UserID == f.UserID)) = true := by
    rw [List.any_eq_true] at h ⊢
    obtain ⟨x, hx, hk⟩ := h
    exact ⟨x, hx, by simp only [hk, Bool.or_true]⟩
  simp only [AddFavorite, hany, if_true]

theorem AddFavorite_of_absent (s : Store) (now : Time) (fresh : ObjectID)
    (f : AttachmentFavorite)
    (h : s.favorites.any
      (fun x => x.AttachmentID == f.AttachmentID && x.UserID == f.UserID) = false)
    (hfresh : ∀ x ∈ s.favorites, x.ID ≠ insertedID f.ID fresh) :
    AddFavorite s now fresh f =
      ({ s with favorites := s.favorites ++
          [{ f with CreatedAt := now, ID := insertedID f.ID fresh }] }, none) := by
  have hany : s.favorites.any (fun x => x.ID == insertedID f.ID fresh ||
      (x.AttachmentID == f.AttachmentID && x.UserID == f.UserID)) = false := by
    rw [List.any_eq_false] at h ⊢
    intro x hx
    have h1 := hfresh x hx
    have h2 := h x hx
    simp only [Bool.or_eq_true, beq_iff_eq, not_or]
    exact ⟨h1, h2⟩
  simp only [AddFavorite, hany]
  rfl

/-- After one `AddTag` with an unused id on a store with at most one tag for the
pair, the pair is stored exactly once. -/
theorem AddTag_count (s : Store) (now : Time) (fresh : ObjectID) (t : AttachmentTag)
    (huniq : tagCount s t.AttachmentID t.Tag ≤ 1)
    (hfresh : ∀ x ∈ s.tags, x.ID ≠ insertedID t.ID fresh) :
    tagCount (AddTag s now fresh t).1 t.AttachmentID t.Tag = 1 := by
  cases h : s.tags.any (fun x => x.AttachmentID == t.AttachmentID && x.Tag == t.Tag) with
  | true =>
    rw [AddTag_of_present s now fresh t h]
    have hpos := length_filter_pos_of_any _ _ h
    unfold tagCount at huniq
    show (s.tags.filter
      (fun x : AttachmentTag => x.AttachmentID == t.AttachmentID && x.Tag == t.Tag)).length = 1
    omega
  | false =>
    rw [AddTag_of_absent s now fresh t h hfresh]
    have hnil : s.tags.filter
        (fun x => x.AttachmentID == t.AttachmentID && x.Tag == t.Tag) = [] := by
      rw [List.filter_eq_nil_iff]
      rw [List.any_eq_false] at h
      exact h
    show ((s.tags ++ [{ t with CreatedAt := now, ID := insertedID t.ID fresh }]).filter
      (fun x : AttachmentTag => x.AttachmentID == t.AttachmentID && x.Tag == t.Tag)).length = 1
    rw [List.filter_append, hnil, List.nil_append, List.filter_cons_of_pos (by simp)]
    rfl

/-- After one `AddFavorite` with an unused id on a store with at most one favorite
for the pair, the pair is stored exactly once. -/
theorem AddFavorite_count (s : Store) (now : Time) (fresh : ObjectID)
    (f : AttachmentFavorite)
    (huniq : favoriteCount s f.AttachmentID f.UserID ≤ 1)
    (hfresh : ∀ x ∈ s.favorites, x.ID ≠ insertedID f.ID fresh) :
    favoriteCount (AddFavorite s now fresh f).1 f.AttachmentID f.UserID = 1 := by
  cases h : s.favorites.any
      (fun x => x.AttachmentID == f.AttachmentID && x.UserID == f.UserID) with
  | true =>
    rw [AddFavorite_of_present s now fresh f h]
    have hpos := length_filter_pos_of_any _ _ h
    unfold favoriteCount at huniq
    show (s.favorites.filter (fun x : AttachmentFavorite =>
      x.AttachmentID == f.AttachmentID && x.UserID == f.UserID)).length = 1
    omega
  | false =>
    rw [AddFavorite_of_absent s now fresh f h hfresh]
    have hnil : s.favorites.filter
        (fun x => x.AttachmentID == f.AttachmentID && x.UserID == f.UserID) = [] := by
      rw [List.filter_eq_nil_iff]
      rw [List.any_eq_false] at h
      exact h
    show ((s.favorites ++ [{ f with CreatedAt := now, ID := insertedID f.ID fresh }]).filter
      (fun x : AttachmentFavorite =>
        x.AttachmentID == f.AttachmentID && x.UserID == f.UserID)).length = 1
    rw [List.filter_append, hnil, List.nil_append, List.filter_cons_of_pos (by simp)]
    rfl

theorem any_of_count_pos {α : Type} (k : α → Bool) (xs : List α)
    (h : 1 ≤ (xs.filter k).length) : xs.any k = true := by
  cases hf : xs.filter k with
  | nil => rw [hf] at h; simp at h
  | cons y ys => exact any_eq_true_of_filter_cons k xs y ys hf

/-- C15: on a store with at most one tag for `(A, x)` (the unique index),
`AddTag(A, x)` with an unused id followed by `AddTag(A, x)` leaves exactly one
tag for `(A, x)`: the second call returns the duplicate-key error and leaves the
store as the first call left it.  The same holds for `AddFavorite` and an
(attachment, user) pair. -/
theorem add_twice_keeps_one (s : Store) (now1 now2 : Time) (fresh1 fresh2 : ObjectID)
    (t1 t2 : AttachmentTag) (f1 f2 : AttachmentFavorite) :
    (t2.AttachmentID = t1.AttachmentID → t2.Tag = t1.Tag →
        tagCount s t1.AttachmentID t1.Tag ≤ 1 →
        (∀ x ∈ s.tags, x.ID ≠ insertedID t1.ID fresh1) →
        AddTag (AddTag s now1 fresh1 t1).1 now2 fresh2 t2 =
            ((AddTag s now1 fresh1 t1).1, some StoreError.ErrDuplicateKey) ∧
          tagCount (AddTag (AddTag s now1 fresh1 t1).1 now2 fresh2 t2).1
            t1.AttachmentID t1.Tag = 1) ∧
      (f2.AttachmentID = f1.AttachmentID → f2.UserID = f1.UserID →
        favoriteCount s f1.AttachmentID f1.UserID ≤ 1 →
        (∀ x ∈ s.favorites, x.ID ≠ insertedID f1.ID fresh1) →
        AddFavorite (AddFavorite s now1 fresh1 f1).1 now2 fresh2 f2 =
            ((AddFavorite s now1 fresh1 f1).1, some StoreError.ErrDuplicateKey) ∧
          favoriteCount (AddFavorite (AddFavorite s now1 fresh1 f1).1 now2 fresh2 f2).1
            f1.AttachmentID f1.UserID = 1) := by
  constructor
  · intro hA hT huniq hfresh
    have hcount := AddTag_count s now1 fresh1 t1 huniq hfresh
    have hany : (AddTag s now1 fresh1 t1).1.tags.any
        (fun x => x.AttachmentID == t2.AttachmentID && x.Tag == t2.Tag) = true := by
      rw [hA, hT]
      apply any_of_count_pos
      unfold tagCount at hcount
      omega
    have hsecond := AddTag_of_present (AddTag s now1 fresh1 t1).1 now2 fresh2 t2 hany
    rw [hsecond]
    exact ⟨rfl, hcount⟩
  · intro hA hU huniq hfresh
    have hcount := AddFavorite_count s now1 fresh1 f1 huniq hfresh
    have hany : (AddFavorite s now1 fresh1 f1).1.favorites.any
        (fun x => x.AttachmentID == f2.AttachmentID && x.UserID == f2.UserID) = true := by
      rw [hA, hU]
      apply any_of_count_pos
      unfold favoriteCount at hcount
      omega
    have hsecond := AddFavorite_of_present (AddFavorite s now1 fresh1 f1).1 now2 fresh2 f2 hany
    rw [hsecond]
    exact ⟨rfl, hcount⟩

/-- C15, witness: tagging `att-1` with "urgent" twice on the empty store, and
favoriting `att-1` by `user-1` twice, leaves one record each; the second call
fails with the duplicate-key error. -/
theorem add_twice_keeps_one_witness :
    (AddTag (AddTag {} 500 0x64b7f3a2c1d4e5f6a7b8c9f0
          { urgentTag with ID := NilObjectID }).1 501 0x64b7f3a2c1d4e5f6a7b8c9f3
          { urgentTag with ID := NilObjectID, AddedBy := "user-2" } =
        (taggedStore, some StoreError.ErrDuplicateKey)) ∧
      favoriteCount (AddFavorite (AddFavorite {} 500 0x64b7f3a2c1d4e5f6a7b8c9f0
          { ID := NilObjectID, AttachmentID := "att-1", UserID := "user-1",
            CreatedAt := 0 }).1 501 0x64b7f3a2c1d4e5f6a7b8c9f3
          { ID := NilObjectID, AttachmentID := "att-1", UserID := "user-1",
            CreatedAt := 0 }).1 "att-1" "user-1" = 1 :=
  ⟨((add_twice_keeps_one {} 500 501 0x64b7f3a2c1d4e5f6a7b8c9f0 0x64b7f3a2c1d4e5f6a7b8c9f3
      { urgentTag with ID := NilObjectID }
      { urgentTag with ID := NilObjectID, AddedBy := "user-2" }
      { ID := NilObjectID, AttachmentID := "att-1", UserID := "user-1", CreatedAt := 0 }
      { ID := NilObjectID, AttachmentID := "att-1", UserID := "user-1",
        CreatedAt := 0 }).1 rfl rfl (by decide) (by decide)).1,
   ((add_twice_keeps_one {} 500 501 0x64b7f3a2c1d4e5f6a7b8c9f0 0x64b7f3a2c1d4e5f6a7b8c9f3
      { urgentTag with ID := NilObjectID }
      { urgentTag with ID := NilObjectID, AddedBy := "user-2" }
      { ID := NilObjectID, AttachmentID := "att-1", UserID := "user-1", CreatedAt := 0 }
      { ID := NilObjectID, AttachmentID := "att-1", UserID := "user-1",
        CreatedAt := 0 }).2 rfl rfl (by decide) (by decide)).2⟩

theorem deleteOne_of_none {α : Type} (p : α → Bool) (xs : List α) (h : xs.any p = false) :
    deleteOne p xs = xs := by
  induction xs with
  | nil => rfl
  | cons x xs ih =>
    simp only [List.any_cons, Bool.or_eq_false_iff] at h
    simp only [deleteOne, h.1]
    rw [ih h.2]
    rfl

theorem deleteOne_of_some {α : Type} (p : α → Bool) (xs : List α) (h : xs.any p = true) :
    ∃ pre t post, xs = pre ++ t :: post ∧ p t = true ∧ (∀ x ∈ pre, p x = false) ∧
      deleteOne p xs = pre ++ post := by
  induction xs with
  | nil => simp at h
  | cons x xs ih =>
    by_cases hp : p x = true
    · refine ⟨[], x, xs, rfl, hp, ?_, ?_⟩
      · intro y hy; cases hy
      · simp only [deleteOne, hp, if_true, List.nil_append]
    · have hp' : p x = false := by simpa using hp
      have hrest : xs.any p = true := by simpa [List.any_cons, hp'] using h
      obtain ⟨pre, t, post, hxs, hpt, hpre, hdel⟩ := ih hrest
      refine ⟨x :: pre, t, post, ?_, hpt, ?_, ?_⟩
      · rw [hxs]; rfl
      · intro y hy
        rcases List.mem_cons.mp hy with rfl | hy
        · exact hp'
        · exact hpre y hy
      · have hstep : deleteOne p (x :: xs) = x :: deleteOne p xs := by
          simp only [deleteOne, hp']
          rfl
        rw [hstep, hdel]
        rfl

/-- C16: `RemoveTag(A, x)` and `RemoveFavorite(A, U)` return no error whether or not
a matching record exists.  When none exists the store is unchanged; when one
exists the first matching record is removed and every other record of the store,
in the same collection and in all others, is unchanged. -/
theorem remove_tag_and_favorite (s : Store) (A x U : String) :
    ((RemoveTag s A x).2 = none ∧
        (s.tags.any (fun t => t.AttachmentID == A && t.Tag == x) = false →
          RemoveTag s A x = (s, none)) ∧
        (s.tags.any (fun t => t.AttachmentID == A && t.Tag == x) = true →
          ∃ pre t post, s.tags = pre ++ t :: post ∧ t.AttachmentID = A ∧ t.Tag = x ∧
            (∀ y ∈ pre, ¬ (y.AttachmentID = A ∧ y.Tag = x)) ∧
            RemoveTag s A x = ({ s with tags := pre ++ post }, none))) ∧
      ((RemoveFavorite s A U).2 = none ∧
        (s.favorites.any (fun f => f.AttachmentID == A && f.UserID == U) = false →
          RemoveFavorite s A U = (s, none)) ∧
        (s.favorites.any (fun f => f.AttachmentID == A && f.UserID == U) = true →
          ∃ pre f post, s.favorites = pre ++ f :: post ∧ f.AttachmentID = A ∧ f.UserID = U ∧
            (∀ y ∈ pre, ¬ (y.AttachmentID = A ∧ y.UserID = U)) ∧
            RemoveFavorite s A U = ({ s with favorites := pre ++ post }, none))) := by
  refine ⟨⟨rfl, ?_, ?_⟩, ⟨rfl, ?_, ?_⟩⟩
  · intro hnone
    simp only [RemoveTag]
    rw [deleteOne_of_none _ _ hnone]
  · intro hsome
    obtain ⟨pre, t, post, hxs, hpt, hpre, hdel⟩ := deleteOne_of_some _ _ hsome
    simp only [Bool.and_eq_true, beq_iff_eq] at hpt
    refine ⟨pre, t, post, hxs, hpt.1, hpt.2, ?_, ?_⟩
    · intro y hy hboth
      have := hpre y hy
      simp [hboth.1, hboth.2] at this
    · simp only [RemoveTag]
      rw [hdel]
  · intro hnone
    simp only [RemoveFavorite]
    rw [deleteOne_of_none _ _ hnone]
  · intro hsome
    obtain ⟨pre, f, post, hxs, hpf, hpre, hdel⟩ := deleteOne_of_some _ _ hsome
    simp only [Bool.and_eq_true, beq_iff_eq] at hpf
    refine ⟨pre, f, post, hxs, hpf.1, hpf.2, ?_, ?_⟩
    · intro y hy hboth
      have := hpre y hy
      simp [hboth.1, hboth.2] at this
    · simp only [RemoveFavorite]
      rw [hdel]

/-- C16, witness: removing an absent tag leaves `taggedStore` as it is, removing the
stored one empties it; removing the favorite of `user-2` keeps that of `user-1`. -/
theorem remove_tag_and_favorite_witness :
    RemoveTag taggedStore "att-1" "later" = (taggedStore, none) ∧
      RemoveTag taggedStore "att-1" "urgent" = ({}, none) ∧
      (RemoveFavorite favoritedStore "att-1" "user-2").1.favorites =
        [{ ID := 0x64b7f3a2c1d4e5f6a7b8c9f1, AttachmentID := "att-1", UserID := "user-1",
           CreatedAt := 600 }] :=
  ⟨(remove_tag_and_favorite taggedStore "att-1" "later" "user-1").1.2.1 (by decide),
    by decide, by decide⟩

/-- C17, counterexample: `BulkTag` for `att-1` and "urgent" on a store that already
holds that pair answers 200 with `tagged = 1` and leaves the store unchanged: the
duplicate-key error of `AddTag` is not reported. -/
theorem BulkTag_swallows_conflict :
    taggedStore.tags = [urgentTag] ∧
      (AddTag taggedStore 700 0x64b7f3a2c1d4e5f6a7b8c9f5
        { ID := NilObjectID, AttachmentID := "att-1", Tag := "urgent", AddedBy := "user-2",
          CreatedAt := 0 }).2 = some StoreError.ErrDuplicateKey ∧
      ExtendedHandler.BulkTag taggedStore (fun i => 700 + i)
          (fun i => 0x64b7f3a2c1d4e5f6a7b8c9f5 + i) "user-2"
          { IDs := some ["att-1"], Tag := "urgent" } =
        (taggedStore, { status := 200, data := some 1 }) := by
  decide

theorem bulkTagLoop_of_present (now : Nat → Time) (fresh : Nat → ObjectID)
    (userID tag : String) (ids : List String) (i : Nat) (s : Store)
    (h : ∀ id ∈ ids, s.tags.any (fun x => x.AttachmentID == id && x.Tag == tag) = true) :
    bulkTagLoop now fresh userID tag i ids s = s := by
  induction ids generalizing i with
  | nil => rfl
  | cons id ids ih =>
    have hid := h id (List.mem_cons_self _ _)
    have hadd := AddTag_of_present s (now i) (fresh i)
      { ID := NilObjectID, AttachmentID := id, Tag := tag, AddedBy := userID, CreatedAt := 0 }
      hid
    simp only [bulkTagLoop, hadd]
    exact ih (i + 1) (fun id' hid' => h id' (List.mem_cons_of_mem _ hid'))

/-- C17, as amended: a uniqueness conflict is surfaced by the `AddTag` handler and
swallowed by `BulkTag`.  On a body that binds (a non-empty tag, `ids` present):
for a pair that is already stored the `AddTag` handler answers 500 and leaves the
store unchanged; `BulkTag` drops the error of every `AddTag` it issues and always
answers 200 with `tagged` set to the number of ids, and when every requested pair
is already stored it changes nothing. -/
theorem conflict_surfaced_by_AddTag_only (s : Store) (now : Time) (fresh : ObjectID)
    (nows : Nat → Time) (freshs : Nat → ObjectID) (attachmentID userID tag : String)
    (ids : List String) (htag : tag ≠ "") :
    (s.tags.any (fun x => x.AttachmentID == attachmentID && x.Tag == tag) = true →
        ExtendedHandler.AddTag s now fresh attachmentID userID tag =
          (s, { status := 500, data := none })) ∧
      (ExtendedHandler.BulkTag s nows freshs userID { IDs := some ids, Tag := tag }).2 =
        { status := 200, data := some ids.length } ∧
      ((∀ id ∈ ids, s.tags.any (fun x => x.AttachmentID == id && x.Tag == tag) = true) →
        ExtendedHandler.BulkTag s nows freshs userID { IDs := some ids, Tag := tag } =
          (s, { status := 200, data := some ids.length })) := by
  refine ⟨?_, ?_, ?_⟩
  · intro hpresent
    have hadd := AddTag_of_present s now fresh
      { ID := NilObjectID, AttachmentID := attachmentID, Tag := tag, AddedBy := userID,
        CreatedAt := 0 } hpresent
    simp only [ExtendedHandler.AddTag, if_neg htag, hadd]
  · simp only [ExtendedHandler.BulkTag, if_neg htag]
  · intro hall
    simp only [ExtendedHandler.BulkTag, if_neg htag]
    rw [bulkTagLoop_of_present nows freshs userID tag ids 0 s hall]

/-- C17, witness: on `taggedStore` the `AddTag` handler answers 500 for the stored
pair, and `BulkTag` for the same pair answers 200 and changes nothing. -/
theorem conflict_surfaced_by_AddTag_only_witness :
    ExtendedHandler.AddTag taggedStore 501 0x64b7f3a2c1d4e5f6a7b8c9f3 "att-1" "user-2" "urgent" =
        (taggedStore, { status := 500, data := none }) ∧
      ExtendedHandler.BulkTag taggedStore (fun i => 700 + i)
          (fun i => 0x64b7f3a2c1d4e5f6a7b8c9f5 + i) "user-2"
          { IDs := some ["att-1", "att-1"], Tag := "urgent" } =
        (taggedStore, { status := 200, data := some ["att-1", "att-1"].length }) :=
  ⟨(conflict_surfaced_by_AddTag_only taggedStore 501 0x64b7f3a2c1d4e5f6a7b8c9f3
      (fun i => 700 + i) (fun i => 0x64b7f3a2c1d4e5f6a7b8c9f5 + i) "att-1" "user-2" "urgent"
      ["att-1", "att-1"] (by decide)).1 (by decide),
   (conflict_surfaced_by_AddTag_only taggedStore 501 0x64b7f3a2c1d4e5f6a7b8c9f3
      (fun i => 700 + i) (fun i => 0x64b7f3a2c1d4e5f6a7b8c9f5 + i) "att-1" "user-2" "urgent"
      ["att-1", "att-1"] (by decide)).2.2 (by decide)⟩

/-! ## Sorted queries: basic facts -/

theorem findSorted_perm {α : Type} (key visit : α → Int) (p : α → Bool) (xs : List α) :
    (findSorted key visit p xs).Perm (xs.filter p) :=
  (List.perm_insertionSort _ _).trans (List.perm_insertionSort _ _)

theorem findSorted_sorted {α : Type} (key visit : α → Int) (p : α → Bool) (xs : List α) :
    (findSorted key visit p xs).Pairwise (fun a b => key a ≤ key b) := by
  haveI : IsTotal α (fun a b => key a ≤ key b) := ⟨fun a b => le_total (key a) (key b)⟩
  haveI : IsTrans α (fun a b => key a ≤ key b) := ⟨fun _ _ _ hab hbc => le_trans hab hbc⟩
  exact List.sorted_insertionSort (fun a b => key a ≤ key b) _

theorem findSorted_head_le {α : Type} (key visit : α → Int) (p : α → Bool) (xs : List α)
    (v : α) (rest : List α) (h : findSorted key visit p xs = v :: rest) :
    v ∈ xs.filter p ∧ ∀ x ∈ xs.filter p, key v ≤ key x := by
  have hperm := findSorted_perm key visit p xs
  have hsorted := findSorted_sorted key visit p xs
  rw [h] at hperm hsorted
  constructor
  · exact hperm.mem_iff.mp (List.mem_cons_self _ _)
  · intro x hx
    have hx' : x ∈ v :: rest := hperm.mem_iff.mpr hx
    rcases List.mem_cons.mp hx' with rfl | hrest
    · exact le_refl _
    · exact List.rel_of_pairwise_cons hsorted hrest

theorem findSorted_head_key {α : Type} (key visit1 visit2 : α → Int) (p : α → Bool)
    (xs : List α) (v1 v2 : α) (rest1 rest2 : List α)
    (h1 : findSorted key visit1 p xs = v1 :: rest1)
    (h2 : findSorted key visit2 p xs = v2 :: rest2) : key v1 = key v2 := by
  obtain ⟨m1, l1⟩ := findSorted_head_le key visit1 p xs v1 rest1 h1
  obtain ⟨m2, l2⟩ := findSorted_head_le key visit2 p xs v2 rest2 h2
  exact le_antisymm (l1 v2 m2) (l2 v1 m1)

theorem findSorted_eq_nil_iff {α : Type} (key visit : α → Int) (p : α → Bool) (xs : List α) :
    findSorted key visit p xs = [] ↔ xs.filter p = [] := by
  have hperm := findSorted_perm key visit p xs
  constructor
  · intro h
    rw [h] at hperm
    exact hperm.symm.eq_nil
  · intro h
    rw [h] at hperm
    exact hperm.eq_nil

/-! ## Versions: the claims -/

theorem CreateVersion_of_fresh (s : Store) (now : Time) (fresh : ObjectID)
    (v : AttachmentVersion) (hfresh : ∀ x ∈ s.versions, x.ID ≠ insertedID v.ID fresh) :
    CreateVersion s now fresh v =
      ({ s with versions := s.versions ++
          [{ v with CreatedAt := now, ID := insertedID v.ID fresh }] }, none) := by
  have hany : s.versions.any (fun x => x.ID == insertedID v.ID fresh) = false := by
    rw [List.any_eq_false]
    intro x hx
    simpa using hfresh x hx
  simp only [CreateVersion, hany]
  rfl

/-- C12, counterexample: after two `CreateVersion` calls that both carry version
number 1 for `att-1`, `ListVersions` returns two versions numbered 1, 1: the order
is not strictly decreasing. -/
theorem ListVersions_repeats_number :
    (runVersionOps {} sameNumberOps).versions.length = 2 ∧
      (ListVersions (runVersionOps {} sameNumberOps) naturalOrder "att-1").map
        (fun v => v.VersionNum) = [1, 1] := by
  decide

/-- C12, as amended: for every store and attachment `A`, `ListVersions(A)` returns
exactly the versions of `A` (a rearrangement of them) in non-increasing
version-number order, strictly decreasing when no two stored versions of `A`
carry the same number; and when the list is non-empty its first version number
is what `GetLatestVersionNum(A)` returns, whatever order the store delivers equal
numbers in. -/
theorem ListVersions_sorted_desc (s : Store) (visit visit' : AttachmentVersion → Int)
    (A : String) :
    (ListVersions s visit A).Perm (s.versions.filter (fun v => v.AttachmentID == A)) ∧
      (ListVersions s visit A).Pairwise (fun a b => a.VersionNum ≥ b.VersionNum) ∧
      (((s.versions.filter (fun v => v.AttachmentID == A)).map
          (fun v => v.VersionNum)).Nodup →
        (ListVersions s visit A).Pairwise (fun a b => a.VersionNum > b.VersionNum)) ∧
      (∀ v rest, ListVersions s visit A = v :: rest →
        GetLatestVersionNum s visit' A = (v.VersionNum, none)) := by
  have hperm := findSorted_perm (fun v : AttachmentVersion => -v.VersionNum) visit
    (fun v => v.AttachmentID == A) s.versions
  have hsorted := findSorted_sorted (fun v : AttachmentVersion => -v.VersionNum) visit
    (fun v => v.AttachmentID == A) s.versions
  have hge : (ListVersions s visit A).Pairwise (fun a b => a.VersionNum ≥ b.VersionNum) :=
    hsorted.imp (fun {a b} (h : -a.VersionNum ≤ -b.VersionNum) => by omega)
  refine ⟨hperm, hge, ?_, ?_⟩
  · intro hnodup
    have hnodup' : ((ListVersions s visit A).map (fun v => v.VersionNum)).Nodup :=
      (hperm.map (fun v => v.VersionNum)).nodup_iff.mpr hnodup
    have hne : (ListVersions s visit A).Pairwise
        (fun a b => a.VersionNum ≠ b.VersionNum) := by
      have := List.pairwise_map.mp hnodup'
      exact this
    exact (hge.and hne).imp (fun {a b} h => lt_of_le_of_ne h.1 (Ne.symm h.2))
  · intro v rest hlist
    unfold GetLatestVersionNum
    cases hfs : findSorted (fun v : AttachmentVersion => -v.VersionNum) visit'
        (fun v => v.AttachmentID == A) s.versions with
    | nil =>
      have hnil := (findSorted_eq_nil_iff _ visit' _ _).mp hfs
      have hnil' := (findSorted_eq_nil_iff (fun v : AttachmentVersion => -v.VersionNum)
        visit _ _).mpr hnil
      unfold ListVersions at hlist
      rw [hnil'] at hlist
      cases hlist
    | cons w rest' =>
      have hkey := findSorted_head_key (fun v : AttachmentVersion => -v.VersionNum)
        visit visit' _ _ v w rest rest' hlist hfs
      simp only [List.head?_cons]
      have : v.VersionNum = w.VersionNum := by
        simp only [neg_inj] at hkey
        exact hkey
      rw [this]

/-- C12, witness: after creating versions 1, 2, 3 of `att-1` and deleting number 2,
`ListVersions` gives the numbers 3, 1 and `GetLatestVersionNum` gives 3. -/
theorem ListVersions_sorted_desc_witness :
    (ListVersions (runVersionOps {} threeVersionsOps) naturalOrder "att-1").Pairwise
        (fun a b => a.VersionNum > b.VersionNum) ∧
      (ListVersions (runVersionOps {} threeVersionsOps) naturalOrder "att-1").map
        (fun v => v.VersionNum) = [3, 1] ∧
      GetLatestVersionNum (runVersionOps {} threeVersionsOps) naturalOrder "att-1" =
        (3, none) :=
  ⟨(ListVersions_sorted_desc (runVersionOps {} threeVersionsOps) naturalOrder naturalOrder
      "att-1").2.2.1 (by decide),
    by decide, by decide⟩

/-- C13, counterexample: two `CreateVersion` calls for `att-1`, both with version
number 1, both return no error, and the store then holds two records with the
pair `(att-1, 1)`. -/
theorem duplicate_version_number_accepted :
    (CreateVersion {} 800 0x64b7f3a2c1d4e5f6a7b8ca01 (versionOf 1)).2 = none ∧
      (CreateVersion (CreateVersion {} 800 0x64b7f3a2c1d4e5f6a7b8ca01 (versionOf 1)).1
        801 0x64b7f3a2c1d4e5f6a7b8ca02 (versionOf 1)).2 = none ∧
      versionCount
        (CreateVersion (CreateVersion {} 800 0x64b7f3a2c1d4e5f6a7b8ca01 (versionOf 1)).1
          801 0x64b7f3a2c1d4e5f6a7b8ca02 (versionOf 1)).1 "att-1" 1 = 2 := by
  decide

/-- C13, as amended: the pair (attachment id, version number) is not unique among
stored versions.  A `CreateVersion` whose `_id` is not stored yet succeeds and
appends its record, whether or not its pair is already stored, so the number of
records with that pair grows by one; a `CreateVersion` fails, with the
duplicate-key error and the store unchanged, only when its `_id` is stored. -/
theorem CreateVersion_pair_not_unique (s : Store) (now : Time) (fresh : ObjectID)
    (v : AttachmentVersion) :
    ((∀ x ∈ s.versions, x.ID ≠ insertedID v.ID fresh) →
        (CreateVersion s now fresh v).2 = none ∧
        (CreateVersion s now fresh v).1.versions =
          s.versions ++ [{ v with CreatedAt := now, ID := insertedID v.ID fresh }] ∧
        versionCount (CreateVersion s now fresh v).1 v.AttachmentID v.VersionNum =
          versionCount s v.AttachmentID v.VersionNum + 1) ∧
      ((∃ x ∈ s.versions, x.ID = insertedID v.ID fresh) →
        CreateVersion s now fresh v = (s, some StoreError.ErrDuplicateKey)) := by
  constructor
  · intro hfresh
    rw [CreateVersion_of_fresh s now fresh v hfresh]
    refine ⟨rfl, rfl, ?_⟩
    show ((s.versions ++ [{ v with CreatedAt := now, ID := insertedID v.ID fresh }]).filter
      (fun x : AttachmentVersion =>
        x.AttachmentID == v.AttachmentID && x.VersionNum == v.VersionNum)).length = _
    rw [List.filter_append, List.filter_cons_of_pos (by simp)]
    simp [versionCount]
  · rintro ⟨x, hx, hid⟩
    have hany : s.versions.any (fun x => x.ID == insertedID v.ID fresh) = true := by
      rw [List.any_eq_true]
      exact ⟨x, hx, by simp [hid]⟩
    simp only [CreateVersion, hany, if_true]

/-- C13, witness: on the store that already holds version 1 of `att-1`, a second
`CreateVersion` with number 1 and a new id succeeds and the pair is stored twice. -/
theorem CreateVersion_pair_not_unique_witness :
    (CreateVersion (runVersionOps {} [VersionOp.create 800 0x64b7f3a2c1d4e5f6a7b8ca01
        (versionOf 1)]) 801 0x64b7f3a2c1d4e5f6a7b8ca02 (versionOf 1)).2 = none ∧
      versionCount (CreateVersion (runVersionOps {} [VersionOp.create 800
        0x64b7f3a2c1d4e5f6a7b8ca01 (versionOf 1)]) 801 0x64b7f3a2c1d4e5f6a7b8ca02
        (versionOf 1)).1 "att-1" 1 =
        versionCount (runVersionOps {} [VersionOp.create 800 0x64b7f3a2c1d4e5f6a7b8ca01
          (versionOf 1)]) "att-1" 1 + 1 := by
  obtain ⟨h1, _, h3⟩ := (CreateVersion_pair_not_unique
    (runVersionOps {} [VersionOp.create 800 0x64b7f3a2c1d4e5f6a7b8ca01 (versionOf 1)])
    801 0x64b7f3a2c1d4e5f6a7b8ca02 (versionOf 1)).1 (by decide)
  exact ⟨h1, h3⟩

/-- C14, counterexample: `att-1` has no versions, so `GetLatestVersionNum` is 0, and
a `CreateVersion` whose record carries version number 7 stores number 7, not
`0 + 1`. -/
theorem CreateVersion_keeps_caller_number :
    GetLatestVersionNum {} naturalOrder "att-1" = (0, none) ∧
      (CreateVersion {} 800 0x64b7f3a2c1d4e5f6a7b8ca01 (versionOf 7)).2 = none ∧
      (CreateVersion {} 800 0x64b7f3a2c1d4e5f6a7b8ca01 (versionOf 7)).1.versions.map
        (fun v => v.VersionNum) = [7] := by
  decide

/-- C14, as amended: `CreateVersion` stores the version number its caller put in
the record (the record appended is the caller's with only the id and creation
time set), and `GetLatestVersionNum(A)` returns no error and the highest version
number stored for `A`, or 0 when `A` has no versions. -/
theorem CreateVersion_stores_given_number (s : Store) (now : Time) (fresh : ObjectID)
    (v : AttachmentVersion) (visit : AttachmentVersion → Int) (A : String) :
    ((∀ x ∈ s.versions, x.ID ≠ insertedID v.ID fresh) →
        ∃ doc, (CreateVersion s now fresh v).1.versions = s.versions ++ [doc] ∧
          doc.VersionNum = v.VersionNum ∧ doc.AttachmentID = v.AttachmentID) ∧
      (GetLatestVersionNum s visit A).2 = none ∧
      (s.versions.filter (fun x => x.AttachmentID == A) = [] →
        (GetLatestVersionNum s visit A).1 = 0) ∧
      (s.versions.filter (fun x => x.AttachmentID == A) ≠ [] →
        (∃ x ∈ s.versions.filter (fun x => x.AttachmentID == A),
            x.VersionNum = (GetLatestVersionNum s visit A).1) ∧
          ∀ x ∈ s.versions.filter (fun x => x.AttachmentID == A),
            x.VersionNum ≤ (GetLatestVersionNum s visit A).1) := by
  refine ⟨?_, ?_, ?_, ?_⟩
  · intro hfresh
    rw [CreateVersion_of_fresh s now fresh v hfresh]
    exact ⟨_, rfl, rfl, rfl⟩
  · unfold GetLatestVersionNum
    split <;> rfl
  · intro hnil
    have hfs := (findSorted_eq_nil_iff (fun v : AttachmentVersion => -v.VersionNum) visit
      (fun x => x.AttachmentID == A) s.versions).mpr hnil
    simp only [GetLatestVersionNum, hfs, List.head?_nil]
  · intro hne
    cases hfs : findSorted (fun v : AttachmentVersion => -v.VersionNum) visit
        (fun x => x.AttachmentID == A) s.versions with
    | nil => exact absurd ((findSorted_eq_nil_iff _ visit _ _).mp hfs) hne
    | cons w rest =>
      obtain ⟨hmem, hle⟩ := findSorted_head_le _ visit _ _ w rest hfs
      simp only [GetLatestVersionNum, hfs, List.head?_cons]
      refine ⟨⟨w, hmem, rfl⟩, ?_⟩
      intro x hx
      have := hle x hx
      simp only at this
      omega

/-- C14, witness: on the store with versions 1 and 3 of `att-1`, a `CreateVersion`
carrying number 1 stores number 1, and `GetLatestVersionNum` is 3. -/
theorem CreateVersion_stores_given_number_witness :
    (∃ doc, (CreateVersion (runVersionOps {} threeVersionsOps) 900
          0x64b7f3a2c1d4e5f6a7b8ca09 (versionOf 1)).1.versions =
        (runVersionOps {} threeVersionsOps).versions ++ [doc] ∧
        doc.VersionNum = (versionOf 1).VersionNum ∧
        doc.AttachmentID = (versionOf 1).AttachmentID) ∧
      GetLatestVersionNum (runVersionOps {} threeVersionsOps) naturalOrder "att-1" =
        (3, none) :=
  ⟨(CreateVersion_stores_given_number (runVersionOps {} threeVersionsOps) 900
      0x64b7f3a2c1d4e5f6a7b8ca09 (versionOf 1) naturalOrder "att-1").1 (by decide),
    by decide⟩

/-! ## Collections: listing -/

/-- C11, counterexample: `att-B` is added to "Reports" before `att-A`, both at
position 0 as the handler stores items; when the store delivers the matching
records in the order of the unique index `(collection_id, attachment_id)`,
`ListCollectionItems` returns `att-A` before `att-B`: equal positions do not come
out in insertion order. -/
theorem ListCollectionItems_tie_not_insertion_order :
    reportsTied.collItems =
        [reportsItem 0x64b7f3a2c1d4e5f6a7b8c9e1 "att-B" 0 200,
         reportsItem 0x64b7f3a2c1d4e5f6a7b8c9e2 "att-A" 0 201] ∧
      ListCollectionItems reportsTied byAttachmentID reportsID 50 0 =
        Except.ok [reportsItem 0x64b7f3a2c1d4e5f6a7b8c9e2 "att-A" 0 201,
                   reportsItem 0x64b7f3a2c1d4e5f6a7b8c9e1 "att-B" 0 200] := by
  decide

theorem findSorted_pair {α : Type} (key visit : α → Int) (p : α → Bool) (xs : List α)
    (a b : α) (hfilter : xs.filter p = [a, b]) (hlt : key a < key b) :
    findSorted key visit p xs = [a, b] := by
  unfold findSorted
  rw [hfilter]
  by_cases hv : visit a ≤ visit b
  · have h1 : [a, b].insertionSort (fun x y => visit x ≤ visit y) = [a, b] := by
      simp [List.insertionSort, List.orderedInsert, hv]
    rw [h1]
    simp [List.insertionSort, List.orderedInsert, le_of_lt hlt]
  · have h1 : [a, b].insertionSort (fun x y => visit x ≤ visit y) = [b, a] := by
      simp [List.insertionSort, List.orderedInsert, hv]
    rw [h1]
    simp [List.insertionSort, List.orderedInsert, not_le.mpr hlt]

theorem findSorted_single {α : Type} (key visit : α → Int) (p : α → Bool) (xs : List α)
    (a : α) (hfilter : xs.filter p = [a]) : findSorted key visit p xs = [a] := by
  unfold findSorted
  rw [hfilter]
  simp [List.insertionSort, List.orderedInsert]

/-- C11, as amended: for a non-negative offset `ListCollectionItems(C)` returns the
requested page (skip `offset`, then at most `limit`, all when `limit = 0`) of a
rearrangement of C's items in ascending position order; the order among items with
equal position is the order in which the store delivers them.  In particular,
whatever that order, after creating the empty "Reports" (count 0) and adding X at
position 0 then Y at position 1, listing returns [X, Y], and after
`RemoveFromCollection(C, X)` listing returns [Y] and `item_count` is 1. -/
theorem ListCollectionItems_sorted_page (s : Store) (visit : CollectionItem → Int)
    (C : String) (limit offset : Int) :
    (0 ≤ offset →
        ∃ sorted : List CollectionItem,
          sorted.Perm (s.collItems.filter (fun x => x.CollectionID == C)) ∧
          sorted.Pairwise (fun a b => a.Position ≤ b.Position) ∧
          ListCollectionItems s visit C limit offset =
            Except.ok (if limit = 0 then sorted.drop offset.toNat
              else (sorted.drop offset.toNat).take limit.natAbs)) ∧
      (GetCollection reportsStore reportsID = Except.ok (reportsRecord 0) ∧
        ListCollectionItems reportsXY visit reportsID 50 0 =
          Except.ok [reportsItem 0x64b7f3a2c1d4e5f6a7b8c9e1 "att-X" 0 200,
                     reportsItem 0x64b7f3a2c1d4e5f6a7b8c9e2 "att-Y" 1 201] ∧
        ListCollectionItems (RemoveFromCollection reportsXY reportsID "att-X").1 visit
            reportsID 50 0 =
          Except.ok [reportsItem 0x64b7f3a2c1d4e5f6a7b8c9e2 "att-Y" 1 201] ∧
        GetCollection (RemoveFromCollection reportsXY reportsID "att-X").1 reportsID =
          Except.ok (reportsRecord 1)) := by
  constructor
  · intro hoff
    refine ⟨findSorted (fun x => x.Position) visit (fun x => x.CollectionID == C) s.collItems,
      findSorted_perm _ _ _ _, findSorted_sorted _ _ _ _, ?_⟩
    unfold ListCollectionItems page
    rw [if_neg (by omega)]
    split <;> rfl
  · refine ⟨by decide, ?_, ?_, by decide⟩
    · have hfs := findSorted_pair (fun x : CollectionItem => x.Position) visit
        (fun x => x.CollectionID == reportsID) reportsXY.collItems
        (reportsItem 0x64b7f3a2c1d4e5f6a7b8c9e1 "att-X" 0 200)
        (reportsItem 0x64b7f3a2c1d4e5f6a7b8c9e2 "att-Y" 1 201) (by decide) (by decide)
      unfold ListCollectionItems
      rw [hfs]
      decide
    · have hfs := findSorted_single (fun x : CollectionItem => x.Position) visit
        (fun x => x.CollectionID == reportsID)
        (RemoveFromCollection reportsXY reportsID "att-X").1.collItems
        (reportsItem 0x64b7f3a2c1d4e5f6a7b8c9e2 "att-Y" 1 201) (by decide)
      unfold ListCollectionItems
      rw [hfs]
      decide

/-- C11, witness: on the store with two items at position 0, listing in natural
order with limit 1 and offset 1 gives the second item added. -/
theorem ListCollectionItems_sorted_page_witness :
    ∃ sorted : List CollectionItem,
      sorted.Perm (reportsTied.collItems.filter (fun x => x.CollectionID == reportsID)) ∧
      sorted.Pairwise (fun a b => a.Position ≤ b.Position) ∧
      ListCollectionItems reportsTied naturalOrder reportsID 1 1 =
        Except.ok (if (1 : Int) = 0 then sorted.drop (1 : Int).toNat
          else (sorted.drop (1 : Int).toNat).take (1 : Int).natAbs) :=
  (ListCollectionItems_sorted_page reportsTied naturalOrder reportsID 1 1).1 (by decide)

/-! ## Collections: ids that name no collection -/

theorem updateOne_of_none {α : Type} (p : α → Bool) (f : α → α) (xs : List α)
    (h : ∀ x ∈ xs, p x = false) : updateOne p f xs = xs := by
  induction xs with
  | nil => rfl
  | cons x xs ih =>
    have hx := h x (List.mem_cons_self _ _)
    simp only [updateOne, hx]
    rw [ih (fun y hy => h y (List.mem_cons_of_mem _ hy))]
    rfl

theorem incItemCount_of_no_collection (delta : Int) (collectionID : String)
    (cs : List AttachmentCollection)
    (h : ∀ c ∈ cs, c.ID ≠ (ObjectIDFromHex collectionID).getD NilObjectID) :
    incItemCount delta collectionID cs = cs := by
  unfold incItemCount
  apply updateOne_of_none
  intro c hc
  simpa using h c hc

theorem AddToCollection_of_new (s : Store) (now : Time) (fresh : ObjectID)
    (item : CollectionItem)
    (hnew : ∀ x ∈ s.collItems,
      ¬ (x.CollectionID = item.CollectionID ∧ x.AttachmentID = item.AttachmentID))
    (hfresh : ∀ x ∈ s.collItems, x.ID ≠ insertedID item.ID fresh) :
    AddToCollection s now fresh item =
      ({ s with
          collItems := s.collItems ++
            [{ item with AddedAt := now, ID := insertedID item.ID fresh }],
          collections := (incItemCount 1 item.CollectionID s.collections) }, none) := by
  have hany : s.collItems.any (fun x => x.ID == insertedID item.ID fresh ||
      (x.CollectionID == item.CollectionID && x.AttachmentID == item.AttachmentID)) = false := by
    rw [List.any_eq_false]
    intro x hx
    have h1 := hfresh x hx
    have h2 := hnew x hx
    simp only [Bool.or_eq_true, Bool.and_eq_true, beq_iff_eq, not_or]
    exact ⟨h1, h2⟩
  simp only [AddToCollection, hany]
  rfl

/-- C21, counterexample: "not-an-id" is not a well-formed object id, yet
`AddToCollection` with it returns no error and stores the item, and
`RemoveFromCollection` with it returns no error and deletes that item again. -/
theorem malformed_collection_id_accepted :
    ObjectIDFromHex "not-an-id" = none ∧
      AddToCollection reportsStore 200 0x64b7f3a2c1d4e5f6a7b8c9e1
          (itemOfRequest "not-an-id" "att-X" "user-1") =
        ({ reportsStore with
            collItems := [{ itemOfRequest "not-an-id" "att-X" "user-1" with
                            AddedAt := 200, ID := 0x64b7f3a2c1d4e5f6a7b8c9e1 }] }, none) ∧
      RemoveFromCollection
          (AddToCollection reportsStore 200 0x64b7f3a2c1d4e5f6a7b8c9e1
            (itemOfRequest "not-an-id" "att-X" "user-1")).1 "not-an-id" "att-X" =
        (reportsStore, none) := by
  decide

/-- C21, as amended: `AddToCollection` and `RemoveFromCollection` do not reject a
malformed collection id.  With such an id (and no collection stored under the nil
object id) `AddToCollection` of a pair not yet stored, under an unused item id,
returns no error and appends the item; `RemoveFromCollection` returns no error and
deletes the first item with that id string and attachment, if any; neither changes
any collection record, so no item count moves. -/
theorem malformed_id_not_rejected (s : Store) (now : Time) (fresh : ObjectID)
    (item : CollectionItem) (C X : String) :
    (ObjectIDFromHex item.CollectionID = none →
        (∀ c ∈ s.collections, c.ID ≠ NilObjectID) →
        (∀ x ∈ s.collItems,
          ¬ (x.CollectionID = item.CollectionID ∧ x.AttachmentID = item.AttachmentID)) →
        (∀ x ∈ s.collItems, x.ID ≠ insertedID item.ID fresh) →
        AddToCollection s now fresh item =
          ({ s with collItems := s.collItems ++
              [{ item with AddedAt := now, ID := insertedID item.ID fresh }] }, none)) ∧
      (ObjectIDFromHex C = none →
        (∀ c ∈ s.collections, c.ID ≠ NilObjectID) →
        RemoveFromCollection s C X =
          ({ s with collItems := (deleteOne
              (fun x => x.CollectionID == C && x.AttachmentID == X) s.collItems) }, none)) := by
  constructor
  · intro hbad hnil hnew hfresh
    rw [AddToCollection_of_new s now fresh item hnew hfresh,
      incItemCount_of_no_collection 1 item.CollectionID s.collections
        (by rw [hbad]; exact hnil)]
  · intro hbad hnil
    simp only [RemoveFromCollection]
    rw [incItemCount_of_no_collection (-1) C s.collections (by rw [hbad]; exact hnil)]

/-- C21, witness: on "Reports", adding with the id "not-an-id" appends the item and
leaves the collection record as it was. -/
theorem malformed_id_not_rejected_witness :
    AddToCollection reportsStore 200 0x64b7f3a2c1d4e5f6a7b8c9e1
        (itemOfRequest "not-an-id" "att-X" "user-1") =
      ({ reportsStore with collItems := reportsStore.collItems ++
          [{ itemOfRequest "not-an-id" "att-X" "user-1" with
             AddedAt := 200,
             ID := insertedID (itemOfRequest "not-an-id" "att-X" "user-1").ID
               0x64b7f3a2c1d4e5f6a7b8c9e1 }] }, none) :=
  (malformed_id_not_rejected reportsStore 200 0x64b7f3a2c1d4e5f6a7b8c9e1
    (itemOfRequest "not-an-id" "att-X" "user-1") "not-an-id" "att-X").1
    (by decide) (by decide) (by decide) (by decide)

/-- C26: for an existing collection `C` with record `c`, `RemoveFromCollection(C, X)`
returns no error and leaves `C` with `item_count = c.item_count - 1`, whether or
not an item `(C, X)` is stored.  When none is stored the items of `C` are
unchanged, so a count that did not exceed the number of items is now below it,
and on an empty collection with count 0 the count is -1. -/
theorem RemoveFromCollection_always_decrements (s : Store) (C X : String)
    (c : AttachmentCollection) (hget : GetCollection s C = Except.ok c) :
    (RemoveFromCollection s C X).2 = none ∧
      GetCollection (RemoveFromCollection s C X).1 C =
        Except.ok { c with ItemCount := c.ItemCount - 1 } ∧
      (itemPresent s C X = false →
        (RemoveFromCollection s C X).1.collItems = s.collItems ∧
        liveItemCount (RemoveFromCollection s C X).1 C = liveItemCount s C ∧
        (c.ItemCount ≤ liveItemCount s C →
          c.ItemCount - 1 < liveItemCount (RemoveFromCollection s C X).1 C) ∧
        (c.ItemCount = 0 → c.ItemCount - 1 < 0)) := by
  refine ⟨rfl, ?_, ?_⟩
  · exact GetCollection_incItemCount s _ C c (-1) hget rfl
  · intro habsent
    have hitems : (RemoveFromCollection s C X).1.collItems = s.collItems := by
      simp only [RemoveFromCollection]
      exact deleteOne_of_none _ _ habsent
    have hlive : liveItemCount (RemoveFromCollection s C X).1 C = liveItemCount s C := by
      simp only [liveItemCount, hitems]
    refine ⟨hitems, hlive, ?_, ?_⟩
    · intro hle
      rw [hlive]
      omega
    · intro h0
      omega

/-- C26, witness: on the empty "Reports" (count 0) removing `att-Z` leaves the
count at -1 with no items. -/
theorem RemoveFromCollection_always_decrements_witness :
    GetCollection (RemoveFromCollection reportsStore reportsID "att-Z").1 reportsID =
        Except.ok { reportsRecord 0 with ItemCount := (reportsRecord 0).ItemCount - 1 } ∧
      liveItemCount (RemoveFromCollection reportsStore reportsID "att-Z").1 reportsID =
        liveItemCount reportsStore reportsID := by
  obtain ⟨_, h2, h3⟩ := RemoveFromCollection_always_decrements reportsStore reportsID "att-Z"
    (reportsRecord 0) (by decide)
  exact ⟨h2, (h3 (by decide)).2.1⟩

/-- C28: `AddToCollection` of a pair not yet stored, under an unused item id,
returns no error and appends the item also when no collection is stored under
the id (for a malformed id: under the nil object id).  Then no collection record
changes, and `ListCollectionItems` for that id string, unpaged, returns the item,
in whatever order the store delivers equal positions. -/
theorem AddToCollection_orphan (s : Store) (now : Time) (fresh : ObjectID)
    (item : CollectionItem) (visit : CollectionItem → Int)
    (hnew : ∀ x ∈ s.collItems,
      ¬ (x.CollectionID = item.CollectionID ∧ x.AttachmentID = item.AttachmentID))
    (hfresh : ∀ x ∈ s.collItems, x.ID ≠ insertedID item.ID fresh)
    (hnone : ∀ c ∈ s.collections,
      c.ID ≠ (ObjectIDFromHex item.CollectionID).getD NilObjectID) :
    AddToCollection s now fresh item =
        ({ s with collItems := s.collItems ++
            [{ item with AddedAt := now, ID := insertedID item.ID fresh }] }, none) ∧
      (AddToCollection s now fresh item).1.collections = s.collections ∧
      ∃ listed, ListCollectionItems (AddToCollection s now fresh item).1 visit
          item.CollectionID 0 0 = Except.ok listed ∧
        { item with AddedAt := now, ID := insertedID item.ID fresh } ∈ listed := by
  have hadd : AddToCollection s now fresh item =
      ({ s with collItems := s.collItems ++
          [{ item with AddedAt := now, ID := insertedID item.ID fresh }] }, none) := by
    rw [AddToCollection_of_new s now fresh item hnew hfresh,
      incItemCount_of_no_collection 1 item.CollectionID s.collections hnone]
  rw [hadd]
  refine ⟨rfl, rfl, ?_⟩
  refine ⟨findSorted (fun x => x.Position) visit (fun x => x.CollectionID == item.CollectionID)
    (s.collItems ++ [{ item with AddedAt := now, ID := insertedID item.ID fresh }]), ?_, ?_⟩
  · simp [ListCollectionItems, page]
  · apply (findSorted_perm _ _ _ _).mem_iff.mpr
    rw [List.mem_filter]
    exact ⟨List.mem_append_right _ (List.mem_singleton_self _), by simp⟩

/-- C28, witness: on the empty store, adding `att-X` under the well-formed id of a
collection that does not exist stores the orphan item and listing returns it. -/
theorem AddToCollection_orphan_witness :
    AddToCollection {} 200 0x64b7f3a2c1d4e5f6a7b8c9e1
        (itemOfRequest reportsID "att-X" "user-1") =
      ({ collItems := [reportsItem 0x64b7f3a2c1d4e5f6a7b8c9e1 "att-X" 0 200] }, none) ∧
    ListCollectionItems (AddToCollection {} 200 0x64b7f3a2c1d4e5f6a7b8c9e1
        (itemOfRequest reportsID "att-X" "user-1")).1 naturalOrder reportsID 0 0 =
      Except.ok [reportsItem 0x64b7f3a2c1d4e5f6a7b8c9e1 "att-X" 0 200] :=
  ⟨(AddToCollection_orphan {} 200 0x64b7f3a2c1d4e5f6a7b8c9e1
      (itemOfRequest reportsID "att-X" "user-1") naturalOrder
      (by decide) (by decide) (by decide)).1,
    by decide⟩

/-! ## Comments: the claims -/

theorem updateOne_split {α : Type} (p : α → Bool) (f : α → α) (pre post : List α) (c : α)
    (hpre : ∀ x ∈ pre, p x = false) (hc : p c = true) :
    updateOne p f (pre ++ c :: post) = pre ++ f c :: post := by
  induction pre with
  | nil => simp only [List.nil_append, updateOne, hc, if_true]
  | cons x xs ih =>
    have hx := hpre x (List.mem_cons_self _ _)
    have hstep : updateOne p f (x :: (xs ++ c :: post)) =
        x :: updateOne p f (xs ++ c :: post) := by
      simp only [updateOne, hx]
      rfl
    rw [List.cons_append, hstep, ih (fun y hy => hpre y (List.mem_cons_of_mem _ hy))]
    rfl

theorem deleteOne_split {α : Type} (p : α → Bool) (pre post : List α) (c : α)
    (hpre : ∀ x ∈ pre, p x = false) (hc : p c = true) :
    deleteOne p (pre ++ c :: post) = pre ++ post := by
  induction pre with
  | nil => simp only [List.nil_append, deleteOne, hc, if_true]
  | cons x xs ih =>
    have hx := hpre x (List.mem_cons_self _ _)
    have hstep : deleteOne p (x :: (xs ++ c :: post)) =
        x :: deleteOne p (xs ++ c :: post) := by
      simp only [deleteOne, hx]
      rfl
    rw [List.cons_append, hstep, ih (fun y hy => hpre y (List.mem_cons_of_mem _ hy))]
    rfl

theorem mem_deleteOne_of_not {α : Type} (p : α → Bool) (xs : List α) (r : α)
    (hr : r ∈ xs) (hp : p r = false) : r ∈ deleteOne p xs := by
  induction xs with
  | nil => cases hr
  | cons x xs ih =>
    by_cases hx : p x = true
    · have hne : r ≠ x := by
        intro h
        rw [h, hx] at hp
        cases hp
      simp only [deleteOne, hx, if_true]
      rcases List.mem_cons.mp hr with h | h
      · exact absurd h hne
      · exact h
    · have hx' : p x = false := by simpa using hx
      have hstep : deleteOne p (x :: xs) = x :: deleteOne p xs := by
        simp only [deleteOne, hx']
        rfl
      rw [hstep]
      rcases List.mem_cons.mp hr with h | h
      · rw [h]; exact List.mem_cons_self _ _
      · exact List.mem_cons_of_mem _ (ih h)

/-- C22: every comment the `CreateComment` handler adds to the store has
`IsEdited = false`, whatever the request; on a body that binds (a non-empty
content) and with an unused generated id it stores exactly one new comment, with
`IsEdited = false` and the request's content and parent, and answers 201 with it.
`UpdateComment` on an existing comment returns no error and replaces it, in
place, by a record with the new content, `IsEdited = true` and the new update
time, whose id, attachment id, author, parent id and creation time are those of
the old record; every other comment, before and after it, is unchanged. -/
theorem comment_edit_tracking (s : Store) (tCreated tUpdated now : Time) (fresh : ObjectID)
    (attachmentID userID id content : String) (req : CreateCommentRequest)
    (pre post : List AttachmentComment) (c : AttachmentComment) :
    ((∀ x ∈ (ExtendedHandler.CreateComment s tCreated tUpdated fresh attachmentID userID
          req).1.comments, x ∈ s.comments ∨ x.IsEdited = false) ∧
        (req.Content ≠ "" → (∀ x ∈ s.comments, x.ID ≠ fresh) →
          ExtendedHandler.CreateComment s tCreated tUpdated fresh attachmentID userID req =
            ({ s with comments := s.comments ++
                [{ ID := fresh, AttachmentID := attachmentID, UserID := userID,
                   Content := req.Content, ParentID := req.ParentID, IsEdited := false,
                   CreatedAt := tCreated, UpdatedAt := tUpdated }] },
             { status := 201,
               data := some { ID := fresh, AttachmentID := attachmentID, UserID := userID,
                              Content := req.Content, ParentID := req.ParentID,
                              IsEdited := false, CreatedAt := tCreated,
                              UpdatedAt := tUpdated } }))) ∧
      (s.comments = pre ++ c :: post → (∀ x ∈ pre, x.ID ≠ c.ID) →
        ObjectIDFromHex id = some c.ID →
        UpdateComment s now id content =
            ({ s with comments := pre ++ commentSet content now c :: post }, none) ∧
          (commentSet content now c).Content = content ∧
          (commentSet content now c).IsEdited = true ∧
          (commentSet content now c).UpdatedAt = now ∧
          (commentSet content now c).ID = c.ID ∧
          (commentSet content now c).AttachmentID = c.AttachmentID ∧
          (commentSet content now c).UserID = c.UserID ∧
          (commentSet content now c).ParentID = c.ParentID ∧
          (commentSet content now c).CreatedAt = c.CreatedAt) := by
  refine ⟨⟨?_, ?_⟩, ?_⟩
  · intro x hx
    by_cases hc : req.Content = ""
    · simp only [ExtendedHandler.CreateComment, if_pos hc] at hx
      exact Or.inl hx
    · cases hany : s.comments.any (fun x => x.ID == insertedID NilObjectID fresh) with
      | true =>
        simp only [ExtendedHandler.CreateComment, if_neg hc, CreateComment, hany,
          if_true] at hx
        exact Or.inl hx
      | false =>
        simp only [ExtendedHandler.CreateComment, if_neg hc, CreateComment, hany] at hx
        have hx' : x ∈ s.comments ++
            [{ ID := insertedID NilObjectID fresh, AttachmentID := attachmentID,
               UserID := userID, Content := req.Content, ParentID := req.ParentID,
               IsEdited := false, CreatedAt := tCreated, UpdatedAt := tUpdated }] := hx
        simp only [List.mem_append, List.mem_singleton] at hx'
        rcases hx' with h | h
        · exact Or.inl h
        · right; rw [h]
  · intro hc hfresh
    have hany : s.comments.any (fun x => x.ID == insertedID NilObjectID fresh) = false := by
      rw [List.any_eq_false]
      intro x hx
      have := hfresh x hx
      simpa [insertedID] using this
    simp only [ExtendedHandler.CreateComment, if_neg hc, CreateComment, hany]
    rfl
  · intro hsplit hpre hid
    refine ⟨?_, rfl, rfl, rfl, rfl, rfl, rfl, rfl, rfl⟩
    simp only [UpdateComment, hid]
    rw [hsplit, updateOne_split (fun x : AttachmentComment => x.ID == c.ID)
      (commentSet content now) pre post c (fun x hx => by simpa using hpre x hx) (by simp)]

/-- C22, witness: a third comment created on `threadStore` through the handler is
stored unedited after the two unedited ones; updating the reply changes its
content, sets `IsEdited` and the update time, and leaves the first comment and the
reply's parent, author and creation time as they were. -/
theorem comment_edit_tracking_witness :
    threadStore.comments = [firstComment, replyComment] ∧
      ExtendedHandler.CreateComment threadStore 320 321 0x64b7f3a2c1d4e5f6a7b8cc03 "att-1"
          "user-3" { Content := "third", ParentID := "" } =
        ({ threadStore with comments := threadStore.comments ++
            [{ ID := 0x64b7f3a2c1d4e5f6a7b8cc03, AttachmentID := "att-1", UserID := "user-3",
               Content := "third", ParentID := "", IsEdited := false, CreatedAt := 320,
               UpdatedAt := 321 }] },
         { status := 201,
           data := some { ID := 0x64b7f3a2c1d4e5f6a7b8cc03, AttachmentID := "att-1",
                          UserID := "user-3", Content := "third", ParentID := "",
                          IsEdited := false, CreatedAt := 320, UpdatedAt := 321 } }) ∧
      UpdateComment threadStore 400 "64b7f3a2c1d4e5f6a7b8cc02" "edited" =
        ({ threadStore with comments :=
            [firstComment] ++ commentSet "edited" 400 replyComment :: [] }, none) :=
  ⟨by decide,
    (comment_edit_tracking threadStore 320 321 400 0x64b7f3a2c1d4e5f6a7b8cc03 "att-1" "user-3"
      "64b7f3a2c1d4e5f6a7b8cc02" "edited" { Content := "third", ParentID := "" }
      [firstComment] [] replyComment).1.2 (by decide) (by decide),
    ((comment_edit_tracking threadStore 320 321 400 0x64b7f3a2c1d4e5f6a7b8cc03 "att-1" "user-3"
      "64b7f3a2c1d4e5f6a7b8cc02" "edited" { Content := "third", ParentID := "" }
      [firstComment] [] replyComment).2
      (by decide) (by decide) (by decide)).1⟩

/-- C25: `DeleteComment` with a well-formed id returns no error and removes the
first comment with that id and nothing else: the comments before and after it stay,
every comment with another id is still stored (its fields, `ParentID` included,
untouched, so replies to the deleted comment remain), and a store without a
comment of that id is unchanged.  With a malformed id it returns the parse error
and changes nothing. -/
theorem DeleteComment_removes_one (s : Store) (id : String) (objID : ObjectID)
    (pre post : List AttachmentComment) (c r : AttachmentComment) :
    (ObjectIDFromHex id = some objID →
        (DeleteComment s id).2 = none ∧
        (s.comments = pre ++ c :: post → c.ID = objID → (∀ x ∈ pre, x.ID ≠ objID) →
          DeleteComment s id = ({ s with comments := pre ++ post }, none)) ∧
        ((∀ x ∈ s.comments, x.ID ≠ objID) → DeleteComment s id = (s, none)) ∧
        (r ∈ s.comments → r.ID ≠ objID → r ∈ (DeleteComment s id).1.comments)) ∧
      (ObjectIDFromHex id = none →
        DeleteComment s id = (s, some StoreError.ErrInvalidHex)) := by
  constructor
  · intro hid
    refine ⟨?_, ?_, ?_, ?_⟩
    · simp only [DeleteComment, hid]
    · intro hsplit hc hpre
      simp only [DeleteComment, hid]
      rw [hsplit, deleteOne_split (fun x : AttachmentComment => x.ID == objID) pre post c
        (fun x hx => by simpa using hpre x hx) (by simp [hc])]
    · intro hnone
      simp only [DeleteComment, hid]
      rw [deleteOne_of_none]
      rw [List.any_eq_false]
      intro x hx
      simpa using hnone x hx
    · intro hr hne
      simp only [DeleteComment, hid]
      exact mem_deleteOne_of_not _ _ r hr (by simpa using hne)
  · intro hid
    simp only [DeleteComment, hid]

/-- C25, witness: deleting the first comment of `threadStore` leaves exactly the
reply, which still names the deleted comment as its parent. -/
theorem DeleteComment_removes_one_witness :
    DeleteComment threadStore "64b7f3a2c1d4e5f6a7b8cc01" =
        ({ threadStore with comments := [] ++ [replyComment] }, none) ∧
      replyComment.ParentID = "64b7f3a2c1d4e5f6a7b8cc01" ∧
      replyComment ∈ (DeleteComment threadStore "64b7f3a2c1d4e5f6a7b8cc01").1.comments :=
  ⟨((DeleteComment_removes_one threadStore "64b7f3a2c1d4e5f6a7b8cc01"
      0x64b7f3a2c1d4e5f6a7b8cc01 [] [replyComment] firstComment replyComment).1
      (by decide)).2.1 (by decide) (by decide) (by decide),
    rfl,
    ((DeleteComment_removes_one threadStore "64b7f3a2c1d4e5f6a7b8cc01"
      0x64b7f3a2c1d4e5f6a7b8cc01 [] [replyComment] firstComment replyComment).1
      (by decide)).2.2.2 (by decide) (by decide)⟩

/-- C29: `UpdateComment` and `DeactivateShareLink` with a well-formed id that no
stored record carries return no error, their handlers answer 200 (the
`UpdateComment` handler on a body that binds: a non-empty content), and the store
is unchanged; each returns an error exactly when the id is malformed (the store
answering). -/
theorem update_of_missing_record_succeeds (s : Store) (now : Time) (id content : String) :
    (∀ objID, ObjectIDFromHex id = some objID →
        ((∀ c ∈ s.comments, c.ID ≠ objID) →
          UpdateComment s now id content = (s, none) ∧
          (content ≠ "" →
            ExtendedHandler.UpdateComment s now id content =
              (s, { status := 200, data := none }))) ∧
        ((∀ l ∈ s.shareLinks, l.ID ≠ objID) →
          DeactivateShareLink s id = (s, none) ∧
          ExtendedHandler.DeactivateShareLink s id = (s, { status := 200, data := none }))) ∧
      ((UpdateComment s now id content).2 ≠ none ↔ ObjectIDFromHex id = none) ∧
      ((DeactivateShareLink s id).2 ≠ none ↔ ObjectIDFromHex id = none) := by
  refine ⟨?_, ?_, ?_⟩
  · intro objID hid
    constructor
    · intro hnone
      have hupd : UpdateComment s now id content = (s, none) := by
        simp only [UpdateComment, hid]
        rw [updateOne_of_none _ _ _ (fun c hc => by simpa using hnone c hc)]
      exact ⟨hupd, fun hc => by simp only [ExtendedHandler.UpdateComment, if_neg hc, hupd]⟩
    · intro hnone
      have hde : DeactivateShareLink s id = (s, none) := by
        simp only [DeactivateShareLink, hid]
        rw [updateOne_of_none _ _ _ (fun l hl => by simpa using hnone l hl)]
      exact ⟨hde, by simp only [ExtendedHandler.DeactivateShareLink, hde]⟩
  · cases hid : ObjectIDFromHex id with
    | none => simp [UpdateComment, hid]
    | some objID => simp [UpdateComment, hid]
  · cases hid : ObjectIDFromHex id with
    | none => simp [DeactivateShareLink, hid]
    | some objID => simp [DeactivateShareLink, hid]

/-- C29, witness: on `threadStore`, updating a comment id that is not stored and
deactivating a link id that is not stored both answer 200 and change nothing. -/
theorem update_of_missing_record_succeeds_witness :
    ExtendedHandler.UpdateComment threadStore 400 "64b7f3a2c1d4e5f6a7b8cc99" "x" =
        (threadStore, { status := 200, data := none }) ∧
      ExtendedHandler.DeactivateShareLink threadStore "64b7f3a2c1d4e5f6a7b8cc99" =
        (threadStore, { status := 200, data := none }) :=
  ⟨(((update_of_missing_record_succeeds threadStore 400 "64b7f3a2c1d4e5f6a7b8cc99" "x").1
      0x64b7f3a2c1d4e5f6a7b8cc99 (by decide)).1 (by decide)).2 (by decide),
   (((update_of_missing_record_succeeds threadStore 400 "64b7f3a2c1d4e5f6a7b8cc99" "x").1
      0x64b7f3a2c1d4e5f6a7b8cc99 (by decide)).2 (by decide)).2⟩

/-! ## Quota -/

/-- C23: for every user and every attachment corpus whose matching sizes add up to
an `int64` value (and whose matching count is one), `GetUserQuota` returns no
error and a quota for that user whose `UsedBytes` is the sum of the sizes, and
whose `FileCount` is the number, of the attachments with that `user_id` and a
status other than "deleted" (both 0 when there are none), with
`MaxBytes = 5368709120` and `MaxFiles = 10000`. -/
theorem GetUserQuota_sums (s : Store) (u : String) (fromDouble : Option (Int × Int))
    (hused : fitsInt64 (((s.attachments.filter (quotaMatch u)).map (fun a => a.Size)).sum) =
      true)
    (hcount : fitsInt64 (((s.attachments.filter (quotaMatch u)).length : Nat) : Int) = true) :
    (∀ a, quotaMatch u a = true ↔ (a.UserID = u ∧ a.Status ≠ "deleted")) ∧
      ∃ q, GetUserQuota s u fromDouble = Except.ok q ∧ q.UserID = u ∧
        q.UsedBytes = ((s.attachments.filter (quotaMatch u)).map (fun a => a.Size)).sum ∧
        q.FileCount = ((s.attachments.filter (quotaMatch u)).length : Nat) ∧
        q.MaxBytes = 5 * 1024 * 1024 * 1024 ∧ q.MaxBytes = 5368709120 ∧
        q.MaxFiles = 10000 ∧
        (s.attachments.filter (quotaMatch u) = [] → q.UsedBytes = 0 ∧ q.FileCount = 0) := by
  constructor
  · intro a
    simp [quotaMatch]
  · unfold GetUserQuota
    cases hm : s.attachments.filter (quotaMatch u) with
    | nil =>
      refine ⟨_, rfl, rfl, ?_, ?_, rfl, rfl, rfl, ?_⟩
      · simp
      · simp
      · intro _; exact ⟨rfl, rfl⟩
    | cons a rest =>
      rw [hm] at hused hcount
      simp only [hused, hcount, Bool.and_self, if_true]
      refine ⟨_, rfl, rfl, rfl, rfl, rfl, rfl, rfl, ?_⟩
      intro h
      cases h

/-- C23, witness: in `corpusStore`, `user-1` has two attachments that are not
deleted, of sizes 100 and 7, and `user-9` has none. -/
theorem GetUserQuota_sums_witness :
    GetUserQuota corpusStore "user-1" none =
        Except.ok { UserID := "user-1", UsedBytes := 107, MaxBytes := 5368709120,
                    FileCount := 2, MaxFiles := 10000 } ∧
      ∃ q, GetUserQuota corpusStore "user-9" none = Except.ok q ∧ q.UsedBytes = 0 ∧
        q.FileCount = 0 := by
  obtain ⟨q, hq, _, _, _, _, _, _, h0⟩ :=
    (GetUserQuota_sums corpusStore "user-9" none (by decide) (by decide)).2
  exact ⟨by decide, q, hq, h0 (by decide)⟩

/-- Beyond the bound of C23: the sizes of `hugeStore` add up to 2^63, which no
`int64` holds; when the decoding of the group document fails, the error is
dropped and the quota reports 0 bytes and 0 files. -/
theorem GetUserQuota_beyond_int64 :
    ((hugeStore.attachments.filter (quotaMatch "user-1")).map (fun a => a.Size)).sum =
        9223372036854775808 ∧
      GetUserQuota hugeStore "user-1" none =
        Except.ok { UserID := "user-1", UsedBytes := 0, MaxBytes := 5368709120,
                    FileCount := 0, MaxFiles := 10000 } := by
  decide

/-! ## Share codes -/

theorem hexChar_isCodeSymbol (n : Nat) : isCodeSymbol (hexChar n) = true ∧ hexChar n ≠ '-' := by
  unfold hexChar
  have h : n % 16 < 16 := Nat.mod_lt _ (by decide)
  generalize n % 16 = m at h
  interval_cases m <;> decide

theorem uuidChars_take (u : UUID) :
    (uuidChars u).take 8 =
      [uuidDigit u 0, uuidDigit u 1, uuidDigit u 2, uuidDigit u 3, uuidDigit u 4,
       uuidDigit u 5, uuidDigit u 6, uuidDigit u 7] := by
  rfl

theorem uuidChars_length (u : UUID) : (uuidChars u).length = 36 := by
  rfl

/-- C24: for every UUID the canonical string has 36 characters with hyphens at
positions 8, 13, 18 and 23, and the code drawn from it, its first 8 characters,
has length exactly 8 and consists of symbols of `0-9a-z` only, none a hyphen;
every link the `CreateShareLink` handler adds to the store carries that code. -/
theorem shareCode_alphabet (u : UUID) (s : Store) (now : Time) (fresh : ObjectID)
    (attachmentID userID : String) (req : CreateShareLinkRequest) :
    (String.mk (uuidChars u)).length = 36 ∧
      ((uuidChars u).get? 8 = some '-' ∧ (uuidChars u).get? 13 = some '-' ∧
        (uuidChars u).get? 18 = some '-' ∧ (uuidChars u).get? 23 = some '-') ∧
      (shareCode u).length = 8 ∧
      (∀ c ∈ (shareCode u).data, isCodeSymbol c = true ∧ c ≠ '-') ∧
      (∀ l ∈ (ExtendedHandler.CreateShareLink s now fresh (shareCode u) attachmentID userID
          req).1.shareLinks, l ∈ s.shareLinks ∨ l.Code = shareCode u) := by
  refine ⟨?_, ⟨rfl, rfl, rfl, rfl⟩, ?_, ?_, ?_⟩
  · show (uuidChars u).length = 36
    exact uuidChars_length u
  · show ((uuidChars u).take 8).length = 8
    rw [uuidChars_take]
    rfl
  · intro c hc
    have hc' : c ∈ (uuidChars u).take 8 := hc
    rw [uuidChars_take] at hc'
    simp only [List.mem_cons, List.mem_singleton, List.not_mem_nil, or_false] at hc'
    rcases hc' with h | h | h | h | h | h | h | h <;>
      (rw [h]; exact hexChar_isCodeSymbol _)
  · intro l hl
    cases hany : s.shareLinks.any
        (fun x => x.ID == insertedID NilObjectID fresh || x.Code == shareCode u) with
    | true =>
      simp only [ExtendedHandler.CreateShareLink, CreateShareLink, hany, if_true] at hl
      exact Or.inl hl
    | false =>
      simp only [ExtendedHandler.CreateShareLink, CreateShareLink, hany] at hl
      have hl' : l ∈ s.shareLinks ++
          [{ ID := insertedID NilObjectID fresh, AttachmentID := attachmentID,
             Code := shareCode u, CreatedBy := userID, Password := req.Password,
             MaxDownloads := req.MaxDownloads, DownloadCount := 0, ExpiresAt := none,
             IsActive := true, CreatedAt := now }] := hl
      simp only [List.mem_append, List.mem_singleton] at hl'
      rcases hl' with h | h
      · exact Or.inl h
      · right; rw [h]

/-- C24, witness: the UUID 123e4567-e89b-12d3-a456-426614174000 gives the code
"123e4567", which the handler stores. -/
theorem shareCode_alphabet_witness :
    shareCode 0x123e4567e89b12d3a456426614174000 = "123e4567" ∧
      (ExtendedHandler.CreateShareLink {} 1000 0x64b7f3a2c1d4e5f6a7b8c9d0
        (shareCode 0x123e4567e89b12d3a456426614174000) "att-1" "user-1"
        { Password := "", MaxDownloads := 0, ExpiresAt := "" }).1.shareLinks.map
          (fun l => l.Code) = ["123e4567"] ∧
      (shareCode 0x123e4567e89b12d3a456426614174000).length = 8 :=
  ⟨by decide, by decide,
    (shareCode_alphabet 0x123e4567e89b12d3a456426614174000 {} 1000
      0x64b7f3a2c1d4e5f6a7b8c9d0 "att-1" "user-1"
      { Password := "", MaxDownloads := 0, ExpiresAt := "" }).2.2.1⟩

/-! ## Handlers: fields a request cannot set -/

/-- C27: whatever the request, every item the `AddToCollection` handler adds to the
store has position 0, and every share the `CreateShare` handler adds and every
link the `CreateShareLink` handler adds has no expiry.  On a body that binds
(non-empty required fields) and with an unused generated id (for an item an
unused pair, for a link an unused code) each handler stores exactly one new
record, the item at position 0, the share and the link without expiry, and
answers 201 with it.  The `ExpiresAt` of the request plays no part (two requests
that differ only in it give the same result), and the item request has no
position field. -/
theorem handlers_ignore_position_and_expiry (s : Store) (now : Time) (fresh : ObjectID)
    (pathID userID uuid8 expiresAt : String) (reqItem : AddToCollectionRequest)
    (reqShare : CreateShareRequest) (reqLink : CreateShareLinkRequest) :
    ((∀ x ∈ (ExtendedHandler.AddToCollection s now fresh pathID userID reqItem).1.collItems,
          x ∈ s.collItems ∨ (x.Position = 0 ∧ x.AttachmentID = reqItem.AttachmentID)) ∧
        (reqItem.AttachmentID ≠ "" →
          (∀ y ∈ s.collItems, y.ID ≠ fresh ∧
            ¬ (y.CollectionID = pathID ∧ y.AttachmentID = reqItem.AttachmentID)) →
          (ExtendedHandler.AddToCollection s now fresh pathID userID reqItem).1.collItems =
              s.collItems ++
                [{ ID := fresh, CollectionID := pathID, AttachmentID := reqItem.AttachmentID,
                   AddedBy := userID, Position := 0, AddedAt := now }] ∧
            (ExtendedHandler.AddToCollection s now fresh pathID userID reqItem).2 =
              { status := 201,
                data := some { ID := fresh, CollectionID := pathID,
                               AttachmentID := reqItem.AttachmentID, AddedBy := userID,
                               Position := 0, AddedAt := now } })) ∧
      ((∀ x ∈ (ExtendedHandler.CreateShare s now fresh pathID userID reqShare).1.shares,
          x ∈ s.shares ∨ (x.ExpiresAt = none ∧ x.SharedWith = reqShare.SharedWith)) ∧
        (reqShare.SharedWith ≠ "" → reqShare.Permission ≠ "" →
          (∀ y ∈ s.shares, y.ID ≠ fresh) →
          ExtendedHandler.CreateShare s now fresh pathID userID reqShare =
            ({ s with shares := s.shares ++
                [{ ID := fresh, AttachmentID := pathID, SharedBy := userID,
                   SharedWith := reqShare.SharedWith, Permission := reqShare.Permission,
                   ExpiresAt := none, CreatedAt := now }] },
             { status := 201,
               data := some { ID := fresh, AttachmentID := pathID, SharedBy := userID,
                              SharedWith := reqShare.SharedWith,
                              Permission := reqShare.Permission, ExpiresAt := none,
                              CreatedAt := now } })) ∧
        ExtendedHandler.CreateShare s now fresh pathID userID
            { reqShare with ExpiresAt := expiresAt } =
          ExtendedHandler.CreateShare s now fresh pathID userID reqShare) ∧
      ((∀ x ∈ (ExtendedHandler.CreateShareLink s now fresh uuid8 pathID userID
            reqLink).1.shareLinks,
          x ∈ s.shareLinks ∨ (x.ExpiresAt = none ∧ x.Code = uuid8)) ∧
        ((∀ y ∈ s.shareLinks, y.ID ≠ fresh ∧ y.Code ≠ uuid8) →
          ExtendedHandler.CreateShareLink s now fresh uuid8 pathID userID reqLink =
            ({ s with shareLinks := s.shareLinks ++
                [{ ID := fresh, AttachmentID := pathID, Code := uuid8, CreatedBy := userID,
                   Password := reqLink.Password, MaxDownloads := reqLink.MaxDownloads,
                   DownloadCount := 0, ExpiresAt := none, IsActive := true,
                   CreatedAt := now }] },
             { status := 201,
               data := some { ID := fresh, AttachmentID := pathID, Code := uuid8,
                              CreatedBy := userID, Password := reqLink.Password,
                              MaxDownloads := reqLink.MaxDownloads, DownloadCount := 0,
                              ExpiresAt := none, IsActive := true, CreatedAt := now } })) ∧
        ExtendedHandler.CreateShareLink s now fresh uuid8 pathID userID
            { reqLink with ExpiresAt := expiresAt } =
          ExtendedHandler.CreateShareLink s now fresh uuid8 pathID userID reqLink) := by
  refine ⟨⟨?_, ?_⟩, ⟨?_, ?_, rfl⟩, ⟨?_, ?_, rfl⟩⟩
  · intro x hx
    by_cases hb : reqItem.AttachmentID = ""
    · simp only [ExtendedHandler.AddToCollection, if_pos hb] at hx
      exact Or.inl hx
    · cases hany : s.collItems.any (fun y => y.ID == insertedID NilObjectID fresh ||
          (y.CollectionID == pathID && y.AttachmentID == reqItem.AttachmentID)) with
      | true =>
        simp only [ExtendedHandler.AddToCollection, if_neg hb, AddToCollection, itemOfRequest,
          hany, if_true] at hx
        exact Or.inl hx
      | false =>
        simp only [ExtendedHandler.AddToCollection, if_neg hb, AddToCollection, itemOfRequest,
          hany] at hx
        have hx' : x ∈ s.collItems ++
            [{ ID := insertedID NilObjectID fresh, CollectionID := pathID,
               AttachmentID := reqItem.AttachmentID, AddedBy := userID, Position := 0,
               AddedAt := now }] := hx
        simp only [List.mem_append, List.mem_singleton] at hx'
        rcases hx' with h | h
        · exact Or.inl h
        · right; rw [h]; exact ⟨rfl, rfl⟩
  · intro hb hnew
    have hadd := AddToCollection_of_new s now fresh
      (itemOfRequest pathID reqItem.AttachmentID userID)
      (fun y hy => (hnew y hy).2) (fun y hy => (hnew y hy).1)
    simp only [ExtendedHandler.AddToCollection, if_neg hb, hadd]
    exact ⟨rfl, rfl⟩
  · intro x hx
    by_cases hb : reqShare.SharedWith = "" ∨ reqShare.Permission = ""
    · simp only [ExtendedHandler.CreateShare, if_pos hb] at hx
      exact Or.inl hx
    · cases hany : s.shares.any (fun y => y.ID == insertedID NilObjectID fresh) with
      | true =>
        simp only [ExtendedHandler.CreateShare, if_neg hb, CreateShare, hany, if_true] at hx
        exact Or.inl hx
      | false =>
        simp only [ExtendedHandler.CreateShare, if_neg hb, CreateShare, hany] at hx
        have hx' : x ∈ s.shares ++
            [{ ID := insertedID NilObjectID fresh, AttachmentID := pathID, SharedBy := userID,
               SharedWith := reqShare.SharedWith, Permission := reqShare.Permission,
               ExpiresAt := none, CreatedAt := now }] := hx
        simp only [List.mem_append, List.mem_singleton] at hx'
        rcases hx' with h | h
        · exact Or.inl h
        · right; rw [h]; exact ⟨rfl, rfl⟩
  · intro hw hp hfresh
    have hb : ¬ (reqShare.SharedWith = "" ∨ reqShare.Permission = "") := by
      rintro (h | h)
      · exact hw h
      · exact hp h
    have hany : s.shares.any (fun y => y.ID == insertedID NilObjectID fresh) = false := by
      rw [List.any_eq_false]
      intro y hy
      have := hfresh y hy
      simpa [insertedID] using this
    simp only [ExtendedHandler.CreateShare, if_neg hb, CreateShare, hany]
    rfl
  · intro x hx
    cases hany : s.shareLinks.any
        (fun y => y.ID == insertedID NilObjectID fresh || y.Code == uuid8) with
    | true =>
      simp only [ExtendedHandler.CreateShareLink, CreateShareLink, hany, if_true] at hx
      exact Or.inl hx
    | false =>
      simp only [ExtendedHandler.CreateShareLink, CreateShareLink, hany] at hx
      have hx' : x ∈ s.shareLinks ++
          [{ ID := insertedID NilObjectID fresh, AttachmentID := pathID,
             Code := uuid8, CreatedBy := userID, Password := reqLink.Password,
             MaxDownloads := reqLink.MaxDownloads, DownloadCount := 0, ExpiresAt := none,
             IsActive := true, CreatedAt := now }] := hx
      simp only [List.mem_append, List.mem_singleton] at hx'
      rcases hx' with h | h
      · exact Or.inl h
      · right; rw [h]; exact ⟨rfl, rfl⟩
  · intro hfresh
    have hany : s.shareLinks.any
        (fun y => y.ID == insertedID NilObjectID fresh || y.Code == uuid8) = false := by
      rw [List.any_eq_false]
      intro y hy
      have := hfresh y hy
      simpa [insertedID] using this
    simp only [ExtendedHandler.CreateShareLink, CreateShareLink, hany]
    rfl

/-- C27, witness: on the empty store a share requested with an `expires_at` is
stored without expiry and a link requested with an `expires_at` is stored without
expiry; on "Reports" an item is stored at position 0. -/
theorem handlers_ignore_position_and_expiry_witness :
    ExtendedHandler.CreateShare {} 50 0x64b7f3a2c1d4e5f6a7b8cd01 "att-1" "user-1"
        { SharedWith := "user-2", Permission := "view", ExpiresAt := "2030-01-01T00:00:00Z" } =
      ({ ({} : Store) with shares := ({} : Store).shares ++
          [{ ID := 0x64b7f3a2c1d4e5f6a7b8cd01, AttachmentID := "att-1", SharedBy := "user-1",
             SharedWith := "user-2", Permission := "view", ExpiresAt := none,
             CreatedAt := 50 }] },
       { status := 201,
         data := some { ID := 0x64b7f3a2c1d4e5f6a7b8cd01, AttachmentID := "att-1",
                        SharedBy := "user-1", SharedWith := "user-2", Permission := "view",
                        ExpiresAt := none, CreatedAt := 50 } }) ∧
    ExtendedHandler.CreateShareLink {} 50 0x64b7f3a2c1d4e5f6a7b8cd01 "3f2a9c1e" "att-1" "user-1"
        { Password := "pw", MaxDownloads := 3, ExpiresAt := "2030-01-01T00:00:00Z" } =
      ({ ({} : Store) with shareLinks := ({} : Store).shareLinks ++
          [{ ID := 0x64b7f3a2c1d4e5f6a7b8cd01, AttachmentID := "att-1", Code := "3f2a9c1e",
             CreatedBy := "user-1", Password := "pw", MaxDownloads := 3, DownloadCount := 0,
             ExpiresAt := none, IsActive := true, CreatedAt := 50 }] },
       { status := 201,
         data := some { ID := 0x64b7f3a2c1d4e5f6a7b8cd01, AttachmentID := "att-1",
                        Code := "3f2a9c1e", CreatedBy := "user-1", Password := "pw",
                        MaxDownloads := 3, DownloadCount := 0, ExpiresAt := none,
                        IsActive := true, CreatedAt := 50 } }) ∧
    (ExtendedHandler.AddToCollection reportsStore 60 0x64b7f3a2c1d4e5f6a7b8cd02 reportsID
        "user-1" { AttachmentID := "att-X" }).1.collItems =
      reportsStore.collItems ++
        [{ ID := 0x64b7f3a2c1d4e5f6a7b8cd02, CollectionID := reportsID, AttachmentID := "att-X",
           AddedBy := "user-1", Position := 0, AddedAt := 60 }] ∧
    reportsStore.collItems = [] :=
  ⟨(handlers_ignore_position_and_expiry {} 50 0x64b7f3a2c1d4e5f6a7b8cd01 "att-1" "user-1"
      "3f2a9c1e" "" { AttachmentID := "att-X" }
      { SharedWith := "user-2", Permission := "view", ExpiresAt := "2030-01-01T00:00:00Z" }
      { Password := "pw", MaxDownloads := 3, ExpiresAt := "2030-01-01T00:00:00Z" }).2.1.2.1
      (by decide) (by decide) (by decide),
   (handlers_ignore_position_and_expiry {} 50 0x64b7f3a2c1d4e5f6a7b8cd01 "att-1" "user-1"
      "3f2a9c1e" "" { AttachmentID := "att-X" }
      { SharedWith := "user-2", Permission := "view", ExpiresAt := "2030-01-01T00:00:00Z" }
      { Password := "pw", MaxDownloads := 3, ExpiresAt := "2030-01-01T00:00:00Z" }).2.2.2.1
      (by decide),
   ((handlers_ignore_position_and_expiry reportsStore 60 0x64b7f3a2c1d4e5f6a7b8cd02 reportsID
      "user-1" "3f2a9c1e" "" { AttachmentID := "att-X" }
      { SharedWith := "user-2", Permission := "view", ExpiresAt := "" }
      { Password := "pw", MaxDownloads := 3, ExpiresAt := "" }).1.2 (by decide) (by decide)).1,
   by decide⟩

/-! ## Bulk deletion -/

/-- C30, at the failing input: `BulkDelete` with the single malformed id "zzz"
parses no id, so the `$in` list stays nil, the store rejects the update and the
call returns an error; the handler answers 500 instead of skipping the id and
reporting `deleted = 1`.  Nothing is changed. -/
theorem BulkDelete_rejects_all_malformed :
    parsedIDs ["zzz"] = [] ∧
      BulkDelete corpusStore 99 ["zzz"] = (corpusStore, some StoreError.ErrBadValue) ∧
      ExtendedHandler.BulkDelete corpusStore 99 ["zzz"] =
        (corpusStore, { status := 500, data := none }) := by
  decide

theorem mem_parsedIDs (ids : List String) (o : ObjectID) :
    o ∈ parsedIDs ids ↔ ∃ id ∈ ids, ObjectIDFromHex id = some o := by
  unfold parsedIDs
  rw [List.mem_filterMap]

/-- When at least one id parses, `BulkDelete` returns no error, marks exactly the
attachments whose id is the value of some id of the list, leaves every other
attachment and every other collection of the store as it was, and the handler
reports `deleted` as the number of ids. -/
theorem BulkDelete_marks_parsed (s : Store) (now : Time) (ids : List String)
    (hsome : parsedIDs ids ≠ []) :
    BulkDelete s now ids =
        ({ s with attachments := s.attachments.map (fun a =>
            if (parsedIDs ids).contains a.ID then
              { a with Status := "deleted", UpdatedAt := now } else a) }, none) ∧
      (∀ a : Attachment, (parsedIDs ids).contains a.ID = true ↔
        ∃ id ∈ ids, ObjectIDFromHex id = some a.ID) ∧
      (ExtendedHandler.BulkDelete s now ids).2 = { status := 200, data := some ids.length } := by
  have hdel : BulkDelete s now ids =
      ({ s with attachments := s.attachments.map (fun a =>
          if (parsedIDs ids).contains a.ID then
            { a with Status := "deleted", UpdatedAt := now } else a) }, none) := by
    unfold BulkDelete
    cases hp : parsedIDs ids with
    | nil => exact absurd hp hsome
    | cons o os => rfl
  refine ⟨hdel, ?_, ?_⟩
  · intro a
    rw [← mem_parsedIDs]
    simp
  · simp only [ExtendedHandler.BulkDelete, hdel]

end AttachmentService
